import Mathlib

/-!
Profile/Group tree operations and settings validation.

A shallow embedding of `ProfileGroup.cpp` and of the validation stages of
`CascadiaSettings.cpp`, followed by theorems about them.

Conventions of the embedding:

* a `std::vector` is a `List`; `std::set<GUID>` is a `Finset GUID`;
* a C++ function that mutates its reference arguments returns their new values;
  a non-const member function also returns the new value of `*this`;
* `auto x = std::get<T>(v)` declares a *copy*: what is done to `x` is not written
  back to `v`, and the embedding keeps that; likewise `ExtractProfiles` fills the
  caller's vector with copies of the profiles, so what a stage does to the elements
  of that local vector is not written back to the tree;
* a thrown `SettingsException` is `Except.error`; an access outside a vector
  (undefined behaviour) is `none`.
-/

namespace TerminalApp

/-! ## Data model -/

/-- A Windows `GUID` (128 bits); only equality and the all-zero value are used. -/
abbrev GUID := Nat

/-- The all-zero guid, `GUID{ 0 }` / `winrt::guid{}`. -/
def nullGuid : GUID := 0

/-- Modelled from the spec: `Profile.h` is not among the sources. A Profile has a
guid, a display name, a hidden flag, an optional color-scheme name, an icon path
and a background-image path (the empty string when unset). -/
structure Profile where
  guid : GUID
  name : String
  hidden : Bool
  schemeName : Option String := none
  icon : String := ""
  backgroundImagePath : String := ""
deriving DecidableEq, Repr

mutual
/-- The element type `std::variant<Profile, ProfileGroup>` of the tree. -/
inductive ProfileOrGroup where
  | profile (p : Profile)
  | group (g : ProfileGroup)
/-- The class `ProfileGroup`: children, name, hidden flag and optional icon. -/
inductive ProfileGroup where
  | mk (_profilesAndGroups : List ProfileOrGroup) (_name : String) (_hidden : Bool)
      (_icon : Option String)
end

/-- The accessor `ProfileGroup::IsHidden`. -/
def ProfileGroup.IsHidden : ProfileGroup → Bool
  | .mk _ _ h _ => h

/-- The member `_profilesAndGroups`. -/
def ProfileGroup.profilesAndGroups : ProfileGroup → List ProfileOrGroup
  | .mk c _ _ _ => c

/-! ## `ProfileGroup.cpp` -/

mutual
/-- The static `ProfileGroup::ExtractProfiles(profilesAndGroups, profiles)`: the new
value of `profiles`. -/
def ExtractProfiles : List ProfileOrGroup → List Profile → List Profile
  | [], profiles => profiles
  | .profile p :: rest, profiles => ExtractProfiles rest (profiles ++ [p])
  | .group g :: rest, profiles =>
      -- `auto group = std::get<ProfileGroup>(profileOrGroup); group.ExtractProfiles(profiles);`
      ExtractProfiles rest (ProfileGroup.ExtractProfiles g profiles).2
/-- The member `ProfileGroup::ExtractProfiles(profiles)`: the group after the call
and the new value of `profiles`. -/
def ProfileGroup.ExtractProfiles : ProfileGroup → List Profile → ProfileGroup × List Profile
  | .mk pgs n h i, profiles => (.mk pgs n h i, ExtractProfiles pgs profiles)
end

mutual
/-- The static `ProfileGroup::FindProfile(profilesAndGroups, profileGuid)`. -/
def FindProfile : List ProfileOrGroup → GUID → Option Profile
  | [], _ => none
  | .profile profile :: rest, profileGuid =>
      if profile.guid = profileGuid then some profile else FindProfile rest profileGuid
  | .group group :: _, profileGuid =>
      -- `return group.FindProfile(profileGuid);`
      ProfileGroup.FindProfile group profileGuid
/-- The const member `ProfileGroup::FindProfile(profileGuid)`. -/
def ProfileGroup.FindProfile : ProfileGroup → GUID → Option Profile
  | .mk pgs _ _ _, profileGuid => FindProfile pgs profileGuid
end

mutual
/-- The static `ProfileGroup::RemoveHiddenProfiles(profilesAndGroups)`: the vector
after `erase(remove_if(...))`. An element is dropped when the lambda returns true. -/
def RemoveHiddenProfiles : List ProfileOrGroup → List ProfileOrGroup
  | [] => []
  | .profile profile :: rest =>
      if profile.hidden then RemoveHiddenProfiles rest
      else .profile profile :: RemoveHiddenProfiles rest
  | .group g :: rest =>
      -- `auto group = std::get<ProfileGroup>(profileOrGroup);` copies the element,
      -- `group.RemoveHiddenProfiles();` changes the copy, `return group.IsHidden();`
      let group := ProfileGroup.RemoveHiddenProfiles g
      if group.IsHidden then RemoveHiddenProfiles rest
      else .group g :: RemoveHiddenProfiles rest
/-- The member `ProfileGroup::RemoveHiddenProfiles()`: the group after the call. -/
def ProfileGroup.RemoveHiddenProfiles : ProfileGroup → ProfileGroup
  | .mk pgs n h i => .mk (RemoveHiddenProfiles pgs) n h i
end

/-- The second loop of `RemoveDuplicateProfiles`: `erase(begin() + *iter)` for each
index of the given sequence, in that sequence's order. -/
def eraseIndices {α : Type} (v : List α) (indices : List Nat) : List α :=
  indices.foldl (fun acc i => acc.eraseIdx i) v

/-- The variables of the first loop of `RemoveDuplicateProfiles`. -/
structure DupScan where
  uniqueGuids : Finset GUID
  indicesToDelete : List Nat
  foundDupeOverall : Bool

mutual
/-- The first loop of the static `ProfileGroup::RemoveDuplicateProfiles`, from
index `i` on, over the elements not yet visited. -/
def collectDuplicates : List ProfileOrGroup → Nat → DupScan → DupScan
  | [], _, st => st
  | .profile profile :: rest, i, st =>
      -- `if (!uniqueGuids.insert(profile.GetGuid()).second)`
      if profile.guid ∈ st.uniqueGuids then
        collectDuplicates rest (i + 1)
          { st with indicesToDelete := st.indicesToDelete ++ [i], foundDupeOverall := true }
      else
        collectDuplicates rest (i + 1) { st with uniqueGuids := insert profile.guid st.uniqueGuids }
  | .group g :: rest, i, st =>
      -- `auto group = std::get<ProfileGroup>(profileOrGroup);` copies the element,
      -- `group.RemoveDuplicateProfiles(uniqueGuids)` changes the copy and the shared set
      let r := ProfileGroup.RemoveDuplicateProfiles g st.uniqueGuids
      collectDuplicates rest (i + 1)
        { st with uniqueGuids := r.2.1,
                  foundDupeOverall := if r.2.2 then true else st.foundDupeOverall }
/-- The member `ProfileGroup::RemoveDuplicateProfiles(uniqueGuids)`: the group after
the call, the set after the call and the returned flag. Its body is the body of the
static function applied to `_profilesAndGroups`. -/
def ProfileGroup.RemoveDuplicateProfiles :
    ProfileGroup → Finset GUID → ProfileGroup × Finset GUID × Bool
  | .mk pgs n h ic, uniqueGuids =>
      let st := collectDuplicates pgs 0 ⟨uniqueGuids, [], false⟩
      (.mk (eraseIndices pgs st.indicesToDelete.reverse) n h ic, st.uniqueGuids,
        st.foundDupeOverall)
end

/-- The static `ProfileGroup::RemoveDuplicateProfiles(profilesAndGroups, uniqueGuids)`:
the vector after the call, the set after the call and the returned flag. -/
def RemoveDuplicateProfiles (profilesAndGroups : List ProfileOrGroup)
    (uniqueGuids : Finset GUID) : List ProfileOrGroup × Finset GUID × Bool :=
  let st := collectDuplicates profilesAndGroups 0 ⟨uniqueGuids, [], false⟩
  (eraseIndices profilesAndGroups st.indicesToDelete.reverse, st.uniqueGuids,
    st.foundDupeOverall)

/-! ## `CascadiaSettings.cpp` -/

/-- Modelled from the spec: the warning enumeration is declared outside the sources.
The nested per-binding warnings carry a number that tells them apart. -/
inductive SettingsLoadWarnings where
  | MissingDefaultProfile
  | DuplicateProfile
  | UnknownColorScheme
  | InvalidBackgroundImage
  | InvalidIcon
  | AtLeastOneKeybindingWarning
  | KeybindingWarning (kind : Nat)
  | InvalidColorSchemeInCmd
  | LegacyGlobalsProperty
deriving DecidableEq, Repr

/-- Modelled from the spec: the fatal conditions raised by the validation stages. -/
inductive SettingsLoadErrors where
  | NoProfiles
  | AllProfilesHidden
deriving DecidableEq, Repr

/-- Modelled from the spec: an entry of a document's "profiles" list, as the helpers
absent from the sources see it: not a JSON object, an object holding a "profiles"
list (a Group, `_GetProfileGroupProfilesList` is not null), or a Profile object with
the guid that `Profile::GetGuidOrGenerateForJson` gives it. -/
inductive ProfileJson where
  | notObject
  | group
  | profile (guid : GUID)
deriving DecidableEq, Repr

/-- Modelled from the spec: a settings document, seen through
`_GetProfilesJsonObject` (its profile entries) and `isMember` (its top-level keys). -/
structure JsonDocument where
  profiles : List ProfileJson := []
  members : List String := []
deriving DecidableEq, Repr

/-- Modelled from the spec: the iteration-expansion marker of a command
(`ExpandCommandType`, declared outside the sources). -/
inductive ExpandCommandType where
  | None
  | Profiles
  | ColorSchemes
deriving DecidableEq, Repr

/-- Modelled from the spec: the arguments of an action, as `try_as<SetColorSchemeArgs>`
sees them: "set color scheme" arguments with their scheme name, or anything else. -/
inductive ActionArgs where
  | SetColorSchemeArgs (SchemeName : String)
  | otherArgs
deriving DecidableEq, Repr

/-- Modelled from the spec: an action with its (possibly null) arguments. -/
structure ActionAndArgs where
  Args : Option ActionArgs := none
deriving DecidableEq, Repr

/-- Modelled from the spec: a command of the command tree (`Command.h` is not among
the sources): its name, its nested commands, its (possibly null) action and its
iteration-expansion marker. -/
inductive Command where
  | mk (Name : String) (NestedCommands : List Command) (Action : Option ActionAndArgs)
      (IterateOn : ExpandCommandType)

/-- The nested commands of a command. -/
def Command.NestedCommands : Command → List Command
  | .mk _ nested _ _ => nested

/-- Modelled from the spec: `Command::HasNestedCommands`, true when the command holds
at least one nested command. -/
def Command.HasNestedCommands (c : Command) : Bool :=
  !c.NestedCommands.isEmpty

/-- The action of a command. -/
def Command.Action : Command → Option ActionAndArgs
  | .mk _ _ action _ => action

/-- The iteration-expansion marker of a command. -/
def Command.IterateOn : Command → ExpandCommandType
  | .mk _ _ _ iterateOn => iterateOn

/-- Modelled from the spec: the part of `GlobalAppSettings` the stages read and write:
the default-profile guid, the names (keys) of the scheme map, the warnings of the
keybinding parser and the commands. -/
structure GlobalAppSettings where
  DefaultProfile : GUID := nullGuid
  ColorSchemes : List String := []
  KeybindingsWarnings : List SettingsLoadWarnings := []
  Commands : List Command := []

/-- Modelled from the spec: a Profile object of the settings model, held by reference
(`winrt::com_ptr<Profile>`): its own settings and the references to its parents in the
inheritance graph. -/
structure ProfileObject where
  settings : Profile
  parents : List Nat := []
deriving DecidableEq, Repr

/-- The members of `CascadiaSettings` the embedded functions use. `objects` holds the
Profile objects that `_allProfiles`, `_activeProfiles` and
`_userDefaultProfileSettings` refer to: a reference is an index into it. -/
structure CascadiaSettings where
  _profilesAndGroups : List ProfileOrGroup := []
  _globals : GlobalAppSettings := {}
  _warnings : List SettingsLoadWarnings := []
  _userSettings : JsonDocument := {}
  _defaultSettings : JsonDocument := {}
  objects : List ProfileObject := []
  _allProfiles : List Nat := []
  _activeProfiles : List Nat := []
  _userDefaultProfileSettings : Option Nat := none

/-- The variables captured by the lambda `collectGuids`. -/
structure GuidCollector where
  uniqueGuids : Finset GUID
  guidOrder : List GUID

/-- The lambda `collectGuids` of `_ReorderProfilesToMatchUserSettingsOrder`, applied to
the profile entries of one document. -/
def collectGuids : List ProfileJson → GuidCollector → GuidCollector
  | [], st => st
  | .notObject :: rest, st => collectGuids rest st
  | .group :: rest, st =>
      collectGuids rest { st with guidOrder := st.guidOrder ++ [nullGuid] }
  | .profile guid :: rest, st =>
      -- `if (uniqueGuids.insert(guid).second)`
      if guid ∈ st.uniqueGuids then collectGuids rest st
      else collectGuids rest ⟨insert guid st.uniqueGuids, st.guidOrder ++ [guid]⟩

/-- The call `std::iter_swap(begin() + i, begin() + j)`, both positions inside the vector. -/
def iter_swap {α : Type} (v : List α) (i j : Nat) : List α :=
  match v[i]?, v[j]? with
  | some a, some b => (v.set i b).set j a
  | _, _ => v

/-- The inner loop `for (pIndex = gIndex; pIndex < size; pIndex++)`: the first
argument counts the iterations left (`size - pIndex`), the second is `pIndex`. -/
def swapFirstMatch (pgs : List ProfileOrGroup) (guid : GUID) (gIndex : Nat) :
    Nat → Nat → List ProfileOrGroup
  | 0, _ => pgs
  | remaining + 1, pIndex =>
      match pgs[pIndex]? with
      | some (.profile profile) =>
          if profile.guid = guid then iter_swap pgs pIndex gIndex
          else swapFirstMatch pgs guid gIndex remaining (pIndex + 1)
      | _ => swapFirstMatch pgs guid gIndex remaining (pIndex + 1)

/-- The outer loop `for (gIndex = 0; gIndex < guidOrder.size(); gIndex++)` from
`gIndex` on, over the guids of `guidOrder` not yet visited. The counter is a
`uint32_t`; it cannot wrap while `guidOrder` has fewer than `2^32` entries. -/
def reorderLoop : List GUID → Nat → List ProfileOrGroup → List ProfileOrGroup
  | [], _, pgs => pgs
  | guid :: rest, gIndex, pgs =>
      reorderLoop rest (gIndex + 1) (swapFirstMatch pgs guid gIndex (pgs.length - gIndex) gIndex)

/-- The guid order that `_ReorderProfilesToMatchUserSettingsOrder` builds: the user
document is collected first, then the default document. -/
def guidOrderOf (userSettings defaultSettings : JsonDocument) : List GUID :=
  (collectGuids defaultSettings.profiles
    (collectGuids userSettings.profiles ⟨∅, []⟩)).guidOrder

/-- The stage `CascadiaSettings::_ValidateProfilesExist`. -/
def _ValidateProfilesExist (s : CascadiaSettings) : Except SettingsLoadErrors CascadiaSettings :=
  let profiles := ExtractProfiles s._profilesAndGroups []
  let hasProfiles := !profiles.isEmpty
  if !hasProfiles then .error .NoProfiles
  else .ok s

/-- The stage `CascadiaSettings::_ReorderProfilesToMatchUserSettingsOrder`. -/
def _ReorderProfilesToMatchUserSettingsOrder (s : CascadiaSettings) : CascadiaSettings :=
  { s with _profilesAndGroups :=
      reorderLoop (guidOrderOf s._userSettings s._defaultSettings) 0 s._profilesAndGroups }

/-- The stage `CascadiaSettings::_UpdateActiveProfiles`. -/
def _UpdateActiveProfiles (s : CascadiaSettings) : Except SettingsLoadErrors CascadiaSettings :=
  let profilesAndGroups := RemoveHiddenProfiles s._profilesAndGroups
  let profiles := ExtractProfiles profilesAndGroups []
  let hasProfiles := !profiles.isEmpty
  if !hasProfiles then .error .AllProfilesHidden
  else .ok { s with _profilesAndGroups := profilesAndGroups }

/-- The stage `CascadiaSettings::_ValidateNoDuplicateProfiles`. -/
def _ValidateNoDuplicateProfiles (s : CascadiaSettings) : CascadiaSettings :=
  let r := RemoveDuplicateProfiles s._profilesAndGroups ∅
  let foundDupe := r.2.2
  if foundDupe then
    { s with _profilesAndGroups := r.1,
             _warnings := s._warnings ++ [.DuplicateProfile] }
  else { s with _profilesAndGroups := r.1 }

/-- The search loop of `_ValidateDefaultProfileExists`: the value of
`defaultProfileNotInProfiles` after it. -/
def defaultProfileNotInProfiles (defaultProfileGuid : GUID) : List Profile → Bool
  | [] => true
  | profile :: rest =>
      if profile.guid = defaultProfileGuid then false
      else defaultProfileNotInProfiles defaultProfileGuid rest

/-- The stage `CascadiaSettings::_ValidateDefaultProfileExists`; `none` when
`profiles[0]` is read from an empty vector. -/
def _ValidateDefaultProfileExists (s : CascadiaSettings) : Option CascadiaSettings :=
  let defaultProfileGuid := s._globals.DefaultProfile
  let nullDefaultProfile := decide (defaultProfileGuid = nullGuid)
  let profiles := ExtractProfiles s._profilesAndGroups []
  if nullDefaultProfile || defaultProfileNotInProfiles defaultProfileGuid profiles then
    match profiles with
    | [] => none
    | first :: _ =>
        some { s with _warnings := s._warnings ++ [.MissingDefaultProfile],
                      _globals := { s._globals with DefaultProfile := first.guid } }
  else some s

/-! ## Specification-side definitions -/

mutual
/-- Flatten as the specification words it: depth-first, left to right; a Profile
contributes itself, a Group contributes the flattening of its children in place. -/
def flatten : List ProfileOrGroup → List Profile
  | [] => []
  | .profile p :: rest => p :: flatten rest
  | .group g :: rest => flattenGroup g ++ flatten rest
/-- The flattening of the children of a Group. -/
def flattenGroup : ProfileGroup → List Profile
  | .mk pgs _ _ _ => flatten pgs
end

/-- The sequence of first occurrences of a guid sequence, in order. -/
def firstOccurrences : List GUID → List GUID
  | [] => []
  | g :: rest => g :: (firstOccurrences rest).filter (fun x => x ≠ g)

/-- The guid of a Profile entry of a document; nothing for the other entries. -/
def entryGuid : ProfileJson → Option GUID
  | .profile g => some g
  | _ => none

/-- The guids of the Profile entries of a document, in document order. -/
def docGuids (doc : JsonDocument) : List GUID :=
  doc.profiles.filterMap entryGuid

/-- The order the specification asks of the reorder stage: the guids of the user
document in user-document order, then the guids of the default document that the
user document does not have, in default-document order. -/
def userThenDefaultOrder (userSettings defaultSettings : JsonDocument) : List GUID :=
  firstOccurrences (docGuids userSettings) ++
    (firstOccurrences (docGuids defaultSettings)).filter (fun g => g ∉ docGuids userSettings)

/-- The guid under which the reorder loop can find an element: a Profile is found
under its guid, a Group is never found. -/
def swapKey : ProfileOrGroup → Option GUID
  | .profile p => some p.guid
  | .group _ => none

/-- The Profile held by an element of the tree, when it is one. -/
def asProfile : ProfileOrGroup → Option Profile
  | .profile p => some p
  | .group _ => none

/-! ## Concrete inputs -/

/-- A visible top-level profile with guid 1. -/
def dupFirst : Profile := { guid := 1, name := "First", hidden := false }

/-- A second visible profile with the same guid 1. -/
def dupNested : Profile := { guid := 1, name := "Nested", hidden := false }

/-- A profile followed by a Group that holds a profile with the same guid. -/
def dupTree : List ProfileOrGroup :=
  [.profile dupFirst, .group (.mk [.profile dupNested] "Group" false none)]

/-- A hidden profile. -/
def hiddenProfile : Profile := { guid := 7, name := "Hidden", hidden := true }

/-- A visible Group that holds one hidden profile. -/
def hiddenInGroupTree : List ProfileOrGroup :=
  [.group (.mk [.profile hiddenProfile] "Group" false none)]

/-- A visible profile. -/
def visibleProfile : Profile := { guid := 8, name := "Visible", hidden := false }

/-- The hidden Group "Inner", holding one visible profile. -/
def innerHiddenGroup : ProfileGroup :=
  .mk [.profile visibleProfile] "Inner" true none

/-- A visible Group "Outer" whose only child is the hidden Group "Inner". -/
def hiddenGroupTree : List ProfileOrGroup :=
  [.group (.mk [.group innerHiddenGroup] "Outer" false none)]

/-- An empty Group followed by a profile with guid 8. -/
def findTree : List ProfileOrGroup :=
  [.group (.mk [] "Group" false none), .profile visibleProfile]

/-- Profile A with guid g1 = 1. -/
def exA : Profile := { guid := 1, name := "A", hidden := false }

/-- Profile B with guid g2 = 2, hidden. -/
def exB : Profile := { guid := 2, name := "B", hidden := true }

/-- Profile C with guid g3 = 3. -/
def exC : Profile := { guid := 3, name := "C", hidden := false }

/-- The default document of the end-to-end example: A, B, C. -/
def exDefaultDoc : JsonDocument := { profiles := [.profile 1, .profile 2, .profile 3] }

/-- The user document of the end-to-end example: C, A. -/
def exUserDoc : JsonDocument := { profiles := [.profile 3, .profile 1] }

/-- A user document that lists all three profiles: C, A, B. -/
def exFullUserDoc : JsonDocument := { profiles := [.profile 3, .profile 1, .profile 2] }

/-- The settings of the end-to-end example before validation: the profiles in the
order of the default document, no default profile set, no warnings. -/
def exSettings : CascadiaSettings :=
  { _profilesAndGroups := [.profile exA, .profile exB, .profile exC],
    _userSettings := exUserDoc,
    _defaultSettings := exDefaultDoc }

/-- The settings of the example with the user document that lists all profiles. -/
def exFullSettings : CascadiaSettings :=
  { _profilesAndGroups := [.profile exA, .profile exB, .profile exC],
    _userSettings := exFullUserDoc,
    _defaultSettings := exDefaultDoc }

/-- The example after the reorder stage and after the hidden profiles are removed. -/
def exActiveSettings : CascadiaSettings :=
  { _profilesAndGroups := [.profile exC, .profile exA],
    _userSettings := exUserDoc,
    _defaultSettings := exDefaultDoc }

/-- The example after the hidden profiles are removed, with the default set to A. -/
def exDefaultSetSettings : CascadiaSettings :=
  { _profilesAndGroups := [.profile exC, .profile exA],
    _globals := { DefaultProfile := 1 },
    _userSettings := exUserDoc,
    _defaultSettings := exDefaultDoc }

/-! ## The later validation stages -/

/-- The number of `wchar_t` code units of a string, `std::wstring::size()`: a
character outside the basic plane takes two. -/
def wcharSize (str : String) : Nat :=
  (str.toList.map fun c => if c.toNat < 65536 then 1 else 2).sum

/-- The loop of `_ValidateAllSchemesExist` over the local vector `profiles`, from the
flag value `foundInvalidScheme`: the vector and the flag after the loop. -/
def schemesLoop (colorSchemes : List String) : List Profile → Bool → List Profile × Bool
  | [], foundInvalidScheme => ([], foundInvalidScheme)
  | profile :: rest, foundInvalidScheme =>
      match profile.schemeName with
      | some schemeName =>
          if schemeName ∈ colorSchemes then
            let r := schemesLoop colorSchemes rest foundInvalidScheme
            (profile :: r.1, r.2)
          else
            -- `profile.SetColorScheme({ L"Campbell" }); foundInvalidScheme = true;`
            let r := schemesLoop colorSchemes rest true
            ({ profile with schemeName := some "Campbell" } :: r.1, r.2)
      | none =>
          let r := schemesLoop colorSchemes rest foundInvalidScheme
          (profile :: r.1, r.2)

/-- The variables of the loop of `_ValidateMediaResources`. -/
structure MediaScan where
  profiles : List Profile
  invalidBackground : Bool
  invalidIcon : Bool

/-- The first `if` of the loop body of `_ValidateMediaResources`: the profile after it
and whether `invalidBackground` was set. `isValidUri` tells whether the `Uri`
constructor accepts a string without throwing. -/
def checkBackgroundImage (isValidUri : String → Bool)
    (ExpandedBackgroundImagePath : Profile → String) (profile : Profile) : Profile × Bool :=
  if profile.backgroundImagePath ≠ "" then
    if isValidUri (ExpandedBackgroundImagePath profile) then (profile, false)
    else ({ profile with backgroundImagePath := "" }, true)
  else (profile, false)

/-- The second `if` of the loop body of `_ValidateMediaResources`: the profile after it
and whether `invalidIcon` was set. -/
def checkIcon (isValidUri : String → Bool) (ExpandEnvironmentStrings : String → String)
    (profile : Profile) : Profile × Bool :=
  if profile.icon ≠ "" then
    let iconPath := ExpandEnvironmentStrings profile.icon
    if isValidUri iconPath then (profile, false)
    else if wcharSize iconPath > 2 then ({ profile with icon := "" }, true)
    else (profile, false)
  else (profile, false)

/-- The loop of `_ValidateMediaResources` over the local vector `profiles`. -/
def mediaLoop (isValidUri : String → Bool) (ExpandedBackgroundImagePath : Profile → String)
    (ExpandEnvironmentStrings : String → String) : List Profile → Bool → Bool → MediaScan
  | [], invalidBackground, invalidIcon => ⟨[], invalidBackground, invalidIcon⟩
  | profile :: rest, invalidBackground, invalidIcon =>
      let b := checkBackgroundImage isValidUri ExpandedBackgroundImagePath profile
      let i := checkIcon isValidUri ExpandEnvironmentStrings b.1
      let r := mediaLoop isValidUri ExpandedBackgroundImagePath ExpandEnvironmentStrings rest
        (invalidBackground || b.2) (invalidIcon || i.2)
      ⟨i.1 :: r.profiles, r.invalidBackground, r.invalidIcon⟩

mutual
/-- The member `CascadiaSettings::_HasInvalidColorScheme(command)`, given the keys of
the global scheme map. -/
def _HasInvalidColorScheme (colorSchemes : List String) : Command → Bool
  | .mk _ nested action iterateOn =>
      if !nested.isEmpty then
        nestedLoop colorSchemes nested
      else
        match action with
        | some actionAndArgs =>
            match actionAndArgs.Args with
            | some (.SetColorSchemeArgs schemeName) =>
                decide (iterateOn ≠ .ColorSchemes) && !decide (schemeName ∈ colorSchemes)
            | _ => false
        | none => false
/-- The loop of `_HasInvalidColorScheme` over the nested commands: true as soon as one
of them is invalid. -/
def nestedLoop (colorSchemes : List String) : List Command → Bool
  | [] => false
  | nested :: rest =>
      if _HasInvalidColorScheme colorSchemes nested then true
      else nestedLoop colorSchemes rest
end

/-- The loop of `_ValidateColorSchemesInCommands` over the global commands: the value
of `foundInvalidScheme` after it. -/
def commandsLoop (colorSchemes : List String) : List Command → Bool
  | [] => false
  | cmd :: rest =>
      if _HasInvalidColorScheme colorSchemes cmd then true
      else commandsLoop colorSchemes rest

/-- Modelled from the spec: what the stages call outside the sources:
`_ResolveDefaultProfile` (the guid it resolves the default reference to), the `Uri`
constructor (whether it accepts a string or throws), and the two expansions
`Profile::ExpandedBackgroundImagePath` and `wil::ExpandEnvironmentStringsW`, which are
taken to return a string. -/
structure Collaborators where
  resolveDefaultProfile : CascadiaSettings → GUID
  isValidUri : String → Bool
  ExpandedBackgroundImagePath : Profile → String
  ExpandEnvironmentStrings : String → String

/-- Modelled from the spec: the stage `_ResolveDefaultProfile`, whose body is not among
the sources: it resolves the default-profile reference to a guid and stores it. -/
def _ResolveDefaultProfile (env : Collaborators) (s : CascadiaSettings) : CascadiaSettings :=
  { s with _globals := { s._globals with DefaultProfile := env.resolveDefaultProfile s } }

/-- The stage `CascadiaSettings::_ValidateAllSchemesExist`. The loop works on the local
vector `profiles` that `ExtractProfiles` filled with copies; the vector is dropped when
the function returns. -/
def _ValidateAllSchemesExist (s : CascadiaSettings) : CascadiaSettings :=
  let profiles := ExtractProfiles s._profilesAndGroups []
  let r := schemesLoop s._globals.ColorSchemes profiles false
  let foundInvalidScheme := r.2
  if foundInvalidScheme then { s with _warnings := s._warnings ++ [.UnknownColorScheme] }
  else s

/-- The two `if`s at the end of `_ValidateMediaResources`: the warnings list after them. -/
def appendMediaWarnings (warnings : List SettingsLoadWarnings)
    (invalidBackground invalidIcon : Bool) : List SettingsLoadWarnings :=
  let w := if invalidBackground then warnings ++ [.InvalidBackgroundImage] else warnings
  if invalidIcon then w ++ [.InvalidIcon] else w

/-- The stage `CascadiaSettings::_ValidateMediaResources`. The loop works on the local
vector `profiles` that `ExtractProfiles` filled with copies; the vector is dropped when
the function returns. -/
def _ValidateMediaResources (env : Collaborators) (s : CascadiaSettings) : CascadiaSettings :=
  let profiles := ExtractProfiles s._profilesAndGroups []
  let r := mediaLoop env.isValidUri env.ExpandedBackgroundImagePath
    env.ExpandEnvironmentStrings profiles false false
  { s with _warnings := appendMediaWarnings s._warnings r.invalidBackground r.invalidIcon }

/-- The stage `CascadiaSettings::_ValidateKeybindings`. -/
def _ValidateKeybindings (s : CascadiaSettings) : CascadiaSettings :=
  let keybindingWarnings := s._globals.KeybindingsWarnings
  if !keybindingWarnings.isEmpty then
    let warnings := s._warnings ++ [.AtLeastOneKeybindingWarning]
    { s with _warnings := keybindingWarnings.foldl (fun acc warning => acc ++ [warning]) warnings }
  else s

/-- The stage `CascadiaSettings::_ValidateColorSchemesInCommands`. -/
def _ValidateColorSchemesInCommands (s : CascadiaSettings) : CascadiaSettings :=
  let foundInvalidScheme := commandsLoop s._globals.ColorSchemes s._globals.Commands
  if foundInvalidScheme then { s with _warnings := s._warnings ++ [.InvalidColorSchemeInCmd] }
  else s

/-- The stage `CascadiaSettings::_ValidateNoGlobalsKey`. -/
def _ValidateNoGlobalsKey (s : CascadiaSettings) : CascadiaSettings :=
  if "globals" ∈ s._userSettings.members then
    { s with _warnings := s._warnings ++ [.LegacyGlobalsProperty] }
  else s

/-- The ways a run of `_ValidateSettings` can end: it returns, it throws a
`SettingsException`, or it reads outside a vector. -/
inductive ValidationOutcome where
  | completed (s : CascadiaSettings)
  | failed (error : SettingsLoadErrors)
  | undefinedBehaviour

/-- The stages of `_ValidateSettings` after `_ValidateDefaultProfileExists`, in order. -/
def warningStages (env : Collaborators) (s : CascadiaSettings) : CascadiaSettings :=
  _ValidateNoGlobalsKey (_ValidateColorSchemesInCommands (_ValidateKeybindings
    (_ValidateMediaResources env (_ValidateAllSchemesExist s))))

/-- The function `CascadiaSettings::_ValidateSettings`: the eleven stages in order. -/
def _ValidateSettings (env : Collaborators) (s : CascadiaSettings) : ValidationOutcome :=
  match _ValidateProfilesExist s with
  | .error e => .failed e
  | .ok s1 =>
      match _UpdateActiveProfiles (_ReorderProfilesToMatchUserSettingsOrder s1) with
      | .error e => .failed e
      | .ok s3 =>
          match _ValidateDefaultProfileExists
              (_ResolveDefaultProfile env (_ValidateNoDuplicateProfiles s3)) with
          | none => .undefinedBehaviour
          | some s6 => .completed (warningStages env s6)

/-! ## Specification-side definitions for the later stages -/

/-- The guid scan the specification describes for duplicates: true when some guid of
the sequence is in the seen set or occurs earlier in the sequence. -/
def hasDuplicate (seen : Finset GUID) : List GUID → Bool
  | [] => false
  | g :: rest => decide (g ∈ seen) || hasDuplicate (insert g seen) rest

/-- What `RemoveDuplicateProfiles` leaves of the top-level vector: a Profile whose guid
has been seen is dropped, any other element is kept; a Group adds the guids of all
its profiles to the seen set. -/
def dedupTopLevel : List ProfileOrGroup → Finset GUID → List ProfileOrGroup
  | [], _ => []
  | .profile p :: rest, seen =>
      if p.guid ∈ seen then dedupTopLevel rest seen
      else .profile p :: dedupTopLevel rest (insert p.guid seen)
  | .group g :: rest, seen =>
      .group g :: dedupTopLevel rest (seen ∪ ((flattenGroup g).map fun p => p.guid).toFinset)

/-- The indices that the first loop of `RemoveDuplicateProfiles` collects from index
`i` on: those of the top-level Profiles whose guid has been seen. -/
def duplicateIndices : List ProfileOrGroup → Nat → Finset GUID → List Nat
  | [], _, _ => []
  | .profile p :: rest, i, seen =>
      if p.guid ∈ seen then i :: duplicateIndices rest (i + 1) seen
      else duplicateIndices rest (i + 1) (insert p.guid seen)
  | .group g :: rest, i, seen =>
      duplicateIndices rest (i + 1) (seen ∪ ((flattenGroup g).map fun p => p.guid).toFinset)

mutual
/-- The commands reachable from a command through nesting: the command itself and the
commands reachable from its nested commands. -/
def Command.reachable : Command → List Command
  | .mk name nested action iterateOn =>
      .mk name nested action iterateOn :: reachableFrom nested
/-- The commands reachable from the commands of a list. -/
def reachableFrom : List Command → List Command
  | [] => []
  | c :: rest => c.reachable ++ reachableFrom rest
end

/-- A command carries an invalid color scheme: its action is a "set color scheme"
action, the command does not iterate over color schemes, and the scheme name is not
a key of the scheme map. -/
def Command.carriesInvalidScheme (colorSchemes : List String) (c : Command) : Prop :=
  ∃ schemeName, c.Action = some (ActionAndArgs.mk (some (.SetColorSchemeArgs schemeName))) ∧
    c.IterateOn ≠ .ColorSchemes ∧ schemeName ∉ colorSchemes

/-! ## Concrete inputs for the later stages -/

/-- A tree made only of empty Groups, one of them nested. -/
def emptyGroupsTree : List ProfileOrGroup :=
  [.group (.mk [] "Empty" false none),
   .group (.mk [.group (.mk [] "Inner" false none)] "Outer" false none)]

/-- Settings whose tree is a visible Group holding one hidden profile: every profile
of the tree is hidden. -/
def allHiddenSettings : CascadiaSettings :=
  { _profilesAndGroups := hiddenInGroupTree }

/-- Collaborators for the examples: the default reference resolves to the guid already
stored, every string is a valid resource reference, nothing is expanded. -/
def exEnv : Collaborators :=
  { resolveDefaultProfile := fun s => s._globals.DefaultProfile,
    isValidUri := fun _ => true,
    ExpandedBackgroundImagePath := fun p => p.backgroundImagePath,
    ExpandEnvironmentStrings := fun str => str }

/-- The end-to-end example after the whole run of `_ValidateSettings`. -/
def exValidatedSettings : CascadiaSettings :=
  { _profilesAndGroups := [.profile exC, .profile exA],
    _globals := { DefaultProfile := 3 },
    _warnings := [.MissingDefaultProfile],
    _userSettings := exUserDoc,
    _defaultSettings := exDefaultDoc }

/-- Settings whose tree holds three profiles with guid 1, two of them in a Group. -/
def tripleDupSettings : CascadiaSettings :=
  { _profilesAndGroups :=
      [.profile dupFirst, .group (.mk [.profile dupNested, .profile dupNested] "Group" false none)] }

/-! ## Specification-side definitions for the scheme and media stages -/

/-- A profile names a color scheme that is not a key of the scheme map. -/
def hasUnknownScheme (colorSchemes : List String) (p : Profile) : Bool :=
  match p.schemeName with
  | some schemeName => !decide (schemeName ∈ colorSchemes)
  | none => false

/-- The reset the specification describes: a profile with an unknown scheme name gets
the built-in fallback name, any other profile is left as it is. -/
def resetUnknownScheme (colorSchemes : List String) (p : Profile) : Profile :=
  if hasUnknownScheme colorSchemes p then { p with schemeName := some "Campbell" } else p

/-- A profile has a background image that is set and whose expanded path is not a
well-formed resource reference. -/
def hasInvalidBackground (env : Collaborators) (p : Profile) : Bool :=
  decide (p.backgroundImagePath ≠ "") && !env.isValidUri (env.ExpandedBackgroundImagePath p)

/-- A profile has an icon that is set and whose expanded path is not a well-formed
resource reference. -/
def hasIllFormedIcon (env : Collaborators) (p : Profile) : Bool :=
  decide (p.icon ≠ "") && !env.isValidUri (env.ExpandEnvironmentStrings p.icon)

/-- A profile has an ill-formed icon whose expanded path is longer than two code units. -/
def hasInvalidIcon (env : Collaborators) (p : Profile) : Bool :=
  hasIllFormedIcon env p && decide (wcharSize (env.ExpandEnvironmentStrings p.icon) > 2)

/-- What the loop of the media stage makes of a profile: an invalid background image
and an invalid icon are cleared. -/
def clearInvalidMedia (env : Collaborators) (p : Profile) : Profile :=
  { p with
    backgroundImagePath := if hasInvalidBackground env p then "" else p.backgroundImagePath,
    icon := if hasInvalidIcon env p then "" else p.icon }

/-- A profile whose scheme name "Nope" is not the name of any scheme. -/
def unknownSchemeProfile : Profile :=
  { guid := 5, name := "Custom", hidden := false, schemeName := some "Nope" }

/-- Settings with one profile that names the scheme "Nope" and an empty scheme map. -/
def unknownSchemeSettings : CascadiaSettings :=
  { _profilesAndGroups := [.profile unknownSchemeProfile] }

/-- Settings with the same profile and a scheme map that holds "Campbell" and "Solarized". -/
def knownFallbackSettings : CascadiaSettings :=
  { _profilesAndGroups := [.profile unknownSchemeProfile, .profile exA],
    _globals := { ColorSchemes := ["Campbell", "Solarized"] } }

/-- Collaborators for which a resource reference is well-formed when it holds the
scheme separator ':', and nothing is expanded. -/
def colonEnv : Collaborators :=
  { resolveDefaultProfile := fun s => s._globals.DefaultProfile,
    isValidUri := fun str => decide (':' ∈ str.toList),
    ExpandedBackgroundImagePath := fun p => p.backgroundImagePath,
    ExpandEnvironmentStrings := fun str => str }

/-- A profile whose icon is the two-character text "ab", not a resource reference. -/
def shortIconProfile : Profile :=
  { guid := 6, name := "Short", hidden := false, icon := "ab" }

/-- A profile whose icon and background image are set and are no resource references. -/
def badMediaProfile : Profile :=
  { guid := 9, name := "Bad", hidden := false, icon := "not an icon",
    backgroundImagePath := "not an image" }

/-- Settings with the short-icon profile alone. -/
def shortIconSettings : CascadiaSettings :=
  { _profilesAndGroups := [.profile shortIconProfile] }

/-- Settings with the short-icon profile and the profile with invalid media. -/
def badMediaSettings : CascadiaSettings :=
  { _profilesAndGroups := [.profile shortIconProfile, .profile badMediaProfile] }

/-- Settings with two keybinding warnings and one earlier warning. -/
def keybindingSettings : CascadiaSettings :=
  { _profilesAndGroups := [.profile exA],
    _globals := { KeybindingsWarnings := [.KeybindingWarning 1, .KeybindingWarning 2] },
    _warnings := [.MissingDefaultProfile] }

/-- A command without nested commands that sets the known scheme "Campbell". -/
def validLeafCommand : Command :=
  .mk "child" [] (some ⟨some (.SetColorSchemeArgs "Campbell")⟩) .None

/-- A command without nested commands that sets the unknown scheme "Nope". -/
def invalidLeafCommand : Command :=
  .mk "broken" [] (some ⟨some (.SetColorSchemeArgs "Nope")⟩) .None

/-- A command that holds the valid nested command and whose own action sets the
unknown scheme "Nope". -/
def parentCommand : Command :=
  .mk "parent" [validLeafCommand] (some ⟨some (.SetColorSchemeArgs "Nope")⟩) .None

/-- Settings whose only command is the parent command; the scheme map holds "Campbell". -/
def parentCommandSettings : CascadiaSettings :=
  { _profilesAndGroups := [.profile exA],
    _globals := { ColorSchemes := ["Campbell"], Commands := [parentCommand] } }

/-- Settings whose command tree holds the invalid command two levels down. -/
def nestedInvalidSettings : CascadiaSettings :=
  { _profilesAndGroups := [.profile exA],
    _globals :=
      { ColorSchemes := ["Campbell"],
        Commands := [validLeafCommand,
          .mk "menu" [.mk "submenu" [validLeafCommand, invalidLeafCommand] none .None] none
            .None] } }


/-! ## Lookups by guid and by name -/

/-- The by-name loop that `CascadiaSettings.cpp` shows after the guid lookup (the loop of
`_GetProfileGuidByName`), over the references of `_allProfiles` not yet visited: the
guid of the first profile whose name is `name`, or nothing. -/
def nameLoop (objects : List ProfileObject) (name : String) : List Nat → Option GUID
  | [] => none
  | profile :: rest =>
      match objects[profile]? with
      | some o =>
          if o.settings.name = name then some o.settings.guid
          else nameLoop objects name rest
      | none => nameLoop objects name rest

/-- The by-name lookup `CascadiaSettings::_GetProfileGuidByName`, as far as the sources
show it: the loop over `_allProfiles`, which lies inside the block of the test that
the string is not empty, and the final `return std::nullopt`. -/
def _GetProfileGuidByName (s : CascadiaSettings) (name : String) : Option GUID :=
  if name ≠ "" then nameLoop s.objects name s._allProfiles
  else none

/-- The member `CascadiaSettings::FindProfile(profileGuid)`. -/
def CascadiaSettings.FindProfile (s : CascadiaSettings) (profileGuid : GUID) : Option Profile :=
  TerminalApp.FindProfile s._profilesAndGroups profileGuid

/-- Modelled from the spec: the sources splice `GetProfileForArgs` with the by-name loop;
the lines that join the guid lookup to the by-name lookup and the final return are
missing and follow the specification (by name when the guid lookup did not resolve,
else the value found so far). From the sources: the start value
`_globals.GetDefaultProfile()`, the test `size() == 38 && [0] == '{'`, the parse
`Utils::GuidFromString` (taken as a parameter, `none` when it throws), the lookup
`FindProfile(newGUID)` and the by-name loop. -/
def GetProfileForArgs (GuidFromString : String → Option GUID) (s : CascadiaSettings)
    (profileString : String) : GUID :=
  let profileGuid := s._globals.DefaultProfile
  if profileString ≠ "" then
    let guidLookup : GUID × Bool :=
      if wcharSize profileString = 38 ∧ profileString.toList.head? = some '{' then
        match GuidFromString profileString with
        | some newGUID =>
            match s.FindProfile newGUID with
            | some _ => (newGUID, true)
            | none => (profileGuid, false)
        | none => (profileGuid, false)
      else (profileGuid, false)
    let wasGuid := guidLookup.2
    if !wasGuid then
      match _GetProfileGuidByName s profileString with
      | some guidFromName => guidFromName
      | none => guidLookup.1
    else guidLookup.1
  else profileGuid

/-- The loop of `UpdateColorSchemeReferences` test: the object behind a reference has
its color-scheme name set and equal to `name`. -/
def hasColorSchemeNamed (objects : List ProfileObject) (profile : Nat) (name : String) : Bool :=
  match objects[profile]? with
  | some o => decide (o.settings.schemeName = some name)
  | none => false

/-- A Profile object with its color-scheme name set to `newName`. -/
def ProfileObject.withColorSchemeName (o : ProfileObject) (newName : String) : ProfileObject :=
  { o with settings := { o.settings with schemeName := some newName } }

/-- The call `profile.ColorSchemeName(newName)` on the object behind a reference. -/
def setColorSchemeName (objects : List ProfileObject) (profile : Nat) (newName : String) :
    List ProfileObject :=
  match objects[profile]? with
  | some o => objects.set profile (o.withColorSchemeName newName)
  | none => objects

/-- The loop of `UpdateColorSchemeReferences` over the references of `_allProfiles` not
yet visited. -/
def updateSchemeLoop (oldName newName : String) : List Nat → List ProfileObject →
    List ProfileObject
  | [], objects => objects
  | profile :: rest, objects =>
      if hasColorSchemeNamed objects profile oldName then
        updateSchemeLoop oldName newName rest (setColorSchemeName objects profile newName)
      else updateSchemeLoop oldName newName rest objects

/-- The function `CascadiaSettings::UpdateColorSchemeReferences(oldName, newName)`. -/
def UpdateColorSchemeReferences (s : CascadiaSettings) (oldName newName : String) :
    CascadiaSettings :=
  let objects :=
    match s._userDefaultProfileSettings with
    | some defaults =>
        if hasColorSchemeNamed s.objects defaults oldName then
          setColorSchemeName s.objects defaults newName
        else s.objects
    | none => s.objects
  { s with objects := updateSchemeLoop oldName newName s._allProfiles objects }

/-! ## `ProfileGroup::LayerJson` -/

/-- Modelled from the spec: a JSON fragment of a Group as the `JsonUtils` helpers, which
are not among the sources, read it: for each of the keys "name", "hidden" and "icon",
nothing when the key is absent, else the value it holds (for "icon", a string or null). -/
structure GroupJson where
  name : Option String := none
  hidden : Option Bool := none
  icon : Option (Option String) := none
deriving DecidableEq, Repr

/-- Modelled from the spec: the helpers `JsonUtils::GetWstring`, `GetBool` and
`GetOptionalString`: the target is overwritten when the key is present and left
untouched when it is absent. -/
def JsonUtils.GetValue {α : Type} (value : Option α) (target : α) : α :=
  match value with
  | some v => v
  | none => target

/-- The function `ProfileGroup::LayerJson(json)`: the group after the call. -/
def ProfileGroup.LayerJson : ProfileGroup → GroupJson → ProfileGroup
  | .mk profilesAndGroups name hidden icon, json =>
      .mk profilesAndGroups (JsonUtils.GetValue json.name name)
        (JsonUtils.GetValue json.hidden hidden) (JsonUtils.GetValue json.icon icon)

/-- The name of a Group, `ProfileGroup::GetName`. -/
def ProfileGroup.GetName : ProfileGroup → String
  | .mk _ name _ _ => name

/-- The member `_icon` of a Group. -/
def ProfileGroup.icon : ProfileGroup → Option String
  | .mk _ _ _ icon => icon

/-! ## `App.cpp`: loading and reloading the settings -/

/-- A Windows result code, a signed 32-bit number. -/
abbrev HRESULT := Int

/-- The code `S_OK`. -/
def S_OK : HRESULT := 0

/-- The code `S_FALSE`. -/
def S_FALSE : HRESULT := 1

/-- The code `E_FAIL`, `0x80004005` as a signed number. -/
def E_FAIL : HRESULT := -2147467259

/-- The code `E_INVALIDARG`, `0x80070057` as a signed number. -/
def E_INVALIDARG : HRESULT := -2147024809

/-- The test `FAILED(hr)`: the code is negative. -/
def FAILED (hr : HRESULT) : Bool := decide (hr < 0)

/-- Modelled from the spec: the ways a call of `CascadiaSettings::LoadAll`, which is not
among the sources, can end: with new settings, or with one of the three kinds of
exception that `_TryLoadSettings` catches (for the last kind, with the code that
`wil::ResultFromCaughtException` gives it). -/
inductive LoadAttempt where
  | loaded (newSettings : CascadiaSettings)
  | hresult_error (code : HRESULT) (message : String)
  | SettingsException (error : SettingsLoadErrors)
  | otherException (hr : HRESULT)

/-- What `_ReloadSettings` hands to the dispatcher of the user interface. -/
inductive UiEvent where
  | ShowLoadErrorsDialog (hr : HRESULT)
  | ShowLoadWarningsDialog
  | ApplyTheme
deriving DecidableEq, Repr

/-- The members of `App` that loading touches; `rootSettings` lists the settings handed
to `_root->SetSettings`, `dispatched` the events handed to the dispatcher. -/
structure App where
  _settings : Option CascadiaSettings := none
  _settingsLoadedResult : HRESULT := S_OK
  _settingsLoadExceptionText : String := ""
  _loadedInitialSettings : Bool := false
  rootSettings : List CascadiaSettings := []
  dispatched : List UiEvent := []

/-- The function `App::_TryLoadSettings`, given how `LoadAll` ends: the returned code and
the application after the call. `_GetErrorText` is taken as a parameter. -/
def App._TryLoadSettings (_GetErrorText : SettingsLoadErrors → String) (app : App)
    (load : LoadAttempt) : HRESULT × App :=
  match load with
  | .loaded newSettings =>
      let hr := if newSettings._warnings.length = 0 then S_OK else S_FALSE
      (hr, { app with _settings := some newSettings })
  | .hresult_error code message =>
      (code, { app with _settingsLoadExceptionText := message })
  | .SettingsException error =>
      (E_INVALIDARG, { app with _settingsLoadExceptionText := _GetErrorText error })
  | .otherException hr => (hr, app)

/-- The function `App::LoadSettings`, given how `LoadAll` ends and what
`CascadiaSettings::LoadDefaults` returns. -/
def App.LoadSettings (_GetErrorText : SettingsLoadErrors → String)
    (LoadDefaults : CascadiaSettings) (app : App) (load : LoadAttempt) : App :=
  let r := app._TryLoadSettings _GetErrorText load
  let app1 := { r.2 with _settingsLoadedResult := r.1 }
  let app2 := if FAILED app1._settingsLoadedResult then { app1 with _settings := some LoadDefaults }
    else app1
  { app2 with _loadedInitialSettings := true }

/-- The function `App::_ReloadSettings`, given how `LoadAll` ends. -/
def App._ReloadSettings (_GetErrorText : SettingsLoadErrors → String) (app : App)
    (load : LoadAttempt) : App :=
  let r := app._TryLoadSettings _GetErrorText load
  let app1 := { r.2 with _settingsLoadedResult := r.1 }
  if FAILED app1._settingsLoadedResult then
    { app1 with dispatched := app1.dispatched ++ [.ShowLoadErrorsDialog app1._settingsLoadedResult] }
  else
    let app2 := if app1._settingsLoadedResult = S_FALSE then
        { app1 with dispatched := app1.dispatched ++ [.ShowLoadWarningsDialog] }
      else app1
    let published := match app2._settings with
      | some settings => app2.rootSettings ++ [settings]
      | none => app2.rootSettings
    { app2 with rootSettings := published, dispatched := app2.dispatched ++ [.ApplyTheme] }

/-- An activation of the coroutine `_DispatchReloadSettings` that has set the flag and
has not returned yet: suspended at `co_await`, or past `_ReloadSettings()` and before
`_settingsReloadQueued.store(false)`. -/
inductive ReloadFrame where
  | awaitingQuiesce
  | reloaded
deriving DecidableEq, Repr

/-- The state that `_DispatchReloadSettings` works on: the atomic flag, the activations
in flight and the number of calls of `_ReloadSettings` so far. -/
structure ReloadState where
  _settingsReloadQueued : Bool := false
  frames : List ReloadFrame := []
  reloadsRun : Nat := 0
deriving DecidableEq, Repr

/-- The function `App::_DispatchReloadSettings` up to its suspension: the exchange on the
flag and, when the flag was clear, a new activation suspended at `co_await`. -/
def _DispatchReloadSettings (s : ReloadState) : ReloadState :=
  if s._settingsReloadQueued then s
  else { s with _settingsReloadQueued := true, frames := s.frames ++ [.awaitingQuiesce] }

/-- The resumption of the activation at position `i` after the delay: `_ReloadSettings()`
runs. Nothing happens when there is no activation suspended there. -/
def resumeReload (s : ReloadState) (i : Nat) : ReloadState :=
  match s.frames[i]? with
  | some .awaitingQuiesce =>
      { s with frames := s.frames.set i .reloaded, reloadsRun := s.reloadsRun + 1 }
  | _ => s

/-- The end of the activation at position `i`: `_settingsReloadQueued.store(false)` and
the return. Nothing happens when no activation there has run its reload. -/
def finishReload (s : ReloadState) (i : Nat) : ReloadState :=
  match s.frames[i]? with
  | some .reloaded => { s with _settingsReloadQueued := false, frames := s.frames.eraseIdx i }
  | _ => s

/-- One step of the reload machinery: a trigger arrives, a suspended activation resumes
and reloads, or an activation clears the flag and returns. -/
inductive ReloadStep : ReloadState → ReloadState → Prop where
  | trigger (s : ReloadState) : ReloadStep s (_DispatchReloadSettings s)
  | resume (s : ReloadState) (i : Nat) : ReloadStep s (resumeReload s i)
  | finish (s : ReloadState) (i : Nat) : ReloadStep s (finishReload s i)

/-- The states the reload machinery can reach from the start, where the flag is clear
and nothing is in flight. -/
inductive ReloadReachable : ReloadState → Prop where
  | start : ReloadReachable {}
  | step {s t : ReloadState} : ReloadReachable s → ReloadStep s t → ReloadReachable t

/-! ## Specification-side definitions and concrete inputs for the lookups -/

/-- The profiles of the all-profiles list, in order. -/
def allProfileObjects (s : CascadiaSettings) : List ProfileObject :=
  s._allProfiles.filterMap fun profile => s.objects[profile]?

/-- The rename the specification describes: an object whose scheme name is set and
equals `oldName` gets `newName`, any other object is left as it is. -/
def renameScheme (oldName newName : String) (o : ProfileObject) : ProfileObject :=
  if o.settings.schemeName = some oldName then o.withColorSchemeName newName else o

/-- The text of the guid of the profile "Visible", 38 characters long. -/
def visibleGuidString : String := "{00000000-0000-0000-0000-000000000008}"

/-- A guid parser for the examples: it knows the text of guid 8 and rejects the rest. -/
def exGuidFromString (str : String) : Option GUID :=
  if str = visibleGuidString then some 8 else none

/-- Settings whose tree is a Group holding profile A followed by the profile "Visible"
with guid 8; both profiles are in the all-profiles list and the default profile is A. -/
def groupFirstSettings : CascadiaSettings :=
  { _profilesAndGroups :=
      [.group (.mk [.profile exA] "Group" false none), .profile visibleProfile],
    _globals := { DefaultProfile := 1 },
    objects := [{ settings := exA }, { settings := visibleProfile }],
    _allProfiles := [0, 1] }

/-- Settings whose only profile has the empty string as its name. -/
def emptyNameSettings : CascadiaSettings :=
  { _profilesAndGroups := [.profile { guid := 5, name := "", hidden := false }],
    _globals := { DefaultProfile := 5 },
    objects := [{ settings := { guid := 5, name := "", hidden := false } }],
    _allProfiles := [0] }

/-- Settings with three profile objects and a defaults object; two of the profiles and
the defaults object name the scheme "Old". -/
def schemeSettings : CascadiaSettings :=
  { objects :=
      [{ settings := { guid := 1, name := "A", hidden := false, schemeName := some "Old" } },
       { settings := { guid := 2, name := "B", hidden := true, schemeName := some "Other" } },
       { settings := { guid := 3, name := "C", hidden := false, schemeName := some "Old" } },
       { settings := { guid := 0, name := "defaults", hidden := false, schemeName := some "Old" } },
       { settings := { guid := 4, name := "D", hidden := false } }],
    _allProfiles := [0, 1, 2, 4],
    _activeProfiles := [0, 2, 4],
    _userDefaultProfileSettings := some 3 }

/-- An error text for the examples. -/
def exErrorText : SettingsLoadErrors → String
  | .NoProfiles => "no profiles"
  | .AllProfilesHidden => "all profiles hidden"

/-- An application that holds the validated example settings and has published them. -/
def exApp : App :=
  { _settings := some exValidatedSettings,
    _loadedInitialSettings := true,
    rootSettings := [exValidatedSettings] }

/-- The reload state after a trigger and the resumption of its activation. -/
def exReloadingState : ReloadState :=
  { _settingsReloadQueued := true, frames := [.reloaded], reloadsRun := 1 }

/-- A Group named "Dev" with one child. -/
def exGroup : ProfileGroup := .mk [.profile exA] "Dev" false (some "dev.png")

/-- A fragment that sets the name and hides the Group. -/
def exFragmentA : GroupJson := { name := some "Shells", hidden := some true }

/-- A fragment that sets the name and clears the icon. -/
def exFragmentB : GroupJson := { name := some "Tools", icon := some none }

/-! ## Cloning the inheritance graph -/

/-- The state the cloner threads through: the objects of the clone settings created so
far (a clone is referred to by its position) and the map `visited` from a source
object to its clone, `std::unordered_map<void*, winrt::com_ptr<Profile>>`, newest entry
first. -/
structure CloneState where
  clones : List ProfileObject := []
  visited : List (Nat × Nat) := []
deriving DecidableEq, Repr

/-- The ways in which cloning ends without a result: the condition `CyclicInheritance`
of the specification; a reference that points at no object, which a `com_ptr` of the
sources cannot be; and the recursion budget of this model running out. -/
inductive CloneFailure where
  | CyclicInheritance
  | nullReference
  | fuelExhausted
deriving DecidableEq, Repr

/-- Modelled from the spec: `Profile::CopySettings`, which is not among the sources: a
new object with the settings of the given one. The specification does not say what
becomes of the parents; the copy is taken to have none. -/
def Profile.CopySettings (source : ProfileObject) : ProfileObject :=
  { settings := source.settings, parents := [] }

/-- The loop over the parents of a node: each parent is cloned (or found) by `cloneOne`
in turn, the state is threaded through, and the first failure ends the loop. -/
def cloneParentsWith (cloneOne : Nat → CloneState → Except CloneFailure (Nat × CloneState)) :
    List Nat → CloneState → Except CloneFailure (List Nat × CloneState)
  | [], st => .ok ([], st)
  | parent :: rest, st =>
      match cloneOne parent st with
      | .error e => .error e
      | .ok (clone, st1) =>
          match cloneParentsWith cloneOne rest st1 with
          | .error e => .error e
          | .ok (cloneParents, st2) => .ok (clone :: cloneParents, st2)

/-- Modelled from the spec: the recursion of `Profile::CloneInheritanceGraph`, which is
not among the sources, at one source node. A node met again while it is still being
cloned (it is on `path`) is a cycle and fails with `CyclicInheritance`; a node already
in `visited` yields its clone; any other node has its parents cloned first, with the
node added to the path, then gets a new clone with its settings and the cloned parents,
and is entered in `visited`. The first argument bounds the depth of the recursion. -/
def cloneNode (g : List ProfileObject) :
    Nat → List Nat → Nat → CloneState → Except CloneFailure (Nat × CloneState)
  | 0, _, _, _ => .error .fuelExhausted
  | fuel + 1, path, source, st =>
      if source ∈ path then .error .CyclicInheritance
      else
        match st.visited.lookup source with
        | some clone => .ok (clone, st)
        | none =>
            match g[source]? with
            | none => .error .nullReference
            | some o =>
                match cloneParentsWith (cloneNode g fuel (source :: path)) o.parents st with
                | .error e => .error e
                | .ok (cloneParents, st1) =>
                    .ok (st1.clones.length,
                      { clones := st1.clones ++ [{ settings := o.settings, parents := cloneParents }],
                        visited := (source, st1.clones.length) :: st1.visited })

/-- Modelled from the spec: `Profile::CloneInheritanceGraph(dummyRootSource,
dummyRootClone, visited)`, which is not among the sources, for a root that nothing
refers to and whose parents are `rootParents`: the parents of the root are cloned from
an empty path, and the result is the list of parents of the root clone. A path never
repeats a node, so it is never longer than the number of objects, and the recursion
gets one level more than that. -/
def Profile.CloneInheritanceGraph (g : List ProfileObject) (rootParents : List Nat)
    (st : CloneState) : Except CloneFailure (List Nat × CloneState) :=
  cloneParentsWith (cloneNode g (g.length + 1) []) rootParents st

/-- The accessor `profile->Hidden()` on the object behind a reference. -/
def Hidden (objects : List ProfileObject) (profile : Nat) : Bool :=
  match objects[profile]? with
  | some o => o.settings.hidden
  | none => false

/-- The lines of `_CopyProfileInheritanceTree` before the cloner runs: the map `visited`
starts empty; when there is a profile-defaults object, its copy is stored in the clone
settings and entered in `visited`. The result is the state handed to the cloner and the
profile-defaults reference of the clone settings. -/
def registerDefaults (s cloneSettings : CascadiaSettings) :
    Except CloneFailure (CloneState × Option Nat) :=
  match s._userDefaultProfileSettings with
  | some defaults =>
      match s.objects[defaults]? with
      | some o =>
          .ok ({ clones := cloneSettings.objects ++ [Profile.CopySettings o],
                 visited := [(defaults, cloneSettings.objects.length)] },
               some cloneSettings.objects.length)
      | none => .error .nullReference
  | none =>
      .ok ({ clones := cloneSettings.objects, visited := [] },
           cloneSettings._userDefaultProfileSettings)

/-- The function `CascadiaSettings::_CopyProfileInheritanceTree(cloneSettings)`: the
clone settings after the call, or the failure of the cloner. The parents of
`dummyRootSource` are `_allProfiles`; the profile-defaults object is registered first;
the parents of the root clone are then appended to `_allProfiles` of the clone
settings, and those that are not hidden to its `_activeProfiles`. The cloner
`Profile::CloneInheritanceGraph` is not among the sources and is a parameter. -/
def _CopyProfileInheritanceTree
    (CloneInheritanceGraph :
      List ProfileObject → List Nat → CloneState → Except CloneFailure (List Nat × CloneState))
    (s cloneSettings : CascadiaSettings) : Except CloneFailure CascadiaSettings :=
  let dummyRootSourceParents := s._allProfiles
  match registerDefaults s cloneSettings with
  | .error e => .error e
  | .ok (visited, cloneDefaults) =>
      match CloneInheritanceGraph s.objects dummyRootSourceParents visited with
      | .error e => .error e
      | .ok (cloneParents, st) =>
          .ok { cloneSettings with
                objects := st.clones,
                _userDefaultProfileSettings := cloneDefaults,
                _allProfiles := cloneSettings._allProfiles ++ cloneParents,
                _activeProfiles :=
                  cloneSettings._activeProfiles
                    ++ cloneParents.filter fun profile => !Hidden st.clones profile }

/-- The lines of `_CopyProfileInheritanceTree` before the cloner runs, with
`Profile::CopySettings`, which is not among the sources, as a parameter: from the
objects of the clone settings and the source object, a call gives the objects it
creates and the position of the copy among the objects that exist when it returns. -/
def registerDefaultsWith
    (CopySettings : List ProfileObject → ProfileObject → List ProfileObject × Nat)
    (s cloneSettings : CascadiaSettings) : Except CloneFailure (CloneState × Option Nat) :=
  match s._userDefaultProfileSettings with
  | some defaults =>
      match s.objects[defaults]? with
      | some o =>
          let copy := CopySettings cloneSettings.objects o
          .ok ({ clones := cloneSettings.objects ++ copy.1, visited := [(defaults, copy.2)] },
               some copy.2)
      | none => .error .nullReference
  | none =>
      .ok ({ clones := cloneSettings.objects, visited := [] },
           cloneSettings._userDefaultProfileSettings)

/-- The function `CascadiaSettings::_CopyProfileInheritanceTree(cloneSettings)` with both
functions that are not among the sources, `Profile::CopySettings` and
`Profile::CloneInheritanceGraph`, as parameters. -/
def _CopyProfileInheritanceTreeWith
    (CopySettings : List ProfileObject → ProfileObject → List ProfileObject × Nat)
    (CloneInheritanceGraph :
      List ProfileObject → List Nat → CloneState → Except CloneFailure (List Nat × CloneState))
    (s cloneSettings : CascadiaSettings) : Except CloneFailure CascadiaSettings :=
  let dummyRootSourceParents := s._allProfiles
  match registerDefaultsWith CopySettings s cloneSettings with
  | .error e => .error e
  | .ok (visited, cloneDefaults) =>
      match CloneInheritanceGraph s.objects dummyRootSourceParents visited with
      | .error e => .error e
      | .ok (cloneParents, st) =>
          .ok { cloneSettings with
                objects := st.clones,
                _userDefaultProfileSettings := cloneDefaults,
                _allProfiles := cloneSettings._allProfiles ++ cloneParents,
                _activeProfiles :=
                  cloneSettings._activeProfiles
                    ++ cloneParents.filter fun profile => !Hidden st.clones profile }

/-- The copy of the specification model as a value of the parameter: one new object,
placed after the objects of the clone settings. -/
def copySettingsOnly (clones : List ProfileObject) (source : ProfileObject) :
    List ProfileObject × Nat :=
  ([Profile.CopySettings source], clones.length)

/-! ### Specification-side relations on the inheritance graph -/

/-- The object behind `v` is a parent of the object behind `u`. -/
def ParentEdge (g : List ProfileObject) (u v : Nat) : Prop :=
  ∃ o, g[u]? = some o ∧ v ∈ o.parents

/-- The test for a parent link, as a computation. -/
def hasParent (g : List ProfileObject) (u v : Nat) : Bool :=
  match g[u]? with
  | some o => decide (v ∈ o.parents)
  | none => false

/-- A parent link that does not start at the profile-defaults object. -/
def ClonedEdge (g : List ProfileObject) (defaults : Option Nat) (u v : Nat) : Prop :=
  defaults ≠ some u ∧ ParentEdge g u v

/-- Every reference of the settings points at an object: the parents of every object,
the all-profiles list and the profile-defaults reference. -/
def WellFormedRefs (s : CascadiaSettings) : Prop :=
  (∀ o ∈ s.objects, ∀ p ∈ o.parents, p < s.objects.length) ∧
  (∀ p ∈ s._allProfiles, p < s.objects.length) ∧
  (∀ d, s._userDefaultProfileSettings = some d → d < s.objects.length)

/-- The state `st2` continues `st1`: the clones made so far are still there, at the same
positions, and every source object that had a clone still has that clone. -/
def CloneState.Grows (st1 st2 : CloneState) : Prop :=
  (∃ added, st2.clones = st1.clones ++ added) ∧
  ∀ u c, st1.visited.lookup u = some c → st2.visited.lookup u = some c

/-- What the map `visited` and the clones made so far have to do with each other while
the graph `g` is cloned into clone settings that held `base` objects before: every
entry of the map points at a clone; two source objects never share a clone; every
object added to the clone settings is the clone of a source object; and the clone of
a source object has its settings and, unless it is the profile-defaults object, has as
parents the clones of its parents, in order, all made before it. -/
structure CloneInv (g : List ProfileObject) (defaults : Option Nat) (base : Nat)
    (st : CloneState) : Prop where
  bound : ∀ u c, st.visited.lookup u = some c → c < st.clones.length
  inj : ∀ u v c, st.visited.lookup u = some c → st.visited.lookup v = some c → u = v
  onto : ∀ c, base ≤ c → c < st.clones.length → ∃ u, st.visited.lookup u = some c
  node : ∀ u c, st.visited.lookup u = some c →
    ∃ o co, g[u]? = some o ∧ st.clones[c]? = some co ∧ co.settings = o.settings ∧
      (defaults ≠ some u →
        List.Forall₂ (fun p c1 => st.visited.lookup p = some c1 ∧ c1 < c) o.parents co.parents)

/-- Every parent of every object comes before the object in the list of objects. -/
def parentsBelow (g : List ProfileObject) : Bool :=
  (List.range g.length).all fun u =>
    match g[u]? with
    | some o => o.parents.all fun p => decide (p < u)
    | none => true

/-- The clone settings a copy starts from: no objects and no profiles yet. -/
def freshSettings : CascadiaSettings := {}

/-- A profile for the inheritance examples. -/
def inhProfile (guid : GUID) (name : String) (hidden : Bool) : Profile :=
  { guid := guid, name := name, hidden := hidden }

/-- Settings with a diamond: the profiles "A" and "B" both inherit from "Base" and from
the profile-defaults object, and "Base" inherits from "Root"; "B" is hidden. -/
def diamondSettings : CascadiaSettings :=
  { objects :=
      [{ settings := inhProfile 10 "Root" false },
       { settings := inhProfile 11 "Base" false, parents := [0] },
       { settings := inhProfile 0 "defaults" false },
       { settings := inhProfile 12 "A" false, parents := [1, 2] },
       { settings := inhProfile 13 "B" true, parents := [1, 2] }],
    _allProfiles := [3, 4],
    _activeProfiles := [3],
    _userDefaultProfileSettings := some 2 }

/-- Settings in which "A" inherits from "B" and "B" from "A". -/
def cyclicSettings : CascadiaSettings :=
  { objects :=
      [{ settings := inhProfile 12 "A" false, parents := [1] },
       { settings := inhProfile 13 "B" false, parents := [0] }],
    _allProfiles := [0, 1] }

/-- Settings in which "A" inherits from the profile-defaults object and the
profile-defaults object from "A". -/
def cyclicDefaultsSettings : CascadiaSettings :=
  { objects :=
      [{ settings := inhProfile 12 "A" false, parents := [1] },
       { settings := inhProfile 0 "defaults" false, parents := [0] }],
    _allProfiles := [0],
    _userDefaultProfileSettings := some 1 }

/-- Settings in which "A" inherits from the profile-defaults object and from "Root", "B"
from the profile-defaults object, and the profile-defaults object from "Root". -/
def sharedAboveDefaultsSettings : CascadiaSettings :=
  { objects :=
      [{ settings := inhProfile 10 "Root" false },
       { settings := inhProfile 0 "defaults" false, parents := [0] },
       { settings := inhProfile 12 "A" false, parents := [1, 0] },
       { settings := inhProfile 13 "B" false, parents := [1] }],
    _allProfiles := [2, 3],
    _userDefaultProfileSettings := some 1 }

/-! ## Specification-side definitions and concrete inputs for the last claims -/

/-- A value of a JSON member, as far as the check for the "globals" key could tell
values apart: null or anything else. -/
inductive JsonValue where
  | null
  | other (text : String)
deriving DecidableEq, Repr

/-- The names of the members of a raw JSON object, which is all that `isMember` looks at. -/
def memberNames (raw : List (String × JsonValue)) : List String :=
  raw.map Prod.fst

/-- Settings whose user document has the members "profiles" and "globals" and that
already carry one warning. -/
def legacySettings : CascadiaSettings :=
  { _profilesAndGroups := [.profile exA],
    _warnings := [.DuplicateProfile],
    _userSettings := { profiles := [.profile 1], members := ["profiles", "globals"] } }

/-- Collaborators for which a resource reference is well-formed when it holds the
scheme separator ':', nothing is expanded, and the default reference resolves to guid 99. -/
def strictEnv : Collaborators :=
  { resolveDefaultProfile := fun _ => 99,
    isValidUri := fun str => decide (':' ∈ str.toList),
    ExpandedBackgroundImagePath := fun p => p.backgroundImagePath,
    ExpandEnvironmentStrings := fun str => str }

/-- Settings on which every stage of `_ValidateSettings` that can warn does warn: two
profiles share guid 9, the default profile is none of them, the scheme "Nope" is
unknown, the icon and the background image are no resource references, there is a
keybinding warning, a command sets an unknown scheme, and the user document has the
"globals" key. One warning is there before the run. -/
def allWarningsSettings : CascadiaSettings :=
  { _profilesAndGroups :=
      [.profile { guid := 9, name := "Bad", hidden := false, schemeName := some "Nope",
                  icon := "not an icon", backgroundImagePath := "not an image" },
       .profile { guid := 9, name := "Twin", hidden := false }],
    _globals :=
      { DefaultProfile := 1,
        ColorSchemes := ["Campbell"],
        KeybindingsWarnings := [.KeybindingWarning 1],
        Commands := [invalidLeafCommand] },
    _warnings := [.KeybindingWarning 7],
    _userSettings := { profiles := [.profile 9], members := ["globals"] } }

/-- Settings with two profiles whose documents name a guid absent from the list,
repeat a guid and hold Groups. -/
def mixedDocsSettings : CascadiaSettings :=
  { _profilesAndGroups := [.profile exA, .profile exC],
    _userSettings := { profiles := [.profile 3, .group, .profile 77, .profile 3] },
    _defaultSettings := { profiles := [.profile 1, .group] } }

/-- The warnings that the stages of `_ValidateSettings` before the keybinding stage
can append, in stage order. -/
def warningsBeforeKeybindings : List SettingsLoadWarnings :=
  [.DuplicateProfile, .MissingDefaultProfile, .UnknownColorScheme, .InvalidBackgroundImage,
   .InvalidIcon]

/-- The warnings that the stages of `_ValidateSettings` after the keybinding stage can
append, in stage order. -/
def warningsAfterKeybindings : List SettingsLoadWarnings :=
  [.InvalidColorSchemeInCmd, .LegacyGlobalsProperty]

/-- What the keybinding stage appends: nothing when there are no keybinding warnings,
else the marker followed by them. -/
def keybindingBlock (keybindingWarnings : List SettingsLoadWarnings) :
    List SettingsLoadWarnings :=
  if keybindingWarnings = [] then [] else .AtLeastOneKeybindingWarning :: keybindingWarnings

/-- Entry `i` of a list of profiles is a duplicate with respect to the set `seen`: its
guid is in `seen` or is the guid of an entry at an earlier index. -/
def isDuplicateAt (seen : Finset GUID) (ps : List Profile) (i : Nat) : Bool :=
  match ps[i]? with
  | some p => decide (p.guid ∈ seen) || (ps.take i).any (fun q => decide (q.guid = p.guid))
  | none => false

/-- The entries of a list at the indices that pass a test, in the order of the list. -/
def entriesWhere {α : Type} (v : List α) (keep : Nat → Bool) : List α :=
  ((List.range v.length).filter keep).filterMap fun i => v[i]?

/-- A list of four profiles: guid 1, guid 2, guid 1 again, guid 5. -/
def repeatList : List Profile :=
  [{ guid := 1, name := "One", hidden := false },
   { guid := 2, name := "Two", hidden := false },
   { guid := 1, name := "One again", hidden := false },
   { guid := 5, name := "Five", hidden := false }]

/-- A hidden profile and a visible profile with the same guid, the hidden one first. -/
def shadowList : List Profile :=
  [{ guid := 4, name := "Old", hidden := true },
   { guid := 4, name := "New", hidden := false },
   { guid := 6, name := "Other", hidden := false },
   { guid := 4, name := "Newer", hidden := false }]

/-- Collaborators for which a resource reference is well-formed when it holds the
scheme separator ':', and the environment holds the variable ICO with the value "ab":
the text "%ICO%" expands to "ab", any other text to itself. -/
def icoEnv : Collaborators :=
  { resolveDefaultProfile := fun s => s._globals.DefaultProfile,
    isValidUri := fun str => decide (':' ∈ str.toList),
    ExpandedBackgroundImagePath := fun p => p.backgroundImagePath,
    ExpandEnvironmentStrings := fun str => if str = "%ICO%" then "ab" else str }

/-- A profile whose icon is the text "%ICO%", five code units long. -/
def envIconProfile : Profile :=
  { guid := 6, name := "Env", hidden := false, icon := "%ICO%" }

/-- Settings with the profile whose icon is "%ICO%" alone. -/
def envIconSettings : CascadiaSettings :=
  { _profilesAndGroups := [.profile envIconProfile] }

/-! ## `CascadiaSettings::CreateNewProfile` -/

/-- The call `newProfile->Name(newName)` on the object behind a reference. -/
def setName (objects : List ProfileObject) (profile : Nat) (newName : String) :
    List ProfileObject :=
  match objects[profile]? with
  | some o => objects.set profile { o with settings := { o.settings with name := newName } }
  | none => objects

/-- The function `CascadiaSettings::CreateNewProfile`: the reference it returns and the
settings after the call, or nothing when `_userDefaultProfileSettings` is null and the
call `_userDefaultProfileSettings->CreateChild()` has no object to work on.
`Profile::CreateChild` is not among the sources: what it makes of the profile-defaults
object is the parameter `CreateChild`. The new object is appended to `_allProfiles`
and then named "Profile N" with N the size of `_allProfiles`, a `uint32_t` printed in
decimal, which cannot wrap while the list has fewer than `2^32` entries. -/
def CreateNewProfile (CreateChild : Nat → ProfileObject) (s : CascadiaSettings) :
    Option (Nat × CascadiaSettings) :=
  match s._userDefaultProfileSettings with
  | none => none
  | some defaults =>
      let newProfile := s.objects.length
      let objects := s.objects ++ [CreateChild defaults]
      let _allProfiles := s._allProfiles ++ [newProfile]
      let newName := "Profile " ++ toString _allProfiles.length
      some (newProfile,
        { s with objects := setName objects newProfile newName, _allProfiles := _allProfiles })

/-- A child of the profile-defaults object for the examples: guid 0, no name yet, the
profile-defaults object as its only parent. -/
def exCreateChild (defaults : Nat) : ProfileObject :=
  { settings := { guid := 0, name := "", hidden := false }, parents := [defaults] }

/-- Settings with a profile-defaults object and one profile, named "Profile 2". -/
def takenNameSettings : CascadiaSettings :=
  { objects :=
      [{ settings := { guid := 0, name := "defaults", hidden := false } },
       { settings := { guid := 21, name := "Profile 2", hidden := false }, parents := [0] }],
    _allProfiles := [1],
    _activeProfiles := [1],
    _userDefaultProfileSettings := some 0 }

/-! ## Lemmas on `iter_swap` -/

theorem iter_swap_eq {α : Type} (v : List α) (i j : Nat) (hi : i < v.length) (hj : j < v.length) :
    iter_swap v i j = (v.set i v[j]).set j v[i] := by
  simp [iter_swap, List.getElem?_eq_getElem hi, List.getElem?_eq_getElem hj]

theorem length_iter_swap {α : Type} (v : List α) (i j : Nat) :
    (iter_swap v i j).length = v.length := by
  unfold iter_swap
  split <;> simp

theorem getElem?_iter_swap {α : Type} (v : List α) (i j k : Nat) (hi : i < v.length)
    (hj : j < v.length) :
    (iter_swap v i j)[k]? = if k = j then v[i]? else if k = i then v[j]? else v[k]? := by
  rw [iter_swap_eq v i j hi hj, List.getElem?_set, List.getElem?_set]
  simp only [List.length_set]
  by_cases h1 : j = k
  · subst h1; simp [hj, List.getElem?_eq_getElem hi]
  · by_cases h2 : i = k
    · subst h2; simp [h1, hi, List.getElem?_eq_getElem hj, Ne.symm h1]
    · simp [h1, h2, Ne.symm h1, Ne.symm h2]

theorem iter_swap_perm {α : Type} (v : List α) (i j : Nat) : (iter_swap v i j).Perm v := by
  classical
  by_cases hi : i < v.length
  · by_cases hj : j < v.length
    · rw [iter_swap_eq v i j hi hj, List.perm_iff_count]
      intro x
      rw [List.count_set _ _ _ _ (by simpa using hj), List.count_set _ _ _ _ hi, List.getElem_set]
      simp only [beq_iff_eq]
      have h1 : (if v[i] = x then 1 else 0) ≤ v.count x := by
        split
        · next h => exact List.count_pos_iff.mpr (h ▸ List.getElem_mem hi)
        · omega
      have h2 : (if v[j] = x then 1 else 0) ≤ v.count x := by
        split
        · next h => exact List.count_pos_iff.mpr (h ▸ List.getElem_mem hj)
        · omega
      by_cases hij : i = j
      · subst hij
        simp only [if_true]
        omega
      · simp only [hij, if_false]
        omega
    · simp [iter_swap, List.getElem?_eq_none (Nat.le_of_not_lt hj)]
  · simp [iter_swap, List.getElem?_eq_none (Nat.le_of_not_lt hi)]

/-! ## Lemmas on the reorder loops -/

theorem swapFirstMatch_perm (pgs : List ProfileOrGroup) (guid : GUID) (gIndex : Nat) :
    ∀ (n pIndex : Nat), (swapFirstMatch pgs guid gIndex n pIndex).Perm pgs := by
  intro n
  induction n with
  | zero => intro pIndex; simp [swapFirstMatch]
  | succ n ih =>
    intro pIndex
    unfold swapFirstMatch
    split
    · split
      · exact iter_swap_perm _ _ _
      · exact ih _
    · exact ih _

theorem reorderLoop_perm :
    ∀ (guidOrder : List GUID) (gIndex : Nat) (pgs : List ProfileOrGroup),
      (reorderLoop guidOrder gIndex pgs).Perm pgs := by
  intro guidOrder
  induction guidOrder with
  | nil => intro gIndex pgs; simp [reorderLoop]
  | cons g rest ih =>
    intro gIndex pgs
    unfold reorderLoop
    exact (ih _ _).trans (swapFirstMatch_perm _ _ _ _ _)

theorem swapFirstMatch_found (pgs : List ProfileOrGroup) (guid : GUID) (gIndex : Nat) :
    ∀ (n pIndex : Nat),
      (∃ j, pIndex ≤ j ∧ j < pIndex + n ∧ (pgs[j]?).bind swapKey = some guid) →
      ∃ k, pIndex ≤ k ∧ k < pIndex + n ∧ (pgs[k]?).bind swapKey = some guid ∧
        swapFirstMatch pgs guid gIndex n pIndex = iter_swap pgs k gIndex := by
  intro n
  induction n with
  | zero => rintro pIndex ⟨j, h1, h2, _⟩; omega
  | succ n ih =>
    rintro pIndex ⟨j, h1, h2, h3⟩
    unfold swapFirstMatch
    split
    · next profile hp =>
      split
      · next hg =>
        exact ⟨pIndex, le_refl _, by omega, by simp [hp, swapKey, hg], rfl⟩
      · next hg =>
        have hne : j ≠ pIndex := by
          rintro rfl
          simp [hp, swapKey] at h3
          exact hg h3
        obtain ⟨k, k1, k2, k3, k4⟩ := ih (pIndex + 1) ⟨j, by omega, by omega, h3⟩
        exact ⟨k, by omega, by omega, k3, k4⟩
    · next hnp =>
      have hne : j ≠ pIndex := by
        rintro rfl
        cases hx : pgs[j]? with
        | none => simp [hx] at h3
        | some x =>
          cases x with
          | profile p => exact hnp p hx
          | group g => simp [hx, swapKey] at h3
      obtain ⟨k, k1, k2, k3, k4⟩ := ih (pIndex + 1) ⟨j, by omega, by omega, h3⟩
      exact ⟨k, by omega, by omega, k3, k4⟩


theorem take_iter_swap {α : Type} (v : List α) (k g : Nat) (hk : k < v.length) (hg : g ≤ k) :
    (iter_swap v k g).take g = v.take g := by
  apply List.ext_getElem?
  intro m
  rw [List.getElem?_take, List.getElem?_take]
  split
  · next h =>
    rw [getElem?_iter_swap v k g m hk (by omega)]
    simp [show m ≠ g by omega, show m ≠ k by omega]
  · rfl

theorem drop_iter_swap {α : Type} (v : List α) (k g : Nat) (hk : k < v.length) (hg : g ≤ k) :
    (iter_swap v k g).drop g = v[k] :: (iter_swap v k g).drop (g + 1) := by
  have hlen : g < (iter_swap v k g).length := by rw [length_iter_swap]; omega
  rw [List.drop_eq_getElem_cons hlen]
  congr 1
  have := getElem?_iter_swap v k g g hk (by omega)
  simp only [if_true] at this
  rw [List.getElem?_eq_getElem hlen, List.getElem?_eq_getElem hk] at this
  exact Option.some.inj this

theorem reorderLoop_keys :
    ∀ (rest : List GUID) (gIndex : Nat) (pgs : List ProfileOrGroup),
      ((pgs.drop gIndex).map swapKey).Perm (rest.map some) →
      (reorderLoop rest gIndex pgs).map swapKey = (pgs.take gIndex).map swapKey ++ rest.map some := by
  intro rest
  induction rest with
  | nil =>
    intro gIndex pgs h
    have hnil : pgs.drop gIndex = [] := by simpa using h
    have : pgs.take gIndex = pgs := by
      have := List.take_append_drop gIndex pgs
      rw [hnil, List.append_nil] at this
      exact this
    simp [reorderLoop, this]
  | cons g rest ih =>
    intro gIndex pgs h
    have hmem : some g ∈ (pgs.drop gIndex).map swapKey :=
      h.symm.subset (by simp)
    obtain ⟨x, hx, hkey⟩ := List.mem_map.1 hmem
    obtain ⟨i, hi⟩ := List.getElem?_of_mem hx
    rw [List.getElem?_drop] at hi
    have hlt : gIndex + i < pgs.length := by
      by_contra hc
      rw [List.getElem?_eq_none (Nat.le_of_not_lt hc)] at hi
      cases hi
    obtain ⟨k, k1, k2, k3, k4⟩ := swapFirstMatch_found pgs g gIndex (pgs.length - gIndex) gIndex
      ⟨gIndex + i, by omega, by omega, by simp [hi, hkey]⟩
    have hk : k < pgs.length := by omega
    have hkey2 : swapKey pgs[k] = some g := by
      rw [List.getElem?_eq_getElem hk] at k3
      simpa using k3
    unfold reorderLoop
    rw [k4]
    have hperm : (iter_swap pgs k gIndex).Perm pgs := iter_swap_perm _ _ _
    have htake := take_iter_swap pgs k gIndex hk k1
    have hdrop := drop_iter_swap pgs k gIndex hk k1
    have hperm2 : ((iter_swap pgs k gIndex).drop gIndex).Perm (pgs.drop gIndex) := by
      have h1 : ((iter_swap pgs k gIndex).take gIndex ++ (iter_swap pgs k gIndex).drop gIndex).Perm
          (pgs.take gIndex ++ pgs.drop gIndex) := by
        rw [List.take_append_drop, List.take_append_drop]
        exact hperm
      rw [htake] at h1
      exact (List.perm_append_left_iff _).1 h1
    have hperm3 : (((iter_swap pgs k gIndex).drop (gIndex + 1)).map swapKey).Perm
        (rest.map some) := by
      have h2 := (hperm2.map swapKey).trans h
      rw [hdrop, List.map_cons, hkey2, List.map_cons] at h2
      exact h2.cons_inv
    rw [ih (gIndex + 1) (iter_swap pgs k gIndex) hperm3]
    have hlen : gIndex < (iter_swap pgs k gIndex).length := by rw [length_iter_swap]; omega
    have hsplit : (iter_swap pgs k gIndex).take (gIndex + 1)
        = pgs.take gIndex ++ [pgs[k]] := by
      have h3 := List.take_append_drop gIndex (iter_swap pgs k gIndex)
      rw [hdrop, htake] at h3
      have h4 : (iter_swap pgs k gIndex).take (gIndex + 1)
          = (pgs.take gIndex ++ pgs[k] :: (iter_swap pgs k gIndex).drop (gIndex + 1)).take
              (gIndex + 1) := by rw [h3]
      rw [h4, List.take_append_eq_append_take]
      have hl : (pgs.take gIndex).length = gIndex := by
        rw [List.length_take]; omega
      rw [hl]
      simp [List.take_of_length_le, hl]
    rw [hsplit]
    simp [hkey2]


theorem mem_firstOccurrences (l : List GUID) (g : GUID) : g ∈ firstOccurrences l ↔ g ∈ l := by
  induction l with
  | nil => simp [firstOccurrences]
  | cons a rest ih =>
    simp only [firstOccurrences, List.mem_cons, List.mem_filter, ih]
    by_cases h : g = a <;> simp [h]

theorem nodup_firstOccurrences (l : List GUID) : (firstOccurrences l).Nodup := by
  induction l with
  | nil => simp [firstOccurrences]
  | cons a rest ih =>
    simp only [firstOccurrences, List.nodup_cons, List.mem_filter]
    exact ⟨by simp, ih.filter _⟩

theorem firstOccurrences_of_nodup (l : List GUID) (h : l.Nodup) : firstOccurrences l = l := by
  induction l with
  | nil => simp [firstOccurrences]
  | cons a rest ih =>
    rw [List.nodup_cons] at h
    simp only [firstOccurrences, ih h.2]
    congr 1
    rw [List.filter_eq_self]
    intro x hx
    have : x ≠ a := by rintro rfl; exact h.1 hx
    simpa using this

theorem collectGuids_noGroup :
    ∀ (entries : List ProfileJson) (st : GuidCollector), ProfileJson.group ∉ entries →
      (collectGuids entries st).guidOrder
          = st.guidOrder ++
            (firstOccurrences (entries.filterMap entryGuid)).filter (fun g => g ∉ st.uniqueGuids)
        ∧ (collectGuids entries st).uniqueGuids
          = st.uniqueGuids ∪ (entries.filterMap entryGuid).toFinset := by
  intro entries
  induction entries with
  | nil => intro st _; simp [collectGuids, firstOccurrences]
  | cons e rest ih =>
    intro st hg
    have hrest : ProfileJson.group ∉ rest := fun h => hg (List.mem_cons_of_mem _ h)
    cases e with
    | notObject =>
      simpa [collectGuids, entryGuid] using ih st hrest
    | group => exact absurd (List.mem_cons_self _ _) hg
    | profile g =>
      by_cases hmem : g ∈ st.uniqueGuids
      · obtain ⟨h1, h2⟩ := ih st hrest
        have hfm : (ProfileJson.profile g :: rest).filterMap entryGuid
            = g :: rest.filterMap entryGuid := by simp [List.filterMap_cons, entryGuid]
        simp only [collectGuids, hmem, if_true, hfm, firstOccurrences]
        refine ⟨?_, ?_⟩
        · rw [h1]
          congr 1
          rw [List.filter_cons]
          simp only [hmem, not_true_eq_false, decide_False, Bool.false_eq_true, if_false,
            List.filter_filter]
          apply List.filter_congr
          intro x _
          by_cases hx : x ∈ st.uniqueGuids
          · simp [hx]
          · have : x ≠ g := by rintro rfl; exact hx hmem
            simp [hx, this]
        · rw [h2]
          ext x
          simp only [Finset.mem_union, List.mem_toFinset, List.mem_cons]
          constructor
          · rintro (h | h)
            · exact Or.inl h
            · exact Or.inr (Or.inr h)
          · rintro (h | h | h)
            · exact Or.inl h
            · exact Or.inl (h ▸ hmem)
            · exact Or.inr h
      · obtain ⟨h1, h2⟩ := ih ⟨insert g st.uniqueGuids, st.guidOrder ++ [g]⟩ hrest
        have hfm : (ProfileJson.profile g :: rest).filterMap entryGuid
            = g :: rest.filterMap entryGuid := by simp [List.filterMap_cons, entryGuid]
        simp only [collectGuids, hmem, if_false, hfm, firstOccurrences]
        refine ⟨?_, ?_⟩
        · rw [h1]
          simp only [List.append_assoc, List.singleton_append]
          congr 1
          rw [List.filter_cons]
          simp only [hmem, not_false_eq_true, decide_True, if_true, List.filter_filter]
          congr 1
          apply List.filter_congr
          intro x _
          simp only [Finset.mem_insert, not_or]
          by_cases hx : x = g <;> simp [hx]
        · rw [h2]
          ext x
          simp only [Finset.mem_union, Finset.mem_insert, List.mem_toFinset, List.mem_cons]
          tauto


/-! ## Lemmas on flattening -/

mutual
theorem ExtractProfiles_eq_append_flatten :
    ∀ (pgs : List ProfileOrGroup) (profiles : List Profile),
      ExtractProfiles pgs profiles = profiles ++ flatten pgs
  | [], profiles => by simp [ExtractProfiles, flatten]
  | .profile p :: rest, profiles => by
      simp [ExtractProfiles, flatten, ExtractProfiles_eq_append_flatten rest]
  | .group g :: rest, profiles => by
      simp [ExtractProfiles, flatten, ExtractProfiles_eq_append_flatten rest,
        ProfileGroup_ExtractProfiles_eq g]
theorem ProfileGroup_ExtractProfiles_eq :
    ∀ (g : ProfileGroup) (profiles : List Profile),
      ProfileGroup.ExtractProfiles g profiles = (g, profiles ++ flattenGroup g)
  | .mk pgs n h i, profiles => by
      simp [ProfileGroup.ExtractProfiles, flattenGroup, ExtractProfiles_eq_append_flatten pgs]
end

theorem flatten_map_profile (ps : List Profile) :
    flatten (ps.map ProfileOrGroup.profile) = ps := by
  induction ps with
  | nil => simp [flatten]
  | cons p rest ih => simp [flatten, ih]

theorem ExtractProfiles_map_profile (ps : List Profile) :
    ExtractProfiles (ps.map ProfileOrGroup.profile) [] = ps := by
  rw [ExtractProfiles_eq_append_flatten, flatten_map_profile, List.nil_append]

theorem eq_map_profile_of_all_profiles :
    ∀ (r : List ProfileOrGroup), (∀ x ∈ r, ∃ p, x = ProfileOrGroup.profile p) →
      r = (r.filterMap asProfile).map ProfileOrGroup.profile := by
  intro r
  induction r with
  | nil => intro _; rfl
  | cons x rest ih =>
    intro h
    obtain ⟨p, rfl⟩ := h x (List.mem_cons_self _ _)
    have := ih (fun y hy => h y (List.mem_cons_of_mem _ hy))
    simp only [List.filterMap_cons, asProfile, List.map_cons]
    rw [← this]

theorem filterMap_asProfile_map (ps : List Profile) :
    (ps.map ProfileOrGroup.profile).filterMap asProfile = ps := by
  induction ps with
  | nil => rfl
  | cons p rest ih => simp [List.filterMap_cons, asProfile, ih]

/-- When the documents hold no Group, the guid order the stage builds is the order
the specification asks for. -/
theorem guidOrderOf_eq_userThenDefaultOrder (userSettings defaultSettings : JsonDocument)
    (hu : ProfileJson.group ∉ userSettings.profiles)
    (hd : ProfileJson.group ∉ defaultSettings.profiles) :
    guidOrderOf userSettings defaultSettings
      = userThenDefaultOrder userSettings defaultSettings := by
  obtain ⟨u1, u2⟩ := collectGuids_noGroup userSettings.profiles ⟨∅, []⟩ hu
  obtain ⟨d1, _⟩ := collectGuids_noGroup defaultSettings.profiles
    (collectGuids userSettings.profiles ⟨∅, []⟩) hd
  unfold guidOrderOf userThenDefaultOrder docGuids
  rw [d1, u1, u2]
  simp

theorem nodup_userThenDefaultOrder (userSettings defaultSettings : JsonDocument) :
    (userThenDefaultOrder userSettings defaultSettings).Nodup := by
  unfold userThenDefaultOrder
  rw [List.nodup_append]
  refine ⟨nodup_firstOccurrences _, (nodup_firstOccurrences _).filter _, ?_⟩
  intro g h1 h2
  rw [mem_firstOccurrences] at h1
  rw [List.mem_filter] at h2
  simpa [h1] using h2.2

theorem mem_userThenDefaultOrder (userSettings defaultSettings : JsonDocument) (g : GUID) :
    g ∈ userThenDefaultOrder userSettings defaultSettings
      ↔ g ∈ docGuids userSettings ∨ g ∈ docGuids defaultSettings := by
  unfold userThenDefaultOrder
  simp only [List.mem_append, List.mem_filter, mem_firstOccurrences, decide_eq_true_eq]
  tauto

/-- The reorder loop on a list of Profiles whose guids are distinct and are exactly
the guids of `guidOrder`, itself without repetition: the result is a list of
Profiles, a rearrangement of the input, with the guids in the order of `guidOrder`. -/
theorem reorderLoop_profiles (guidOrder : List GUID) (ps : List Profile)
    (hord : guidOrder.Nodup) (hnodup : (ps.map (fun p => p.guid)).Nodup)
    (hguids : ∀ g, g ∈ ps.map (fun p => p.guid) ↔ g ∈ guidOrder) :
    ∃ rs : List Profile,
      reorderLoop guidOrder 0 (ps.map ProfileOrGroup.profile) = rs.map ProfileOrGroup.profile ∧
      rs.Perm ps ∧ rs.map (fun p => p.guid) = guidOrder := by
  have hperm := reorderLoop_perm guidOrder 0 (ps.map ProfileOrGroup.profile)
  have hall : ∀ x ∈ reorderLoop guidOrder 0 (ps.map ProfileOrGroup.profile),
      ∃ p, x = ProfileOrGroup.profile p := by
    intro x hx
    obtain ⟨p, _, hp⟩ := List.mem_map.1 (hperm.subset hx)
    exact ⟨p, hp.symm⟩
  have heq := eq_map_profile_of_all_profiles _ hall
  refine ⟨(reorderLoop guidOrder 0 (ps.map ProfileOrGroup.profile)).filterMap asProfile,
    heq, ?_, ?_⟩
  · have := hperm.filterMap asProfile
    rwa [filterMap_asProfile_map] at this
  · have hp0 : (((ps.map ProfileOrGroup.profile).drop 0).map swapKey).Perm
        (guidOrder.map some) := by
      have h1 : ((ps.map ProfileOrGroup.profile).drop 0).map swapKey
          = (ps.map (fun p => p.guid)).map some := by
        simp [List.map_map, Function.comp_def, swapKey]
      rw [h1]
      exact ((List.perm_ext_iff_of_nodup hnodup hord).2 hguids).map some
    have hk := reorderLoop_keys guidOrder 0 (ps.map ProfileOrGroup.profile) hp0
    rw [heq] at hk
    simp only [List.take_zero, List.map_nil, List.nil_append, List.map_map] at hk
    have h2 : (List.map (swapKey ∘ ProfileOrGroup.profile)
        ((reorderLoop guidOrder 0 (ps.map ProfileOrGroup.profile)).filterMap asProfile))
        = (((reorderLoop guidOrder 0 (ps.map ProfileOrGroup.profile)).filterMap asProfile).map
            (fun p => p.guid)).map some := by
      simp [List.map_map, Function.comp_def, swapKey]
    rw [h2] at hk
    exact (List.map_injective_iff.2 (Option.some_injective _)) hk

theorem defaultProfileNotInProfiles_eq_true (g : GUID) (ps : List Profile) :
    defaultProfileNotInProfiles g ps = true ↔ ∀ p ∈ ps, p.guid ≠ g := by
  induction ps with
  | nil => simp [defaultProfileNotInProfiles]
  | cons p rest ih =>
    by_cases h : p.guid = g
    · simp [defaultProfileNotInProfiles, h]
    · simp [defaultProfileNotInProfiles, h, ih]

/-! ## Claims -/

/-- C1: on the tree made of a profile with guid 1 followed by a Group that holds another
profile with guid 1, and an empty seen-guid set, `RemoveDuplicateProfiles` reports a
duplicate and adds the guid to the set, yet the flattened result still holds both
profiles: the recursive call works on a copy of the Group, so the nested duplicate is
never erased from the tree. -/
theorem RemoveDuplicateProfiles_keeps_nested_duplicate :
    (RemoveDuplicateProfiles dupTree ∅).2.2 = true ∧
    ExtractProfiles (RemoveDuplicateProfiles dupTree ∅).1 [] = [dupFirst, dupNested] ∧
    dupFirst.guid = dupNested.guid ∧
    ¬ ((ExtractProfiles (RemoveDuplicateProfiles dupTree ∅).1 []).map (fun p => p.guid)).Nodup := by
  refine ⟨by decide, by decide, by decide, ?_⟩
  have h : (ExtractProfiles (RemoveDuplicateProfiles dupTree ∅).1 []).map (fun p => p.guid)
      = [1, 1] := by decide
  rw [h]
  decide

/-- C2: on a visible Group that holds one hidden profile, `RemoveHiddenProfiles` leaves
the tree as it was, and the flattened tree still contains the hidden profile: the
recursive call works on a copy of the Group. -/
theorem RemoveHiddenProfiles_keeps_nested_hidden_profile :
    ExtractProfiles (RemoveHiddenProfiles hiddenInGroupTree) [] = [hiddenProfile] ∧
    hiddenProfile.hidden = true := by
  refine ⟨by decide, by decide⟩

/-- C3: on a visible Group "Outer" whose only child is the hidden Group "Inner",
`RemoveHiddenProfiles` keeps "Inner": its descendant profile is still in the flattened
result, although "Inner" is marked hidden. -/
theorem RemoveHiddenProfiles_keeps_nested_hidden_group :
    innerHiddenGroup.IsHidden = true ∧
    visibleProfile ∈ flattenGroup innerHiddenGroup ∧
    ExtractProfiles (RemoveHiddenProfiles hiddenGroupTree) [] = [visibleProfile] := by
  refine ⟨by decide, by decide, by decide⟩

/-- C4: on an empty Group followed by a profile with guid 8, `FindProfile` for guid 8
returns nothing, although the flattened tree holds that profile: the search returns the
result of the first Group it meets and never reaches the later sibling. -/
theorem FindProfile_stops_at_first_group :
    FindProfile findTree 8 = none ∧
    ExtractProfiles findTree [] = [visibleProfile] ∧ visibleProfile.guid = 8 := by
  refine ⟨by decide, by decide, by decide⟩

/-- C5: `ExtractProfiles` leaves the output list equal to its initial contents followed
by the profiles of the tree in depth-first, left-to-right order (`flatten`); the member
function returns the Group unchanged. -/
theorem ExtractProfiles_appends_flatten (pgs : List ProfileOrGroup) (g : ProfileGroup)
    (profiles : List Profile) :
    ExtractProfiles pgs profiles = profiles ++ flatten pgs ∧
    ProfileGroup.ExtractProfiles g profiles = (g, profiles ++ flatten g.profilesAndGroups) := by
  refine ⟨ExtractProfiles_eq_append_flatten pgs profiles, ?_⟩
  rw [ProfileGroup_ExtractProfiles_eq]
  cases g
  rfl

/-- C6: flattening is idempotent: the flattened tree, seen as a tree of Profiles with
no Group, flattens to itself; and a tree that holds only Profiles flattens to exactly
those profiles in the same order. -/
theorem ExtractProfiles_idempotent (pgs : List ProfileOrGroup) (ps : List Profile) :
    ExtractProfiles ((ExtractProfiles pgs []).map ProfileOrGroup.profile) []
      = ExtractProfiles pgs [] ∧
    ExtractProfiles (ps.map ProfileOrGroup.profile) [] = ps :=
  ⟨ExtractProfiles_map_profile _, ExtractProfiles_map_profile ps⟩

/-- C7: when the user document and the default document hold no Group and carry the
same set of guids, and the list holds one Profile per guid of that set, then after
`_ReorderProfilesToMatchUserSettingsOrder` the list still consists of those Profiles and
its guid sequence is the user document's order (the first occurrences of its guids; the
guid sequence of the user document itself when no guid is repeated there). -/
theorem reorder_same_guids_gives_user_order (s : CascadiaSettings) (ps : List Profile)
    (htree : s._profilesAndGroups = ps.map ProfileOrGroup.profile)
    (hu : ProfileJson.group ∉ s._userSettings.profiles)
    (hd : ProfileJson.group ∉ s._defaultSettings.profiles)
    (hsame : ∀ g, g ∈ docGuids s._userSettings ↔ g ∈ docGuids s._defaultSettings)
    (hnodup : (ps.map (fun p => p.guid)).Nodup)
    (hguids : ∀ g, g ∈ ps.map (fun p => p.guid) ↔ g ∈ docGuids s._userSettings) :
    (_ReorderProfilesToMatchUserSettingsOrder s)._profilesAndGroups
      = (ExtractProfiles (_ReorderProfilesToMatchUserSettingsOrder s)._profilesAndGroups
          []).map ProfileOrGroup.profile ∧
    (ExtractProfiles (_ReorderProfilesToMatchUserSettingsOrder s)._profilesAndGroups []).Perm ps ∧
    (ExtractProfiles (_ReorderProfilesToMatchUserSettingsOrder s)._profilesAndGroups []).map
        (fun p => p.guid) = firstOccurrences (docGuids s._userSettings) ∧
    ((docGuids s._userSettings).Nodup →
      (ExtractProfiles (_ReorderProfilesToMatchUserSettingsOrder s)._profilesAndGroups []).map
        (fun p => p.guid) = docGuids s._userSettings) := by
  have hg : ∀ g, g ∈ ps.map (fun p => p.guid)
      ↔ g ∈ userThenDefaultOrder s._userSettings s._defaultSettings := by
    intro g
    rw [mem_userThenDefaultOrder, hguids g, ← hsame g, or_self]
  obtain ⟨rs, h1, h2, h3⟩ := reorderLoop_profiles _ ps
    (nodup_userThenDefaultOrder s._userSettings s._defaultSettings) hnodup hg
  have horder : userThenDefaultOrder s._userSettings s._defaultSettings
      = firstOccurrences (docGuids s._userSettings) := by
    unfold userThenDefaultOrder
    have : (firstOccurrences (docGuids s._defaultSettings)).filter
        (fun g => g ∉ docGuids s._userSettings) = [] := by
      rw [List.filter_eq_nil_iff]
      intro g hg
      rw [mem_firstOccurrences, ← hsame g] at hg
      simpa using hg
    rw [this, List.append_nil]
  have hr : (_ReorderProfilesToMatchUserSettingsOrder s)._profilesAndGroups
      = rs.map ProfileOrGroup.profile := by
    simp only [_ReorderProfilesToMatchUserSettingsOrder]
    rw [guidOrderOf_eq_userThenDefaultOrder _ _ hu hd, htree, h1]
  rw [hr, ExtractProfiles_map_profile, h3, horder]
  exact ⟨rfl, h2, rfl, fun hn => firstOccurrences_of_nodup _ hn⟩

/-- C8: when neither document holds a Group and the list holds exactly one Profile per
guid that occurs in either document, then after
`_ReorderProfilesToMatchUserSettingsOrder` the list consists of the same Profiles, with
the guids of the user document first, in user-document order, followed by the guids of
the default document that the user document does not have, in default-document order. -/
theorem reorder_gives_user_then_default_order (s : CascadiaSettings) (ps : List Profile)
    (htree : s._profilesAndGroups = ps.map ProfileOrGroup.profile)
    (hu : ProfileJson.group ∉ s._userSettings.profiles)
    (hd : ProfileJson.group ∉ s._defaultSettings.profiles)
    (hnodup : (ps.map (fun p => p.guid)).Nodup)
    (hguids : ∀ g, g ∈ ps.map (fun p => p.guid)
      ↔ g ∈ docGuids s._userSettings ∨ g ∈ docGuids s._defaultSettings) :
    (_ReorderProfilesToMatchUserSettingsOrder s)._profilesAndGroups
      = (ExtractProfiles (_ReorderProfilesToMatchUserSettingsOrder s)._profilesAndGroups
          []).map ProfileOrGroup.profile ∧
    (ExtractProfiles (_ReorderProfilesToMatchUserSettingsOrder s)._profilesAndGroups []).Perm ps ∧
    (ExtractProfiles (_ReorderProfilesToMatchUserSettingsOrder s)._profilesAndGroups []).map
        (fun p => p.guid)
      = firstOccurrences (docGuids s._userSettings) ++
          (firstOccurrences (docGuids s._defaultSettings)).filter
            (fun g => g ∉ docGuids s._userSettings) := by
  have hg : ∀ g, g ∈ ps.map (fun p => p.guid)
      ↔ g ∈ userThenDefaultOrder s._userSettings s._defaultSettings := by
    intro g
    rw [mem_userThenDefaultOrder, hguids g]
  obtain ⟨rs, h1, h2, h3⟩ := reorderLoop_profiles _ ps
    (nodup_userThenDefaultOrder s._userSettings s._defaultSettings) hnodup hg
  have hr : (_ReorderProfilesToMatchUserSettingsOrder s)._profilesAndGroups
      = rs.map ProfileOrGroup.profile := by
    simp only [_ReorderProfilesToMatchUserSettingsOrder]
    rw [guidOrderOf_eq_userThenDefaultOrder _ _ hu hd, htree, h1]
  rw [hr, ExtractProfiles_map_profile, h3]
  exact ⟨rfl, h2, rfl⟩


/-- C9: the end-to-end example. The default document defines A(1), B(2), C(3), the user
document lists C, A, and B is hidden. `_ValidateProfilesExist` passes; after the reorder
stage the list is [C, A, B]; `_UpdateActiveProfiles` succeeds and leaves the flattened
list [C, A]; `_ValidateNoDuplicateProfiles` changes nothing; and with no default profile
set, `_ValidateDefaultProfileExists` appends `MissingDefaultProfile` and sets the
default to the guid of C. -/
theorem end_to_end_example :
    _ValidateProfilesExist exSettings = .ok exSettings ∧
    (_ReorderProfilesToMatchUserSettingsOrder exSettings)._profilesAndGroups
      = [.profile exC, .profile exA, .profile exB] ∧
    _UpdateActiveProfiles (_ReorderProfilesToMatchUserSettingsOrder exSettings)
      = .ok exActiveSettings ∧
    ExtractProfiles exActiveSettings._profilesAndGroups [] = [exC, exA] ∧
    exActiveSettings._globals.DefaultProfile = nullGuid ∧
    _ValidateNoDuplicateProfiles exActiveSettings = exActiveSettings ∧
    _ValidateDefaultProfileExists (_ValidateNoDuplicateProfiles exActiveSettings)
      = some { exActiveSettings with
                _warnings := exActiveSettings._warnings ++ [.MissingDefaultProfile],
                _globals := { exActiveSettings._globals with DefaultProfile := exC.guid } } := by
  refine ⟨rfl, rfl, rfl, rfl, rfl, rfl, rfl⟩


/-- C10: on a non-empty flattened profile list, when the configured default guid is
all-zero or is the guid of no profile, `_ValidateDefaultProfileExists` appends exactly
one `MissingDefaultProfile` warning and sets the default guid to the guid of the first
flattened profile; when the configured default guid is not all-zero and is the guid of
some profile, it changes nothing. -/
theorem ValidateDefaultProfileExists_spec (s : CascadiaSettings) (first : Profile)
    (rest : List Profile)
    (hflat : ExtractProfiles s._profilesAndGroups [] = first :: rest) :
    ((s._globals.DefaultProfile = nullGuid ∨
        ∀ p ∈ first :: rest, p.guid ≠ s._globals.DefaultProfile) →
      _ValidateDefaultProfileExists s
        = some { s with
                  _warnings := s._warnings ++ [.MissingDefaultProfile],
                  _globals := { s._globals with DefaultProfile := first.guid } }) ∧
    ((s._globals.DefaultProfile ≠ nullGuid ∧
        ∃ p ∈ first :: rest, p.guid = s._globals.DefaultProfile) →
      _ValidateDefaultProfileExists s = some s) := by
  constructor
  · intro h
    have hc : (decide (s._globals.DefaultProfile = nullGuid) ||
        defaultProfileNotInProfiles s._globals.DefaultProfile (first :: rest)) = true := by
      rcases h with h | h
      · simp [h]
      · rw [(defaultProfileNotInProfiles_eq_true _ _).2 h]
        simp
    simp only [_ValidateDefaultProfileExists, hflat, hc, if_true]
  · rintro ⟨h1, p, hp, hpg⟩
    have hc : (decide (s._globals.DefaultProfile = nullGuid) ||
        defaultProfileNotInProfiles s._globals.DefaultProfile (first :: rest)) = false := by
      have hn : defaultProfileNotInProfiles s._globals.DefaultProfile (first :: rest) = false := by
        cases hd : defaultProfileNotInProfiles s._globals.DefaultProfile (first :: rest) with
        | false => rfl
        | true => exact absurd hpg ((defaultProfileNotInProfiles_eq_true _ _).1 hd p hp)
      simp [h1, hn]
    simp only [_ValidateDefaultProfileExists, hflat, hc]
    rfl

/-- Instance at the example: with no default set the warning is appended and the default
becomes the guid of C; with the default set to the guid of A nothing changes. -/
theorem ValidateDefaultProfileExists_spec_witness :
    _ValidateDefaultProfileExists exActiveSettings
      = some { exActiveSettings with
                _warnings := [.MissingDefaultProfile],
                _globals := { DefaultProfile := 3 } } ∧
    _ValidateDefaultProfileExists exDefaultSetSettings = some exDefaultSetSettings :=
  ⟨(ValidateDefaultProfileExists_spec exActiveSettings exC [exA] rfl).1 (Or.inl rfl),
   (ValidateDefaultProfileExists_spec exDefaultSetSettings exC [exA] rfl).2
      ⟨by decide, exA, by decide, rfl⟩⟩

/-- Instance at the example: the default document lists A, B, C, the user document
lists C, A; the reordered list is C, A, B. -/
theorem reorder_gives_user_then_default_order_witness :
    (_ReorderProfilesToMatchUserSettingsOrder exSettings)._profilesAndGroups
      = (ExtractProfiles (_ReorderProfilesToMatchUserSettingsOrder exSettings)._profilesAndGroups
          []).map ProfileOrGroup.profile ∧
    (ExtractProfiles (_ReorderProfilesToMatchUserSettingsOrder exSettings)._profilesAndGroups
      []).Perm [exA, exB, exC] ∧
    (ExtractProfiles (_ReorderProfilesToMatchUserSettingsOrder exSettings)._profilesAndGroups
      []).map (fun p => p.guid) = [3, 1, 2] :=
  reorder_gives_user_then_default_order exSettings [exA, exB, exC] rfl (by decide) (by decide)
    (by decide) (fun g => by
      simp only [docGuids, exSettings, exUserDoc, exDefaultDoc, exA, exB, exC, entryGuid,
        List.filterMap_cons, List.filterMap_nil, List.map_cons, List.map_nil, List.mem_cons,
        List.mem_singleton, List.not_mem_nil, or_false]
      tauto)

/-- Instance at the example: the default document lists A, B, C, the user document
lists C, A, B; the reordered list has the guids in the order of the user document. -/
theorem reorder_same_guids_gives_user_order_witness :
    (ExtractProfiles (_ReorderProfilesToMatchUserSettingsOrder exFullSettings)._profilesAndGroups
      []).map (fun p => p.guid) = [3, 1, 2] :=
  (reorder_same_guids_gives_user_order exFullSettings [exA, exB, exC] rfl (by decide) (by decide)
    (fun g => by
      simp only [docGuids, exFullSettings, exFullUserDoc, exDefaultDoc, entryGuid,
        List.filterMap_cons, List.filterMap_nil, List.mem_cons,
        List.mem_singleton, List.not_mem_nil, or_false]
      tauto)
    (by decide) (fun g => by
      simp only [docGuids, exFullSettings, exFullUserDoc, exA, exB, exC, entryGuid,
        List.filterMap_cons, List.filterMap_nil, List.map_cons, List.map_nil, List.mem_cons,
        List.mem_singleton, List.not_mem_nil, or_false]
      tauto)).2.2.2 (by decide)


/-! ## Lemmas on duplicate removal -/

theorem hasDuplicate_append (a b : List GUID) :
    ∀ seen : Finset GUID,
      hasDuplicate seen (a ++ b) = (hasDuplicate seen a || hasDuplicate (seen ∪ a.toFinset) b) := by
  induction a with
  | nil => intro seen; simp [hasDuplicate]
  | cons g rest ih =>
    intro seen
    have hset : insert g seen ∪ rest.toFinset = seen ∪ (g :: rest).toFinset := by
      ext x
      simp only [Finset.mem_union, Finset.mem_insert, List.mem_toFinset, List.mem_cons]
      tauto
    rw [List.cons_append]
    simp only [hasDuplicate]
    rw [ih, hset, Bool.or_assoc]

theorem hasDuplicate_eq_true_iff (gs : List GUID) :
    ∀ seen : Finset GUID,
      hasDuplicate seen gs = true ↔ (∃ g ∈ gs, g ∈ seen) ∨ ¬ gs.Nodup := by
  induction gs with
  | nil => intro seen; simp [hasDuplicate]
  | cons g rest ih =>
    intro seen
    simp only [hasDuplicate, Bool.or_eq_true, decide_eq_true_eq, ih, List.nodup_cons,
      Finset.mem_insert, List.mem_cons]
    constructor
    · rintro (h | ⟨x, hx, rfl | hxs⟩ | h)
      · exact Or.inl ⟨g, Or.inl rfl, h⟩
      · exact Or.inr (fun hn => hn.1 hx)
      · exact Or.inl ⟨x, Or.inr hx, hxs⟩
      · exact Or.inr (fun hn => h hn.2)
    · rintro (⟨x, rfl | hx, hxs⟩ | h)
      · exact Or.inl hxs
      · exact Or.inr (Or.inl ⟨x, hx, Or.inr hxs⟩)
      · by_cases hg : g ∈ rest
        · exact Or.inr (Or.inl ⟨g, hg, Or.inl rfl⟩)
        · exact Or.inr (Or.inr (fun hn => h ⟨hg, hn⟩))

theorem hasDuplicate_empty_iff (gs : List GUID) : hasDuplicate ∅ gs = true ↔ ¬ gs.Nodup := by
  rw [hasDuplicate_eq_true_iff]
  simp

theorem DupScan_ext (a b : DupScan) (h1 : a.uniqueGuids = b.uniqueGuids)
    (h2 : a.indicesToDelete = b.indicesToDelete) (h3 : a.foundDupeOverall = b.foundDupeOverall) :
    a = b := by
  cases a; cases b; simp_all

mutual
theorem collectDuplicates_eq :
    ∀ (pgs : List ProfileOrGroup) (i : Nat) (st : DupScan),
      collectDuplicates pgs i st
        = ⟨st.uniqueGuids ∪ ((flatten pgs).map fun p => p.guid).toFinset,
           st.indicesToDelete ++ duplicateIndices pgs i st.uniqueGuids,
           st.foundDupeOverall || hasDuplicate st.uniqueGuids ((flatten pgs).map fun p => p.guid)⟩
  | [], i, st => by
      simp [collectDuplicates, flatten, duplicateIndices, hasDuplicate]
  | .profile p :: rest, i, st => by
      by_cases h : p.guid ∈ st.uniqueGuids
      · simp only [collectDuplicates, h, if_true, collectDuplicates_eq rest, flatten,
          duplicateIndices, List.map_cons, hasDuplicate]
        apply DupScan_ext
        · ext x
          simp only [Finset.mem_union, List.mem_toFinset, List.mem_cons]
          constructor
          · rintro (hx | hx)
            · exact Or.inl hx
            · exact Or.inr (Or.inr hx)
          · rintro (hx | rfl | hx)
            · exact Or.inl hx
            · exact Or.inl h
            · exact Or.inr hx
        · simp
        · simp
      · simp only [collectDuplicates, h, if_false, collectDuplicates_eq rest, flatten,
          duplicateIndices, List.map_cons, hasDuplicate]
        apply DupScan_ext
        · ext x
          simp only [Finset.mem_union, Finset.mem_insert, List.mem_toFinset, List.mem_cons]
          tauto
        · rfl
        · simp
  | .group g :: rest, i, st => by
      have hg := group_RemoveDuplicateProfiles_eq g st.uniqueGuids
      simp only [collectDuplicates, collectDuplicates_eq rest, flatten, duplicateIndices,
        List.map_append, hasDuplicate_append, hg.1, hg.2]
      apply DupScan_ext
      · ext x
        simp only [Finset.mem_union, List.mem_toFinset, List.mem_append]
        tauto
      · rfl
      · cases hasDuplicate st.uniqueGuids ((flattenGroup g).map fun p => p.guid) <;>
          cases st.foundDupeOverall <;> simp
theorem group_RemoveDuplicateProfiles_eq :
    ∀ (g : ProfileGroup) (uniqueGuids : Finset GUID),
      (ProfileGroup.RemoveDuplicateProfiles g uniqueGuids).2.1
          = uniqueGuids ∪ ((flattenGroup g).map fun p => p.guid).toFinset ∧
      (ProfileGroup.RemoveDuplicateProfiles g uniqueGuids).2.2
          = hasDuplicate uniqueGuids ((flattenGroup g).map fun p => p.guid)
  | .mk pgs n h ic, uniqueGuids => by
      simp [ProfileGroup.RemoveDuplicateProfiles, collectDuplicates_eq pgs, flattenGroup]
end

theorem RemoveDuplicateProfiles_eq (pgs : List ProfileOrGroup) (uniqueGuids : Finset GUID) :
    RemoveDuplicateProfiles pgs uniqueGuids
      = (eraseIndices pgs (duplicateIndices pgs 0 uniqueGuids).reverse,
         uniqueGuids ∪ ((flatten pgs).map fun p => p.guid).toFinset,
         hasDuplicate uniqueGuids ((flatten pgs).map fun p => p.guid)) := by
  simp [RemoveDuplicateProfiles, collectDuplicates_eq]

theorem eraseIndices_reverse_cons {α : Type} (v : List α) (i : Nat) (l : List Nat) :
    eraseIndices v (i :: l).reverse = (eraseIndices v l.reverse).eraseIdx i := by
  simp [eraseIndices, List.foldl_append]

theorem eraseIdx_append_cons {α : Type} (pre : List α) (x : α) (l : List α) :
    (pre ++ x :: l).eraseIdx pre.length = pre ++ l := by
  induction pre with
  | nil => rfl
  | cons a rest ih => simp [List.eraseIdx, ih]

theorem eraseIndices_duplicateIndices :
    ∀ (rest pre : List ProfileOrGroup) (seen : Finset GUID),
      eraseIndices (pre ++ rest) (duplicateIndices rest pre.length seen).reverse
        = pre ++ dedupTopLevel rest seen := by
  intro rest
  induction rest with
  | nil => intro pre seen; simp [duplicateIndices, dedupTopLevel, eraseIndices]
  | cons x rest ih =>
    intro pre seen
    have hpre : pre ++ x :: rest = (pre ++ [x]) ++ rest := by simp
    have hlen : pre.length + 1 = (pre ++ [x]).length := by simp
    cases x with
    | profile p =>
      by_cases h : p.guid ∈ seen
      · simp only [duplicateIndices, dedupTopLevel, h, if_true]
        rw [eraseIndices_reverse_cons, hpre, hlen, ih (pre ++ [ProfileOrGroup.profile p]) seen]
        simpa using eraseIdx_append_cons pre (.profile p) (dedupTopLevel rest seen)
      · simp only [duplicateIndices, dedupTopLevel, h, if_false]
        rw [hpre, hlen, ih (pre ++ [ProfileOrGroup.profile p])]
        simp
    | group g =>
      simp only [duplicateIndices, dedupTopLevel]
      rw [hpre, hlen, ih (pre ++ [ProfileOrGroup.group g])]
      simp

/-- The vector that `RemoveDuplicateProfiles` leaves is the top-level vector without the
Profiles whose guid had been seen; the Groups are left as they were. -/
theorem RemoveDuplicateProfiles_fst (pgs : List ProfileOrGroup) (uniqueGuids : Finset GUID) :
    (RemoveDuplicateProfiles pgs uniqueGuids).1 = dedupTopLevel pgs uniqueGuids := by
  rw [RemoveDuplicateProfiles_eq]
  simpa using eraseIndices_duplicateIndices pgs [] uniqueGuids

theorem flatten_dedupTopLevel_head :
    ∀ (pgs : List ProfileOrGroup) (seen : Finset GUID) (p : Profile) (ps : List Profile),
      flatten pgs = p :: ps → p.guid ∉ seen →
      ∃ qs, flatten (dedupTopLevel pgs seen) = p :: qs := by
  intro pgs
  induction pgs with
  | nil => intro seen p ps h; simp [flatten] at h
  | cons x rest ih =>
    intro seen p ps h hp
    cases x with
    | profile q =>
      simp only [flatten, List.cons.injEq] at h
      obtain ⟨rfl, _⟩ := h
      refine ⟨flatten (dedupTopLevel rest (insert q.guid seen)), ?_⟩
      simp only [dedupTopLevel, hp, if_false, flatten]
    | group g =>
      simp only [flatten] at h
      simp only [dedupTopLevel, flatten]
      cases hg : flattenGroup g with
      | nil =>
        rw [hg, List.nil_append] at h
        obtain ⟨qs, hq⟩ := ih (seen ∪ ((flattenGroup g).map fun p => p.guid).toFinset) p ps h
          (by simpa [hg] using hp)
        exact ⟨qs, by simpa [hg] using hq⟩
      | cons a as =>
        rw [hg, List.cons_append, List.cons.injEq] at h
        exact ⟨_, by rw [h.1]; rfl⟩

/-- Removing duplicates from an empty seen set never empties a tree whose flattening
is not empty. -/
theorem flatten_RemoveDuplicateProfiles_ne_nil (pgs : List ProfileOrGroup)
    (h : flatten pgs ≠ []) : flatten (RemoveDuplicateProfiles pgs ∅).1 ≠ [] := by
  rw [RemoveDuplicateProfiles_fst]
  cases hf : flatten pgs with
  | nil => exact absurd hf h
  | cons p ps =>
    obtain ⟨qs, hq⟩ := flatten_dedupTopLevel_head pgs ∅ p ps hf (by simp)
    rw [hq]
    simp


/-! ## Lemmas on the stages of `_ValidateSettings` -/

theorem ValidateAllSchemesExist_frame (s : CascadiaSettings) :
    (_ValidateAllSchemesExist s)._profilesAndGroups = s._profilesAndGroups ∧
    (_ValidateAllSchemesExist s)._globals = s._globals := by
  unfold _ValidateAllSchemesExist
  simp only []
  split <;> exact ⟨rfl, rfl⟩

theorem ValidateKeybindings_frame (s : CascadiaSettings) :
    (_ValidateKeybindings s)._profilesAndGroups = s._profilesAndGroups ∧
    (_ValidateKeybindings s)._globals = s._globals := by
  unfold _ValidateKeybindings
  simp only []
  split <;> exact ⟨rfl, rfl⟩

theorem ValidateColorSchemesInCommands_frame (s : CascadiaSettings) :
    (_ValidateColorSchemesInCommands s)._profilesAndGroups = s._profilesAndGroups ∧
    (_ValidateColorSchemesInCommands s)._globals = s._globals := by
  unfold _ValidateColorSchemesInCommands
  simp only []
  split <;> exact ⟨rfl, rfl⟩

theorem ValidateNoGlobalsKey_frame (s : CascadiaSettings) :
    (_ValidateNoGlobalsKey s)._profilesAndGroups = s._profilesAndGroups ∧
    (_ValidateNoGlobalsKey s)._globals = s._globals := by
  unfold _ValidateNoGlobalsKey
  split <;> exact ⟨rfl, rfl⟩

/-- The stages after `_ValidateDefaultProfileExists` change neither the tree nor the
global settings. -/
theorem warningStages_frame (env : Collaborators) (s : CascadiaSettings) :
    (warningStages env s)._profilesAndGroups = s._profilesAndGroups ∧
    (warningStages env s)._globals = s._globals := by
  unfold warningStages
  constructor
  · rw [(ValidateNoGlobalsKey_frame _).1, (ValidateColorSchemesInCommands_frame _).1,
      (ValidateKeybindings_frame _).1, (ValidateAllSchemesExist_frame s).1.symm]
    rfl
  · rw [(ValidateNoGlobalsKey_frame _).2, (ValidateColorSchemesInCommands_frame _).2,
      (ValidateKeybindings_frame _).2, (ValidateAllSchemesExist_frame s).2.symm]
    rfl

theorem ValidateProfilesExist_eq (s : CascadiaSettings) :
    _ValidateProfilesExist s
      = if ExtractProfiles s._profilesAndGroups [] = [] then .error .NoProfiles else .ok s := by
  unfold _ValidateProfilesExist
  by_cases h : ExtractProfiles s._profilesAndGroups [] = []
  · simp [h]
  · simp [h, List.isEmpty_iff]

theorem UpdateActiveProfiles_eq (s : CascadiaSettings) :
    _UpdateActiveProfiles s
      = if ExtractProfiles (RemoveHiddenProfiles s._profilesAndGroups) [] = [] then
          .error .AllProfilesHidden
        else .ok { s with _profilesAndGroups := RemoveHiddenProfiles s._profilesAndGroups } := by
  unfold _UpdateActiveProfiles
  by_cases h : ExtractProfiles (RemoveHiddenProfiles s._profilesAndGroups) [] = []
  · simp [h]
  · simp [h, List.isEmpty_iff]

theorem ValidateNoDuplicateProfiles_tree (s : CascadiaSettings) :
    (_ValidateNoDuplicateProfiles s)._profilesAndGroups
      = (RemoveDuplicateProfiles s._profilesAndGroups ∅).1 := by
  unfold _ValidateNoDuplicateProfiles
  simp only []
  split <;> rfl

/-- The stage `_ValidateDefaultProfileExists` stays inside the vector when the
flattened tree is not empty; it then leaves the tree alone and the default guid it
leaves is the guid of a flattened profile. -/
theorem ValidateDefaultProfileExists_of_ne_nil (s : CascadiaSettings)
    (h : ExtractProfiles s._profilesAndGroups [] ≠ []) :
    ∃ s6, _ValidateDefaultProfileExists s = some s6 ∧
      s6._profilesAndGroups = s._profilesAndGroups ∧
      ∃ p ∈ ExtractProfiles s._profilesAndGroups [], p.guid = s6._globals.DefaultProfile := by
  cases hf : ExtractProfiles s._profilesAndGroups [] with
  | nil => exact absurd hf h
  | cons first rest =>
    unfold _ValidateDefaultProfileExists
    simp only [hf]
    split
    · exact ⟨_, rfl, rfl, first, List.mem_cons_self _ _, rfl⟩
    · next hc =>
      refine ⟨s, rfl, rfl, ?_⟩
      have hn : defaultProfileNotInProfiles s._globals.DefaultProfile (first :: rest) ≠ true := by
        intro ht
        exact hc (by simp [ht])
      rw [Ne, defaultProfileNotInProfiles_eq_true] at hn
      push_neg at hn
      exact hn

/-- The run of `_ValidateSettings`, stage by stage. -/
theorem ValidateSettings_cases (env : Collaborators) (s : CascadiaSettings) :
    (ExtractProfiles s._profilesAndGroups [] = [] ∧
      _ValidateSettings env s = .failed .NoProfiles) ∨
    (ExtractProfiles s._profilesAndGroups [] ≠ [] ∧
      ExtractProfiles (RemoveHiddenProfiles
        (_ReorderProfilesToMatchUserSettingsOrder s)._profilesAndGroups) [] = [] ∧
      _ValidateSettings env s = .failed .AllProfilesHidden) ∨
    (ExtractProfiles s._profilesAndGroups [] ≠ [] ∧
      ExtractProfiles (RemoveHiddenProfiles
        (_ReorderProfilesToMatchUserSettingsOrder s)._profilesAndGroups) [] ≠ [] ∧
      ∃ s3 s6,
        _UpdateActiveProfiles (_ReorderProfilesToMatchUserSettingsOrder s) = .ok s3 ∧
        s3._warnings = s._warnings ∧
        _ValidateDefaultProfileExists
          (_ResolveDefaultProfile env (_ValidateNoDuplicateProfiles s3)) = some s6 ∧
        (∃ p ∈ ExtractProfiles s6._profilesAndGroups [], p.guid = s6._globals.DefaultProfile) ∧
        _ValidateSettings env s = .completed (warningStages env s6)) := by
  by_cases h1 : ExtractProfiles s._profilesAndGroups [] = []
  · left
    refine ⟨h1, ?_⟩
    simp [_ValidateSettings, ValidateProfilesExist_eq, h1]
  · right
    by_cases h3 : ExtractProfiles (RemoveHiddenProfiles
        (_ReorderProfilesToMatchUserSettingsOrder s)._profilesAndGroups) [] = []
    · left
      refine ⟨h1, h3, ?_⟩
      simp [_ValidateSettings, ValidateProfilesExist_eq, h1, UpdateActiveProfiles_eq, h3]
    · right
      refine ⟨h1, h3, ?_⟩
      have hne : ExtractProfiles (_ResolveDefaultProfile env (_ValidateNoDuplicateProfiles
          { _ReorderProfilesToMatchUserSettingsOrder s with
            _profilesAndGroups := RemoveHiddenProfiles
              (_ReorderProfilesToMatchUserSettingsOrder s)._profilesAndGroups
          }))._profilesAndGroups [] ≠ [] := by
        have : (_ResolveDefaultProfile env (_ValidateNoDuplicateProfiles
          { _ReorderProfilesToMatchUserSettingsOrder s with
            _profilesAndGroups := RemoveHiddenProfiles
              (_ReorderProfilesToMatchUserSettingsOrder s)._profilesAndGroups
          }))._profilesAndGroups
            = (RemoveDuplicateProfiles (RemoveHiddenProfiles
                (_ReorderProfilesToMatchUserSettingsOrder s)._profilesAndGroups) ∅).1 := by
          simp only [_ResolveDefaultProfile, ValidateNoDuplicateProfiles_tree]
        rw [this, ExtractProfiles_eq_append_flatten, List.nil_append]
        apply flatten_RemoveDuplicateProfiles_ne_nil
        rw [ExtractProfiles_eq_append_flatten, List.nil_append] at h3
        exact h3
      obtain ⟨s6, hs6, htree, hmem⟩ := ValidateDefaultProfileExists_of_ne_nil _ hne
      refine ⟨{ _ReorderProfilesToMatchUserSettingsOrder s with
            _profilesAndGroups := RemoveHiddenProfiles
              (_ReorderProfilesToMatchUserSettingsOrder s)._profilesAndGroups
          }, s6, by rw [UpdateActiveProfiles_eq, if_neg h3], rfl, hs6, ?_, ?_⟩
      · rw [htree]
        exact hmem
      · simp [_ValidateSettings, ValidateProfilesExist_eq, h1, UpdateActiveProfiles_eq, h3, hs6]


/-! ## Claims on the run of `_ValidateSettings` and its first stages -/

/-- After every run of `_ValidateSettings` that completes, whatever the absent stage
`_ResolveDefaultProfile` resolved the default reference to, the global default-profile
guid is the guid of some profile of the flattened tree, hidden or not. -/
theorem ValidateSettings_default_is_active (env : Collaborators) (s s' : CascadiaSettings)
    (h : _ValidateSettings env s = .completed s') :
    ∃ p ∈ ExtractProfiles s'._profilesAndGroups [], p.guid = s'._globals.DefaultProfile := by
  rcases ValidateSettings_cases env s with ⟨_, hf⟩ | ⟨_, _, hf⟩ |
    ⟨_, _, s3, s6, _, _, _, hmem, hc⟩
  · rw [hf] at h; cases h
  · rw [hf] at h; cases h
  · rw [hc] at h
    cases h
    rw [(warningStages_frame env s6).1, (warningStages_frame env s6).2]
    exact hmem

/-- Instance at the end-to-end example: the run completes with the default set to the
guid of C, the first active profile. -/
theorem ValidateSettings_default_is_active_witness :
    ∃ p ∈ ExtractProfiles exValidatedSettings._profilesAndGroups [],
      p.guid = exValidatedSettings._globals.DefaultProfile :=
  ValidateSettings_default_is_active exEnv exSettings exValidatedSettings rfl

/-- C11: on the tree made of a visible Group that holds one hidden profile, whatever the
absent stage `_ResolveDefaultProfile` resolves the default reference to, the run of
`_ValidateSettings` completes, and the global default-profile guid it leaves is the
guid of the hidden profile: the flattened tree still holds that profile and no other,
so the default is the guid of no profile that is not hidden. -/
theorem ValidateSettings_default_can_be_hidden (env : Collaborators) :
    ∃ s', _ValidateSettings env allHiddenSettings = .completed s' ∧
      ExtractProfiles s'._profilesAndGroups [] = [hiddenProfile] ∧
      hiddenProfile.hidden = true ∧
      s'._globals.DefaultProfile = hiddenProfile.guid ∧
      ∀ p ∈ ExtractProfiles s'._profilesAndGroups [],
        p.hidden = false → p.guid ≠ s'._globals.DefaultProfile := by
  have hrun : _ValidateSettings env allHiddenSettings
      = match _ValidateDefaultProfileExists (_ResolveDefaultProfile env allHiddenSettings) with
        | none => .undefinedBehaviour
        | some s6 => .completed (warningStages env s6) := rfl
  have hne : ExtractProfiles
      (_ResolveDefaultProfile env allHiddenSettings)._profilesAndGroups [] ≠ [] := by
    show ExtractProfiles hiddenInGroupTree [] ≠ []
    decide
  obtain ⟨s6, hs6, htree, p, hp, hguid⟩ := ValidateDefaultProfileExists_of_ne_nil _ hne
  have hflat : ExtractProfiles (warningStages env s6)._profilesAndGroups []
      = [hiddenProfile] := by
    rw [(warningStages_frame env s6).1, htree]
    rfl
  have hp2 : p = hiddenProfile := by
    have : p ∈ [hiddenProfile] := hp
    simpa using this
  have hdef : (warningStages env s6)._globals.DefaultProfile = hiddenProfile.guid := by
    rw [(warningStages_frame env s6).2, ← hguid, hp2]
  refine ⟨warningStages env s6, by rw [hrun, hs6], hflat, rfl, hdef, ?_⟩
  intro q hq hvis
  rw [hflat] at hq
  have hq2 : q = hiddenProfile := by simpa using hq
  rw [hq2] at hvis
  cases hvis

/-- C12: `_ValidateProfilesExist` fails with `NoProfiles` exactly when the flattened tree
is empty (as for a tree made only of empty Groups) and with no other error; when the
flattened tree is not empty it returns the settings unchanged. -/
theorem ValidateProfilesExist_spec (s : CascadiaSettings) :
    (_ValidateProfilesExist s = .error .NoProfiles ↔
      ExtractProfiles s._profilesAndGroups [] = []) ∧
    (ExtractProfiles s._profilesAndGroups [] ≠ [] → _ValidateProfilesExist s = .ok s) ∧
    (∀ e, _ValidateProfilesExist s = .error e → e = .NoProfiles) ∧
    ExtractProfiles emptyGroupsTree [] = [] ∧
    _ValidateProfilesExist { s with _profilesAndGroups := emptyGroupsTree }
      = .error .NoProfiles := by
  rw [ValidateProfilesExist_eq]
  refine ⟨?_, ?_, ?_, rfl, rfl⟩
  · by_cases h : ExtractProfiles s._profilesAndGroups [] = [] <;> simp [h]
  · intro h; simp [h]
  · intro e
    by_cases h : ExtractProfiles s._profilesAndGroups [] = []
    · simp only [h, if_true]
      intro he
      cases he
      rfl
    · simp [h]

/-- C13: on the tree made of a visible Group that holds one hidden profile, every
profile is hidden, yet `_UpdateActiveProfiles` does not fail: it returns the settings
with the tree as it was, and the flattened tree still holds the hidden profile. -/
theorem UpdateActiveProfiles_passes_all_hidden_tree :
    (∀ p ∈ flatten allHiddenSettings._profilesAndGroups, p.hidden = true) ∧
    _UpdateActiveProfiles allHiddenSettings = .ok allHiddenSettings ∧
    ExtractProfiles allHiddenSettings._profilesAndGroups [] = [hiddenProfile] := by
  refine ⟨by decide, rfl, rfl⟩

/-- C14: a run of `_ValidateSettings` ends in exactly one of three ways. It throws
`NoProfiles`, when the flattened tree is empty on entry; it throws `AllProfilesHidden`,
when the flattened tree is empty after the reorder stage and the removal of hidden
profiles; or it completes: the stages up to `_UpdateActiveProfiles` have appended no
warning, `_ValidateDefaultProfileExists` stays inside its vector, and the five stages
after it, which only append warnings, all run. -/
theorem ValidateSettings_outcomes (env : Collaborators) (s : CascadiaSettings) :
    (_ReorderProfilesToMatchUserSettingsOrder s)._warnings = s._warnings ∧
    ((ExtractProfiles s._profilesAndGroups [] = [] ∧
        _ValidateProfilesExist s = .error .NoProfiles ∧
        _ValidateSettings env s = .failed .NoProfiles) ∨
     (ExtractProfiles s._profilesAndGroups [] ≠ [] ∧
        ExtractProfiles (RemoveHiddenProfiles
          (_ReorderProfilesToMatchUserSettingsOrder s)._profilesAndGroups) [] = [] ∧
        _ValidateProfilesExist s = .ok s ∧
        _UpdateActiveProfiles (_ReorderProfilesToMatchUserSettingsOrder s)
          = .error .AllProfilesHidden ∧
        _ValidateSettings env s = .failed .AllProfilesHidden) ∨
     (ExtractProfiles s._profilesAndGroups [] ≠ [] ∧
        ExtractProfiles (RemoveHiddenProfiles
          (_ReorderProfilesToMatchUserSettingsOrder s)._profilesAndGroups) [] ≠ [] ∧
        ∃ s3 s6,
          _ValidateProfilesExist s = .ok s ∧
          _UpdateActiveProfiles (_ReorderProfilesToMatchUserSettingsOrder s) = .ok s3 ∧
          s3._warnings = s._warnings ∧
          _ValidateDefaultProfileExists
            (_ResolveDefaultProfile env (_ValidateNoDuplicateProfiles s3)) = some s6 ∧
          _ValidateSettings env s
            = .completed (_ValidateNoGlobalsKey (_ValidateColorSchemesInCommands
                (_ValidateKeybindings (_ValidateMediaResources env
                  (_ValidateAllSchemesExist s6))))))) := by
  refine ⟨rfl, ?_⟩
  rcases ValidateSettings_cases env s with ⟨h1, hf⟩ | ⟨h1, h3, hf⟩ |
    ⟨h1, h3, s3, s6, hu, hw, hd, _, hc⟩
  · exact Or.inl ⟨h1, by rw [ValidateProfilesExist_eq, if_pos h1], hf⟩
  · exact Or.inr (Or.inl ⟨h1, h3, by rw [ValidateProfilesExist_eq, if_neg h1],
      by rw [UpdateActiveProfiles_eq, if_pos h3], hf⟩)
  · exact Or.inr (Or.inr ⟨h1, h3, s3, s6, by rw [ValidateProfilesExist_eq, if_neg h1],
      hu, hw, hd, hc⟩)

/-- C15: `_ValidateNoDuplicateProfiles` appends `DuplicateProfile` exactly once when two
profiles of the flattened tree share a guid, at whatever depth and however many they
are, and appends nothing when all guids are distinct; on a tree of two Profiles that
share a guid it removes the second one. -/
theorem ValidateNoDuplicateProfiles_spec (s : CascadiaSettings) (p q : Profile) :
    (¬ ((ExtractProfiles s._profilesAndGroups []).map fun x => x.guid).Nodup →
      (_ValidateNoDuplicateProfiles s)._warnings = s._warnings ++ [.DuplicateProfile]) ∧
    (((ExtractProfiles s._profilesAndGroups []).map fun x => x.guid).Nodup →
      (_ValidateNoDuplicateProfiles s)._warnings = s._warnings) ∧
    (p.guid = q.guid →
      (_ValidateNoDuplicateProfiles
          { s with _profilesAndGroups := [.profile p, .profile q] })._profilesAndGroups
        = [.profile p] ∧
      (_ValidateNoDuplicateProfiles
          { s with _profilesAndGroups := [.profile p, .profile q] })._warnings
        = s._warnings ++ [.DuplicateProfile]) := by
  have hflag : ∀ t : CascadiaSettings, (RemoveDuplicateProfiles t._profilesAndGroups ∅).2.2
      = hasDuplicate ∅ ((ExtractProfiles t._profilesAndGroups []).map fun x => x.guid) := by
    intro t
    rw [RemoveDuplicateProfiles_eq, ExtractProfiles_eq_append_flatten, List.nil_append]
  refine ⟨?_, ?_, ?_⟩
  · intro h
    have := (hasDuplicate_empty_iff _).2 h
    simp [_ValidateNoDuplicateProfiles, hflag, this]
  · intro h
    have : hasDuplicate ∅ ((ExtractProfiles s._profilesAndGroups []).map fun x => x.guid)
        = false := by
      cases hd : hasDuplicate ∅ ((ExtractProfiles s._profilesAndGroups []).map fun x => x.guid)
      · rfl
      · exact absurd h ((hasDuplicate_empty_iff _).1 hd)
    simp [_ValidateNoDuplicateProfiles, hflag, this]
  · intro h
    have h1 : (RemoveDuplicateProfiles [.profile p, .profile q] ∅).1 = [.profile p] := by
      rw [RemoveDuplicateProfiles_fst]
      simp [dedupTopLevel, h]
    have h2 : (RemoveDuplicateProfiles [.profile p, .profile q] ∅).2.2 = true := by
      rw [RemoveDuplicateProfiles_eq]
      simp [flatten, hasDuplicate, h]
    simp [_ValidateNoDuplicateProfiles, h1, h2]

/-- Instances: three profiles with the same guid, two of them inside a Group, give one
warning; the example tree, whose guids are distinct, gives none. -/
theorem ValidateNoDuplicateProfiles_spec_witness :
    (_ValidateNoDuplicateProfiles tripleDupSettings)._warnings = [.DuplicateProfile] ∧
    (_ValidateNoDuplicateProfiles exActiveSettings)._warnings = [] ∧
    (_ValidateNoDuplicateProfiles
        { exActiveSettings with
          _profilesAndGroups := [.profile dupFirst, .profile dupNested]
        })._profilesAndGroups = [.profile dupFirst] :=
  ⟨(ValidateNoDuplicateProfiles_spec tripleDupSettings dupFirst dupNested).1 (by decide),
   (ValidateNoDuplicateProfiles_spec exActiveSettings dupFirst dupNested).2.1 (by decide),
   ((ValidateNoDuplicateProfiles_spec exActiveSettings dupFirst dupNested).2.2 rfl).1⟩


/-! ## Claims on the scheme, media and keybinding stages -/

theorem schemesLoop_eq (colorSchemes : List String) :
    ∀ (profiles : List Profile) (found : Bool),
      schemesLoop colorSchemes profiles found
        = (profiles.map (resetUnknownScheme colorSchemes),
           found || profiles.any (hasUnknownScheme colorSchemes)) := by
  intro profiles
  induction profiles with
  | nil => intro found; simp [schemesLoop]
  | cons p rest ih =>
    intro found
    cases hs : p.schemeName with
    | none =>
      simp [schemesLoop, hs, ih, resetUnknownScheme, hasUnknownScheme]
    | some n =>
      by_cases hn : n ∈ colorSchemes
      · simp [schemesLoop, hs, ih, resetUnknownScheme, hasUnknownScheme, hn]
      · simp [schemesLoop, hs, ih, resetUnknownScheme, hasUnknownScheme, hn]

theorem ValidateAllSchemesExist_warnings (s : CascadiaSettings) :
    (_ValidateAllSchemesExist s)._warnings
      = if (ExtractProfiles s._profilesAndGroups []).any (hasUnknownScheme s._globals.ColorSchemes)
        then s._warnings ++ [.UnknownColorScheme] else s._warnings := by
  unfold _ValidateAllSchemesExist
  simp only [schemesLoop_eq, Bool.false_or]
  split <;> rfl

/-- C16: with a scheme map that holds "Campbell" and "Solarized" and a tree whose first
profile names the scheme "Nope", `_ValidateAllSchemesExist` appends
`UnknownColorScheme`, so the stage has met the unknown name, and leaves the tree as it
was: after the stage the first profile of the tree still names "Nope", which is no
entry of the map. The fallback name "Campbell", an entry of the map, went to the copy
of the profile in the local vector, which is dropped when the function returns. -/
theorem ValidateAllSchemesExist_resets_only_a_copy :
    ExtractProfiles knownFallbackSettings._profilesAndGroups [] = [unknownSchemeProfile, exA] ∧
    unknownSchemeProfile.schemeName = some "Nope" ∧
    (_ValidateAllSchemesExist knownFallbackSettings)._globals.ColorSchemes
      = ["Campbell", "Solarized"] ∧
    (_ValidateAllSchemesExist knownFallbackSettings)._warnings = [.UnknownColorScheme] ∧
    ExtractProfiles (_ValidateAllSchemesExist knownFallbackSettings)._profilesAndGroups []
      = [unknownSchemeProfile, exA] ∧
    (∃ p ∈ ExtractProfiles (_ValidateAllSchemesExist knownFallbackSettings)._profilesAndGroups [],
      ∃ n, p.schemeName = some n ∧
        n ∉ (_ValidateAllSchemesExist knownFallbackSettings)._globals.ColorSchemes) ∧
    (schemesLoop knownFallbackSettings._globals.ColorSchemes
        (ExtractProfiles knownFallbackSettings._profilesAndGroups []) false).1
      = [{ unknownSchemeProfile with schemeName := some "Campbell" }, exA] := by
  refine ⟨rfl, rfl, rfl, rfl, rfl, ⟨unknownSchemeProfile, by decide, "Nope", rfl, by decide⟩,
    rfl⟩

/-- With one profile that names the scheme "Nope" and an empty scheme map, after
`_ValidateAllSchemesExist` the profile of the tree still names a scheme that is no
entry of the map; the copy the loop worked on names "Campbell", which is no entry of
the map either. -/
theorem ValidateAllSchemesExist_leaves_unknown_scheme :
    (∃ p ∈ ExtractProfiles (_ValidateAllSchemesExist unknownSchemeSettings)._profilesAndGroups [],
      ∃ n, p.schemeName = some n ∧
        n ∉ (_ValidateAllSchemesExist unknownSchemeSettings)._globals.ColorSchemes) ∧
    (schemesLoop unknownSchemeSettings._globals.ColorSchemes
        (ExtractProfiles unknownSchemeSettings._profilesAndGroups []) false).1
      = [{ unknownSchemeProfile with schemeName := some "Campbell" }] ∧
    "Campbell" ∉ (_ValidateAllSchemesExist unknownSchemeSettings)._globals.ColorSchemes := by
  refine ⟨⟨unknownSchemeProfile, by decide, "Nope", rfl, by decide⟩, rfl, by decide⟩

/-- The loop of `_ValidateAllSchemesExist` on its local vector: after it, every profile
of the vector that has a color-scheme name set names an entry of the global scheme map
or carries the built-in fallback name "Campbell"; when the map has an entry of that
name, every such profile names an entry of the map. -/
theorem schemesLoop_names_entry_or_fallback (s : CascadiaSettings) (p : Profile) (n : String)
    (hp : p ∈ (schemesLoop s._globals.ColorSchemes
      (ExtractProfiles s._profilesAndGroups []) false).1)
    (hn : p.schemeName = some n) :
    (n ∈ s._globals.ColorSchemes ∨ n = "Campbell") ∧
    ("Campbell" ∈ s._globals.ColorSchemes → n ∈ s._globals.ColorSchemes) := by
  rw [schemesLoop_eq] at hp
  obtain ⟨q, _, rfl⟩ := List.mem_map.1 hp
  have key : n ∈ s._globals.ColorSchemes ∨ n = "Campbell" := by
    unfold resetUnknownScheme at hn
    split at hn
    · right
      simp only [Option.some.injEq] at hn
      exact hn.symm
    · next hk =>
      left
      simp only [hasUnknownScheme, hn, Bool.not_eq_true', decide_eq_false_iff_not,
        not_not] at hk
      exact hk
  refine ⟨key, fun hc => ?_⟩
  rcases key with h | h
  · exact h
  · exact h ▸ hc

/-- Instance: with a scheme map that holds "Campbell", the profile that named "Nope" names
an entry of the map after the loop. -/
theorem schemesLoop_names_entry_or_fallback_witness :
    { unknownSchemeProfile with schemeName := some "Campbell" }
      ∈ (schemesLoop knownFallbackSettings._globals.ColorSchemes
          (ExtractProfiles knownFallbackSettings._profilesAndGroups []) false).1 ∧
    "Campbell" ∈ knownFallbackSettings._globals.ColorSchemes :=
  ⟨by decide,
   (schemesLoop_names_entry_or_fallback knownFallbackSettings
      { unknownSchemeProfile with schemeName := some "Campbell" } "Campbell"
      (by decide) rfl).2 (by decide)⟩

/-- C17: `_ValidateAllSchemesExist` appends `UnknownColorScheme` exactly once when some
flattened profile has a scheme name that is set and is no key of the scheme map, and
appends nothing otherwise; the loop leaves alone every profile with no scheme name or
with a known one, and such a profile of the flattened tree is still there, at the same
place, after the stage. -/
theorem ValidateAllSchemesExist_spec (s : CascadiaSettings) :
    ((∃ p ∈ ExtractProfiles s._profilesAndGroups [], ∃ n, p.schemeName = some n ∧
        n ∉ s._globals.ColorSchemes) →
      (_ValidateAllSchemesExist s)._warnings = s._warnings ++ [.UnknownColorScheme]) ∧
    ((∀ p ∈ ExtractProfiles s._profilesAndGroups [], ∀ n, p.schemeName = some n →
        n ∈ s._globals.ColorSchemes) →
      (_ValidateAllSchemesExist s)._warnings = s._warnings) ∧
    (schemesLoop s._globals.ColorSchemes (ExtractProfiles s._profilesAndGroups []) false).1
      = (ExtractProfiles s._profilesAndGroups []).map (resetUnknownScheme s._globals.ColorSchemes) ∧
    (∀ p : Profile, (p.schemeName = none ∨ ∃ n, p.schemeName = some n ∧
        n ∈ s._globals.ColorSchemes) → resetUnknownScheme s._globals.ColorSchemes p = p) ∧
    (∀ (i : Nat) (p : Profile), (ExtractProfiles s._profilesAndGroups [])[i]? = some p →
      (p.schemeName = none ∨ ∃ n, p.schemeName = some n ∧ n ∈ s._globals.ColorSchemes) →
      (ExtractProfiles (_ValidateAllSchemesExist s)._profilesAndGroups [])[i]? = some p) := by
  refine ⟨?_, ?_, ?_, ?_, ?_⟩
  · rintro ⟨p, hp, n, hn, hnot⟩
    rw [ValidateAllSchemesExist_warnings, if_pos]
    rw [List.any_eq_true]
    exact ⟨p, hp, by simp [hasUnknownScheme, hn, hnot]⟩
  · intro h
    rw [ValidateAllSchemesExist_warnings, if_neg]
    rw [List.any_eq_true]
    rintro ⟨p, hp, hu⟩
    cases hs : p.schemeName with
    | none => simp [hasUnknownScheme, hs] at hu
    | some n =>
      have := h p hp n hs
      simp [hasUnknownScheme, hs, this] at hu
  · rw [schemesLoop_eq]
  · rintro p (h | ⟨n, hn, hk⟩)
    · simp [resetUnknownScheme, hasUnknownScheme, h]
    · simp [resetUnknownScheme, hasUnknownScheme, hn, hk]
  · intro i p hi _
    rw [(ValidateAllSchemesExist_frame s).1]
    exact hi

/-- Instances: with the scheme map holding "Campbell" and "Solarized", the profile naming
"Nope" gives one warning; a tree whose profiles name no scheme gives none. -/
theorem ValidateAllSchemesExist_spec_witness :
    (_ValidateAllSchemesExist knownFallbackSettings)._warnings = [.UnknownColorScheme] ∧
    (_ValidateAllSchemesExist exActiveSettings)._warnings = [] :=
  ⟨(ValidateAllSchemesExist_spec knownFallbackSettings).1
      ⟨unknownSchemeProfile, by decide, "Nope", rfl, by decide⟩,
   (ValidateAllSchemesExist_spec exActiveSettings).2.1 (by decide)⟩


theorem checkBackgroundImage_eq (env : Collaborators) (p : Profile) :
    checkBackgroundImage env.isValidUri env.ExpandedBackgroundImagePath p
      = ({ p with backgroundImagePath :=
            if hasInvalidBackground env p then "" else p.backgroundImagePath },
         hasInvalidBackground env p) := by
  unfold checkBackgroundImage hasInvalidBackground
  by_cases h1 : p.backgroundImagePath = ""
  · cases p
    simp_all
  · by_cases h2 : env.isValidUri (env.ExpandedBackgroundImagePath p) = true
    · simp [h1, h2]
    · simp [h1, h2]

theorem checkIcon_eq (env : Collaborators) (p : Profile) :
    checkIcon env.isValidUri env.ExpandEnvironmentStrings p
      = ({ p with icon := if hasInvalidIcon env p then "" else p.icon },
         hasInvalidIcon env p) := by
  unfold checkIcon hasInvalidIcon hasIllFormedIcon
  by_cases h1 : p.icon = ""
  · cases p
    simp_all
  · by_cases h2 : env.isValidUri (env.ExpandEnvironmentStrings p.icon) = true
    · simp [h1, h2]
    · by_cases h3 : 2 < wcharSize (env.ExpandEnvironmentStrings p.icon)
      · simp [h1, h2, h3]
      · simp [h1, h2, h3]

theorem mediaLoop_eq (env : Collaborators) :
    ∀ (profiles : List Profile) (invalidBackground invalidIcon : Bool),
      mediaLoop env.isValidUri env.ExpandedBackgroundImagePath env.ExpandEnvironmentStrings
          profiles invalidBackground invalidIcon
        = ⟨profiles.map (clearInvalidMedia env),
           invalidBackground || profiles.any (hasInvalidBackground env),
           invalidIcon || profiles.any (hasInvalidIcon env)⟩ := by
  intro profiles
  induction profiles with
  | nil => intro b i; simp [mediaLoop]
  | cons p rest ih =>
    intro b i
    have hicon : hasInvalidIcon env
        { p with backgroundImagePath :=
            if hasInvalidBackground env p then "" else p.backgroundImagePath }
        = hasInvalidIcon env p := rfl
    simp only [mediaLoop, checkBackgroundImage_eq, checkIcon_eq, ih, hicon, List.map_cons,
      List.any_cons, Bool.or_assoc]
    rfl

theorem ValidateMediaResources_warnings (env : Collaborators) (s : CascadiaSettings) :
    (_ValidateMediaResources env s)._warnings
      = s._warnings ++
        (if (ExtractProfiles s._profilesAndGroups []).any (hasInvalidBackground env)
          then [.InvalidBackgroundImage] else []) ++
        (if (ExtractProfiles s._profilesAndGroups []).any (hasInvalidIcon env)
          then [.InvalidIcon] else []) := by
  simp only [_ValidateMediaResources, mediaLoop_eq, Bool.false_or, appendMediaWarnings]
  cases (ExtractProfiles s._profilesAndGroups []).any (hasInvalidBackground env) <;>
    cases (ExtractProfiles s._profilesAndGroups []).any (hasInvalidIcon env) <;> simp

/-- C18, the claim as stated fails: with the predicate "holds the separator ':'" for a
well-formed reference and a profile whose icon is the text "ab", the icon is set and
ill-formed, yet `_ValidateMediaResources` appends no warning and clears the icon
neither in the list the loop works on nor in the tree. -/
theorem ValidateMediaResources_keeps_short_icon :
    hasIllFormedIcon colonEnv shortIconProfile = true ∧
    (_ValidateMediaResources colonEnv shortIconSettings)._warnings = [] ∧
    (mediaLoop colonEnv.isValidUri colonEnv.ExpandedBackgroundImagePath
        colonEnv.ExpandEnvironmentStrings
        (ExtractProfiles shortIconSettings._profilesAndGroups []) false false).profiles
      = [shortIconProfile] ∧
    ExtractProfiles (_ValidateMediaResources colonEnv shortIconSettings)._profilesAndGroups []
      = [shortIconProfile] ∧
    shortIconProfile.icon = "ab" := by
  refine ⟨by decide, by decide, by decide, by decide, rfl⟩

theorem any_hasInvalidBackground_iff (env : Collaborators) (profiles : List Profile) :
    profiles.any (hasInvalidBackground env) = true ↔
      ∃ p ∈ profiles, p.backgroundImagePath ≠ "" ∧
        env.isValidUri (env.ExpandedBackgroundImagePath p) = false := by
  simp [List.any_eq_true, hasInvalidBackground]

theorem any_hasInvalidIcon_iff (env : Collaborators) (profiles : List Profile) :
    profiles.any (hasInvalidIcon env) = true ↔
      ∃ p ∈ profiles, p.icon ≠ "" ∧
        env.isValidUri (env.ExpandEnvironmentStrings p.icon) = false ∧
        2 < wcharSize (env.ExpandEnvironmentStrings p.icon) := by
  simp [List.any_eq_true, hasInvalidIcon, hasIllFormedIcon, and_assoc]

/-- The warnings of `_ValidateMediaResources`, with the two conditions spelled out. -/
theorem ValidateMediaResources_warnings_iff (env : Collaborators) (s : CascadiaSettings) :
    (_ValidateMediaResources env s)._warnings
      = s._warnings ++
        (if ∃ p ∈ ExtractProfiles s._profilesAndGroups [],
            p.backgroundImagePath ≠ "" ∧
              env.isValidUri (env.ExpandedBackgroundImagePath p) = false
          then [.InvalidBackgroundImage] else []) ++
        (if ∃ p ∈ ExtractProfiles s._profilesAndGroups [],
            p.icon ≠ "" ∧ env.isValidUri (env.ExpandEnvironmentStrings p.icon) = false ∧
              2 < wcharSize (env.ExpandEnvironmentStrings p.icon)
          then [.InvalidIcon] else []) := by
  rw [ValidateMediaResources_warnings]
  simp only [any_hasInvalidBackground_iff, any_hasInvalidIcon_iff]

/-- C18, amended: with well-formedness a given predicate on the expanded value,
`_ValidateMediaResources` appends `InvalidBackgroundImage` exactly once when some
profile of the flattened tree has a background image that is set and ill-formed, and
not otherwise; after it `InvalidIcon` exactly once when some profile has an icon that is
set, ill-formed and longer than two code units, and not otherwise; and nothing else. An
ill-formed icon of at most two code units is kept, in the loop and in the tree, and
raises no flag. -/
theorem ValidateMediaResources_spec (env : Collaborators) (s : CascadiaSettings) :
    (_ValidateMediaResources env s)._warnings
      = s._warnings ++
        (if ∃ p ∈ ExtractProfiles s._profilesAndGroups [],
            p.backgroundImagePath ≠ "" ∧
              env.isValidUri (env.ExpandedBackgroundImagePath p) = false
          then [.InvalidBackgroundImage] else []) ++
        (if ∃ p ∈ ExtractProfiles s._profilesAndGroups [],
            p.icon ≠ "" ∧ env.isValidUri (env.ExpandEnvironmentStrings p.icon) = false ∧
              2 < wcharSize (env.ExpandEnvironmentStrings p.icon)
          then [.InvalidIcon] else []) ∧
    (∀ p ∈ ExtractProfiles s._profilesAndGroups [],
      p.icon ≠ "" → env.isValidUri (env.ExpandEnvironmentStrings p.icon) = false →
      wcharSize (env.ExpandEnvironmentStrings p.icon) ≤ 2 →
      checkIcon env.isValidUri env.ExpandEnvironmentStrings p = (p, false) ∧
      (checkIcon env.isValidUri env.ExpandEnvironmentStrings
        (checkBackgroundImage env.isValidUri env.ExpandedBackgroundImagePath p).1).1.icon
          = p.icon ∧
      (checkIcon env.isValidUri env.ExpandEnvironmentStrings
        (checkBackgroundImage env.isValidUri env.ExpandedBackgroundImagePath p).1).2 = false ∧
      p ∈ ExtractProfiles (_ValidateMediaResources env s)._profilesAndGroups []) := by
  refine ⟨ValidateMediaResources_warnings_iff env s, ?_⟩
  intro p hp _ _ hshort
  have hicon : hasInvalidIcon env p = false := by
    simp only [hasInvalidIcon, Bool.and_eq_false_imp, decide_eq_false_iff_not]
    intro _
    omega
  have hicon2 : hasInvalidIcon env
      { p with backgroundImagePath :=
          if hasInvalidBackground env p then "" else p.backgroundImagePath } = false := hicon
  refine ⟨?_, ?_, ?_, hp⟩
  · rw [checkIcon_eq, hicon]
    simp
  · rw [checkBackgroundImage_eq, checkIcon_eq, hicon2]
    simp
  · rw [checkBackgroundImage_eq, checkIcon_eq, hicon2]

/-- Instance: with the short-icon profile and the profile with invalid media, both
warnings are appended once, and the icon "ab" is left as it is. -/
theorem ValidateMediaResources_spec_witness :
    (_ValidateMediaResources colonEnv badMediaSettings)._warnings
      = [.InvalidBackgroundImage, .InvalidIcon] ∧
    checkIcon colonEnv.isValidUri colonEnv.ExpandEnvironmentStrings shortIconProfile
      = (shortIconProfile, false) :=
  ⟨(ValidateMediaResources_spec colonEnv badMediaSettings).1.trans (by decide),
   ((ValidateMediaResources_spec colonEnv badMediaSettings).2 shortIconProfile
      (by decide) (by decide) (by decide) (by decide)).1⟩

theorem foldl_append_singleton {α : Type} (l : List α) :
    ∀ init : List α, l.foldl (fun acc x => acc ++ [x]) init = init ++ l := by
  induction l with
  | nil => intro init; simp
  | cons a rest ih => intro init; simp [ih]

/-- C19: when the keybinding parser left no warning, `_ValidateKeybindings` changes
nothing; otherwise the warnings list becomes the earlier list, then the marker
`AtLeastOneKeybindingWarning`, then the parser's warnings in their order. Nothing but
the warnings list changes. -/
theorem ValidateKeybindings_spec (s : CascadiaSettings) :
    (s._globals.KeybindingsWarnings = [] → _ValidateKeybindings s = s) ∧
    (s._globals.KeybindingsWarnings ≠ [] →
      _ValidateKeybindings s
        = { s with _warnings :=
              s._warnings ++ [.AtLeastOneKeybindingWarning] ++ s._globals.KeybindingsWarnings }) := by
  constructor
  · intro h
    simp [_ValidateKeybindings, h]
  · intro h
    simp [_ValidateKeybindings, h, List.isEmpty_iff, foldl_append_singleton]

/-- Instance: two keybinding warnings after one earlier warning. -/
theorem ValidateKeybindings_spec_witness :
    (_ValidateKeybindings keybindingSettings)._warnings
      = [.MissingDefaultProfile, .AtLeastOneKeybindingWarning, .KeybindingWarning 1,
          .KeybindingWarning 2] ∧
    _ValidateKeybindings exActiveSettings = exActiveSettings :=
  ⟨congrArg CascadiaSettings._warnings
      ((ValidateKeybindings_spec keybindingSettings).2 (by decide)),
   (ValidateKeybindings_spec exActiveSettings).1 rfl⟩


/-! ## Claims on the command stage -/

theorem leaf_HasInvalidColorScheme_iff (colorSchemes : List String) (name : String)
    (action : Option ActionAndArgs) (iterateOn : ExpandCommandType) :
    _HasInvalidColorScheme colorSchemes (.mk name [] action iterateOn) = true ↔
      (Command.mk name [] action iterateOn).carriesInvalidScheme colorSchemes := by
  unfold Command.carriesInvalidScheme
  simp only [_HasInvalidColorScheme, Command.Action, Command.IterateOn, List.isEmpty_nil,
    Bool.not_true, Bool.false_eq_true, if_false]
  cases action with
  | none => simp
  | some aa =>
    cases aa with
    | mk args =>
      cases args with
      | none => simp
      | some a =>
        cases a with
        | otherArgs => simp
        | SetColorSchemeArgs n => simp

mutual
theorem HasInvalidColorScheme_iff (colorSchemes : List String) :
    ∀ c : Command, _HasInvalidColorScheme colorSchemes c = true ↔
      ∃ d ∈ c.reachable, d.NestedCommands = [] ∧ d.carriesInvalidScheme colorSchemes
  | .mk name nested action iterateOn => by
      have ih := nestedLoop_iff colorSchemes nested
      cases nested with
      | nil =>
        rw [leaf_HasInvalidColorScheme_iff]
        simp [Command.reachable, reachableFrom, Command.NestedCommands]
      | cons x xs =>
        have hc : _HasInvalidColorScheme colorSchemes (.mk name (x :: xs) action iterateOn)
            = nestedLoop colorSchemes (x :: xs) := by
          simp [_HasInvalidColorScheme]
        rw [hc, ih]
        simp [Command.reachable, Command.NestedCommands]
theorem nestedLoop_iff (colorSchemes : List String) :
    ∀ l : List Command, nestedLoop colorSchemes l = true ↔
      ∃ d ∈ reachableFrom l, d.NestedCommands = [] ∧ d.carriesInvalidScheme colorSchemes
  | [] => by simp [nestedLoop, reachableFrom]
  | c :: rest => by
      have h1 := HasInvalidColorScheme_iff colorSchemes c
      have h2 := nestedLoop_iff colorSchemes rest
      have hstep : nestedLoop colorSchemes (c :: rest)
          = (_HasInvalidColorScheme colorSchemes c || nestedLoop colorSchemes rest) := by
        simp only [nestedLoop]
        cases _HasInvalidColorScheme colorSchemes c <;> simp
      rw [hstep, Bool.or_eq_true, h1, h2]
      simp only [reachableFrom, List.mem_append]
      constructor
      · rintro (⟨d, hd, hl⟩ | ⟨d, hd, hl⟩)
        · exact ⟨d, Or.inl hd, hl⟩
        · exact ⟨d, Or.inr hd, hl⟩
      · rintro ⟨d, hd | hd, hl⟩
        · exact Or.inl ⟨d, hd, hl⟩
        · exact Or.inr ⟨d, hd, hl⟩
end

theorem commandsLoop_eq_nestedLoop (colorSchemes : List String) (l : List Command) :
    commandsLoop colorSchemes l = nestedLoop colorSchemes l := by
  induction l with
  | nil => simp [commandsLoop, nestedLoop]
  | cons c rest ih => simp [commandsLoop, nestedLoop, ih]

/-- C20, the claim as stated fails: the parent command is reachable, its own action sets
the scheme "Nope", which is no key of the scheme map, and it does not iterate over color
schemes; yet `_ValidateColorSchemesInCommands` appends nothing, because a command that
has nested commands is judged through them only. -/
theorem ValidateColorSchemesInCommands_skips_parent_action :
    parentCommand ∈ reachableFrom parentCommandSettings._globals.Commands ∧
    parentCommand.carriesInvalidScheme parentCommandSettings._globals.ColorSchemes ∧
    (_ValidateColorSchemesInCommands parentCommandSettings)._warnings
      = parentCommandSettings._warnings := by
  refine ⟨?_, ⟨"Nope", rfl, by decide, by decide⟩, rfl⟩
  simp [parentCommandSettings, parentCommand, reachableFrom, Command.reachable]

/-- C20, amended: `_ValidateColorSchemesInCommands` appends `InvalidColorSchemeInCmd`
exactly once when some command without nested commands of its own, reachable through
nesting, carries a "set color scheme" action that does not iterate over color schemes
and whose scheme name is no key of the scheme map, and appends nothing otherwise;
nothing but the warnings list changes; a command without nested commands that iterates
over color schemes is never reported, whatever its action. -/
theorem ValidateColorSchemesInCommands_spec (s : CascadiaSettings) :
    ((∃ d ∈ reachableFrom s._globals.Commands,
        d.NestedCommands = [] ∧ d.carriesInvalidScheme s._globals.ColorSchemes) →
      _ValidateColorSchemesInCommands s
        = { s with _warnings := s._warnings ++ [.InvalidColorSchemeInCmd] }) ∧
    ((¬ ∃ d ∈ reachableFrom s._globals.Commands,
        d.NestedCommands = [] ∧ d.carriesInvalidScheme s._globals.ColorSchemes) →
      _ValidateColorSchemesInCommands s = s) ∧
    (∀ (name : String) (action : Option ActionAndArgs),
      _HasInvalidColorScheme s._globals.ColorSchemes (.mk name [] action .ColorSchemes)
        = false) := by
  refine ⟨?_, ?_, ?_⟩
  · intro h
    have := (nestedLoop_iff s._globals.ColorSchemes s._globals.Commands).2 h
    simp [_ValidateColorSchemesInCommands, commandsLoop_eq_nestedLoop, this]
  · intro h
    have : nestedLoop s._globals.ColorSchemes s._globals.Commands = false := by
      cases hn : nestedLoop s._globals.ColorSchemes s._globals.Commands
      · rfl
      · exact absurd ((nestedLoop_iff _ _).1 hn) h
    simp [_ValidateColorSchemesInCommands, commandsLoop_eq_nestedLoop, this]
  · intro name action
    cases h : _HasInvalidColorScheme s._globals.ColorSchemes (.mk name [] action .ColorSchemes)
    · rfl
    · obtain ⟨_, _, hne, _⟩ := (leaf_HasInvalidColorScheme_iff _ _ _ _).1 h
      exact absurd rfl hne

/-- Instances: the invalid command two levels down gives one warning; the parent
command with its valid nested command gives none. -/
theorem ValidateColorSchemesInCommands_spec_witness :
    (_ValidateColorSchemesInCommands nestedInvalidSettings)._warnings
      = [.InvalidColorSchemeInCmd] ∧
    _ValidateColorSchemesInCommands parentCommandSettings = parentCommandSettings :=
  ⟨congrArg CascadiaSettings._warnings
      ((ValidateColorSchemesInCommands_spec nestedInvalidSettings).1
        ⟨invalidLeafCommand,
          by simp [nestedInvalidSettings, reachableFrom, Command.reachable, invalidLeafCommand],
          rfl, "Nope", rfl, by decide, by decide⟩),
   (ValidateColorSchemesInCommands_spec parentCommandSettings).2.1 (by
      rintro ⟨d, hd, hleaf, n, hact, _, hn⟩
      simp only [parentCommandSettings, parentCommand, validLeafCommand, reachableFrom,
        Command.reachable, List.append_nil, List.mem_cons, List.mem_singleton,
        List.not_mem_nil, or_false] at hd
      rcases hd with rfl | rfl
      · simp [Command.NestedCommands] at hleaf
      · simp only [Command.Action, Option.some.injEq, ActionAndArgs.mk.injEq,
          ActionArgs.SetColorSchemeArgs.injEq] at hact
        subst hact
        exact hn (by decide))⟩


/-! ## Claims on the seen-guid accumulator and the lookups -/

theorem dedupTopLevel_append (pre rest : List ProfileOrGroup) :
    ∀ seen : Finset GUID,
      dedupTopLevel (pre ++ rest) seen
        = dedupTopLevel pre seen ++
          dedupTopLevel rest (seen ∪ ((flatten pre).map fun p => p.guid).toFinset) := by
  induction pre with
  | nil => intro seen; simp [dedupTopLevel, flatten]
  | cons x pre ih =>
    intro seen
    cases x with
    | profile p =>
      by_cases h : p.guid ∈ seen
      · have hs : seen ∪ ((flatten (.profile p :: pre)).map fun p => p.guid).toFinset
            = seen ∪ ((flatten pre).map fun p => p.guid).toFinset := by
          ext x
          simp only [flatten, List.map_cons, Finset.mem_union, List.mem_toFinset, List.mem_cons]
          constructor
          · rintro (hx | rfl | hx)
            · exact Or.inl hx
            · exact Or.inl h
            · exact Or.inr hx
          · rintro (hx | hx)
            · exact Or.inl hx
            · exact Or.inr (Or.inr hx)
        rw [hs]
        simp only [List.cons_append, dedupTopLevel, h, if_true, ih, List.append_eq]
      · have hs : seen ∪ ((flatten (.profile p :: pre)).map fun p => p.guid).toFinset
            = insert p.guid seen ∪ ((flatten pre).map fun p => p.guid).toFinset := by
          ext x
          simp only [flatten, List.map_cons, Finset.mem_union, Finset.mem_insert,
            List.mem_toFinset, List.mem_cons]
          tauto
        rw [hs]
        simp only [List.cons_append, dedupTopLevel, h, if_false, ih, List.append_eq]
    | group g =>
      have hs : seen ∪ ((flatten (.group g :: pre)).map fun p => p.guid).toFinset
          = (seen ∪ ((flattenGroup g).map fun p => p.guid).toFinset) ∪
              ((flatten pre).map fun p => p.guid).toFinset := by
        ext x
        simp only [flatten, List.map_append, Finset.mem_union, List.mem_toFinset,
          List.mem_append]
        tauto
      rw [hs]
      simp only [List.cons_append, dedupTopLevel, ih, List.append_eq]

theorem flatten_append (a b : List ProfileOrGroup) :
    flatten (a ++ b) = flatten a ++ flatten b := by
  induction a with
  | nil => simp [flatten]
  | cons x a ih =>
    cases x with
    | profile q => simp [flatten, ih]
    | group g => simp [flatten, ih]

/-- C21: after `RemoveDuplicateProfiles` the seen-guid accumulator is its initial value
united with the guids of all profiles of the flattened input tree, those inside nested
Groups included. Consequently the returned flag is true exactly when a guid of the
flattened tree was already seen or occurs twice, at whatever depth; and a top-level
profile whose guid was seen before it, be it inside an earlier Group, is dropped: the
vector is left as if that profile had not been there; a profile inside a Group whose
guid was seen before that Group, be it inside a different Group, raises the flag. -/
theorem RemoveDuplicateProfiles_accumulator (pgs pre post : List ProfileOrGroup)
    (seen : Finset GUID) (p : Profile) (g : ProfileGroup) :
    (RemoveDuplicateProfiles pgs seen).2.1
      = seen ∪ ((ExtractProfiles pgs []).map fun x => x.guid).toFinset ∧
    ((RemoveDuplicateProfiles pgs seen).2.2 = true ↔
      (∃ g ∈ (ExtractProfiles pgs []).map fun x => x.guid, g ∈ seen) ∨
        ¬ ((ExtractProfiles pgs []).map fun x => x.guid).Nodup) ∧
    (p.guid ∈ seen ∪ ((ExtractProfiles pre []).map fun x => x.guid).toFinset →
      (RemoveDuplicateProfiles (pre ++ .profile p :: post) seen).1
          = (RemoveDuplicateProfiles (pre ++ post) seen).1 ∧
      (RemoveDuplicateProfiles (pre ++ .profile p :: post) seen).2.2 = true) ∧
    (p ∈ (g.ExtractProfiles []).2 →
      p.guid ∈ seen ∪ ((ExtractProfiles pre []).map fun x => x.guid).toFinset →
      (RemoveDuplicateProfiles (pre ++ .group g :: post) seen).2.2 = true) := by
  simp only [ExtractProfiles_eq_append_flatten, ProfileGroup_ExtractProfiles_eq,
    List.nil_append]
  refine ⟨by rw [RemoveDuplicateProfiles_eq], ?_, ?_, ?_⟩
  · rw [RemoveDuplicateProfiles_eq]
    exact hasDuplicate_eq_true_iff _ _
  · intro h
    constructor
    · rw [RemoveDuplicateProfiles_fst, RemoveDuplicateProfiles_fst, dedupTopLevel_append,
        dedupTopLevel_append]
      simp only [dedupTopLevel, h, if_true]
    · rw [RemoveDuplicateProfiles_eq]
      have hfl : flatten (pre ++ .profile p :: post) = flatten pre ++ p :: flatten post := by
        rw [flatten_append]
        simp [flatten]
      simp only [hfl, List.map_append, List.map_cons, hasDuplicate_append, hasDuplicate,
        Bool.or_eq_true, decide_eq_true_eq]
      exact Or.inr (Or.inl h)
  · intro hp h
    rw [RemoveDuplicateProfiles_eq]
    have hfl : flatten (pre ++ .group g :: post)
        = flatten pre ++ (flattenGroup g ++ flatten post) := by
      rw [flatten_append]
      simp [flatten]
    simp only [hfl]
    rw [List.map_append, hasDuplicate_append, Bool.or_eq_true]
    right
    rw [hasDuplicate_eq_true_iff]
    left
    exact ⟨p.guid, List.mem_map.2 ⟨p, List.mem_append_left _ hp, rfl⟩, h⟩

/-- Instance: the profile with guid 1 that follows a Group holding guid 1 is dropped. -/
theorem RemoveDuplicateProfiles_accumulator_witness :
    (RemoveDuplicateProfiles
        ([.group (.mk [.profile dupNested] "Group" false none)] ++ .profile dupFirst :: [])
        ∅).1
      = (RemoveDuplicateProfiles ([.group (.mk [.profile dupNested] "Group" false none)] ++ [])
        ∅).1 ∧
    (RemoveDuplicateProfiles
        ([.group (.mk [.profile dupNested] "Group" false none)] ++ .profile dupFirst :: [])
        ∅).2.2 = true :=
  (RemoveDuplicateProfiles_accumulator [] [.group (.mk [.profile dupNested] "Group" false none)]
    [] ∅ dupFirst (.mk [] "Group" false none)).2.2.1 (by decide)

/-- C25: the text of guid 8 has 38 characters, begins with '{' and parses as guid 8, and
the profile with guid 8 is in the tree; yet `GetProfileForArgs` returns the default
guid 1: the profile follows a Group, `FindProfile` returns the result of that Group,
and the guid is dropped. -/
theorem GetProfileForArgs_misses_profile_after_group :
    wcharSize visibleGuidString = 38 ∧
    visibleGuidString.toList.head? = some '{' ∧
    exGuidFromString visibleGuidString = some 8 ∧
    visibleProfile ∈ ExtractProfiles groupFirstSettings._profilesAndGroups [] ∧
    visibleProfile.guid = 8 ∧
    groupFirstSettings.FindProfile 8 = none ∧
    GetProfileForArgs exGuidFromString groupFirstSettings visibleGuidString = 1 := by
  refine ⟨by decide, by decide, by decide, by decide, rfl, by decide, by decide⟩

theorem nameLoop_eq (objects : List ProfileObject) (name : String) (l : List Nat) :
    nameLoop objects name l
      = ((l.filterMap fun profile => objects[profile]?).find?
          fun o => decide (o.settings.name = name)).map fun o => o.settings.guid := by
  induction l with
  | nil => rfl
  | cons a rest ih =>
    cases h : objects[a]? with
    | none => simp [nameLoop, h, ih, List.filterMap_cons]
    | some o =>
      by_cases hn : o.settings.name = name
      · simp [nameLoop, h, List.filterMap_cons, hn]
      · simp [nameLoop, h, ih, List.filterMap_cons, hn]

/-- The claim C26 fails as stated: the only profile of these settings has the empty
string as its name, so it is the first profile whose name equals the empty string; yet
the by-name lookup of the empty string returns no value, because the loop lies inside
the test that the string is not empty. -/
theorem GetProfileGuidByName_skips_empty_string :
    ((allProfileObjects emptyNameSettings).find? fun o => decide (o.settings.name = "")).map
        (fun o => o.settings.guid) = some 5 ∧
    nameLoop emptyNameSettings.objects "" emptyNameSettings._allProfiles = some 5 ∧
    _GetProfileGuidByName emptyNameSettings "" = none := by
  refine ⟨by decide, by decide, by decide⟩

/-- C26, as amended: for every string that is not empty, the by-name lookup returns the
guid of the first profile of the all-profiles list whose name is the given string, and
nothing when no profile has that name; for the empty string it returns nothing,
whatever the names of the profiles; and when the profile string is not looked up as a
guid, or is the guid of no profile that `FindProfile` finds, and the by-name lookup
returns nothing, `GetProfileForArgs` returns the global default-profile guid. -/
theorem GetProfileGuidByName_spec (GuidFromString : String → Option GUID)
    (s : CascadiaSettings) (name : String) :
    (name ≠ "" →
      _GetProfileGuidByName s name
        = ((allProfileObjects s).find? fun o => decide (o.settings.name = name)).map
            (fun o => o.settings.guid)) ∧
    (name ≠ "" →
      (_GetProfileGuidByName s name = none ↔
        ∀ o ∈ allProfileObjects s, o.settings.name ≠ name)) ∧
    _GetProfileGuidByName s "" = none ∧
    ((¬ (wcharSize name = 38 ∧ name.toList.head? = some '{') ∨
        GuidFromString name = none ∨
        (∃ g, GuidFromString name = some g ∧ s.FindProfile g = none)) →
      _GetProfileGuidByName s name = none →
      GetProfileForArgs GuidFromString s name = s._globals.DefaultProfile) := by
  have h1 : name ≠ "" → _GetProfileGuidByName s name
      = ((allProfileObjects s).find? fun o => decide (o.settings.name = name)).map
          (fun o => o.settings.guid) := by
    intro hne
    unfold _GetProfileGuidByName
    rw [if_pos hne]
    exact nameLoop_eq _ _ _
  refine ⟨h1, ?_, ?_, ?_⟩
  · intro hne
    rw [h1 hne]
    simp [List.find?_eq_none]
  · simp [_GetProfileGuidByName]
  · intro hg hn
    by_cases he : name = ""
    · simp [GetProfileForArgs, he]
    · by_cases hshape : wcharSize name = 38 ∧ name.toList.head? = some '{'
      · cases hp : GuidFromString name with
        | none => simp [GetProfileForArgs, he, hn, hp]
        | some g =>
          rcases hg with hg | hg | ⟨g', hg', hf⟩
          · exact absurd hshape hg
          · rw [hp] at hg; cases hg
          · rw [hp] at hg'
            cases hg'
            simp [GetProfileForArgs, he, hn, hp, hf]
      · have hshape2 : ¬ (wcharSize name = 38 ∧ name.data.head? = some '{') := hshape
        simp [GetProfileForArgs, he, hn, hshape2]

/-- Instance: in the example the name "Visible" resolves to guid 8, and a name that no
profile has falls back to the default guid 1. -/
theorem GetProfileGuidByName_spec_witness :
    _GetProfileGuidByName groupFirstSettings "Visible" = some 8 ∧
    GetProfileForArgs exGuidFromString groupFirstSettings "Nobody" = 1 :=
  ⟨((GetProfileGuidByName_spec exGuidFromString groupFirstSettings "Visible").1
      (by decide)).trans (by decide),
   (GetProfileGuidByName_spec exGuidFromString groupFirstSettings "Nobody").2.2.2
      (Or.inl (by decide)) (by decide)⟩


/-! ## Claims on loading, reloading and layering -/

/-- C27: when the load raises a `SettingsException`, `_TryLoadSettings` returns the failing
code `E_INVALIDARG` and leaves the held settings as they were; `_ReloadSettings` then
hands nothing to `SetSettings` and keeps the held settings, and `LoadSettings` makes the
held settings the built-in defaults. The same holds for any other exception that comes
with a failing code. -/
theorem load_failure_keeps_settings (_GetErrorText : SettingsLoadErrors → String)
    (LoadDefaults : CascadiaSettings) (app : App) (error : SettingsLoadErrors)
    (code : HRESULT) (message : String) :
    (app._TryLoadSettings _GetErrorText (.SettingsException error)).1 = E_INVALIDARG ∧
    FAILED E_INVALIDARG = true ∧
    (app._TryLoadSettings _GetErrorText (.SettingsException error)).2._settings
      = app._settings ∧
    (app._ReloadSettings _GetErrorText (.SettingsException error))._settings = app._settings ∧
    (app._ReloadSettings _GetErrorText (.SettingsException error)).rootSettings
      = app.rootSettings ∧
    (app.LoadSettings _GetErrorText LoadDefaults (.SettingsException error))._settings
      = some LoadDefaults ∧
    (FAILED code = true →
      (app._TryLoadSettings _GetErrorText (.hresult_error code message)).1 = code ∧
      (app._TryLoadSettings _GetErrorText (.otherException code)).1 = code ∧
      (app._TryLoadSettings _GetErrorText (.hresult_error code message)).2._settings
        = app._settings ∧
      (app._TryLoadSettings _GetErrorText (.otherException code)).2._settings
        = app._settings ∧
      (app._ReloadSettings _GetErrorText (.hresult_error code message))._settings
        = app._settings ∧
      (app._ReloadSettings _GetErrorText (.hresult_error code message)).rootSettings
        = app.rootSettings ∧
      (app._ReloadSettings _GetErrorText (.otherException code))._settings = app._settings ∧
      (app._ReloadSettings _GetErrorText (.otherException code)).rootSettings
        = app.rootSettings ∧
      (app.LoadSettings _GetErrorText LoadDefaults (.hresult_error code message))._settings
        = some LoadDefaults ∧
      (app.LoadSettings _GetErrorText LoadDefaults (.otherException code))._settings
        = some LoadDefaults) := by
  have hf : FAILED E_INVALIDARG = true := by decide
  refine ⟨rfl, hf, rfl, ?_, ?_, ?_, ?_⟩
  · simp [App._ReloadSettings, App._TryLoadSettings, hf]
  · simp [App._ReloadSettings, App._TryLoadSettings, hf]
  · simp [App.LoadSettings, App._TryLoadSettings, hf]
  · intro hc
    simp [App._ReloadSettings, App.LoadSettings, App._TryLoadSettings, hc]

/-- Instance: an application that holds the example settings keeps them, and publishes
nothing more, when a reload fails with `AllProfilesHidden`; a successful reload with no
warning publishes the new settings. -/
theorem load_failure_keeps_settings_witness :
    (exApp._ReloadSettings exErrorText (.SettingsException .AllProfilesHidden)).rootSettings.length
      = 1 ∧
    (exApp._ReloadSettings exErrorText (.SettingsException .AllProfilesHidden)).dispatched
      = [.ShowLoadErrorsDialog E_INVALIDARG] ∧
    (exApp._ReloadSettings exErrorText (.loaded exActiveSettings)).rootSettings.length = 2 :=
  ⟨congrArg List.length
      (load_failure_keeps_settings exErrorText exSettings exApp .AllProfilesHidden E_FAIL
        "").2.2.2.2.1,
   rfl, rfl⟩

theorem DispatchReloadSettings_invariant (s : ReloadState)
    (ih1 : s.frames.length ≤ 1)
    (ih2 : s._settingsReloadQueued = true ↔ s.frames.length = 1) :
    (_DispatchReloadSettings s).frames.length ≤ 1 ∧
    ((_DispatchReloadSettings s)._settingsReloadQueued = true ↔
      (_DispatchReloadSettings s).frames.length = 1) := by
  unfold _DispatchReloadSettings
  by_cases hq : s._settingsReloadQueued = true
  · rw [if_pos hq]
    exact ⟨ih1, ih2⟩
  · have h0 : s.frames.length = 0 := by
      have : s.frames.length ≠ 1 := fun h1 => hq (ih2.2 h1)
      omega
    simp [hq, h0]

theorem resumeReload_invariant (s : ReloadState) (i : Nat)
    (ih1 : s.frames.length ≤ 1)
    (ih2 : s._settingsReloadQueued = true ↔ s.frames.length = 1) :
    (resumeReload s i).frames.length ≤ 1 ∧
    ((resumeReload s i)._settingsReloadQueued = true ↔
      (resumeReload s i).frames.length = 1) := by
  unfold resumeReload
  split
  · simpa using ⟨ih1, ih2⟩
  · exact ⟨ih1, ih2⟩

theorem finishReload_invariant (s : ReloadState) (i : Nat)
    (ih1 : s.frames.length ≤ 1)
    (ih2 : s._settingsReloadQueued = true ↔ s.frames.length = 1) :
    (finishReload s i).frames.length ≤ 1 ∧
    ((finishReload s i)._settingsReloadQueued = true ↔
      (finishReload s i).frames.length = 1) := by
  unfold finishReload
  split
  · next hget =>
    have hi : i < s.frames.length := by
      by_contra hc
      rw [List.getElem?_eq_none (Nat.le_of_not_lt hc)] at hget
      cases hget
    simp only [List.length_eraseIdx, hi, if_true]
    constructor
    · omega
    · simp
      omega
  · exact ⟨ih1, ih2⟩

theorem ReloadStep_invariant (s t : ReloadState) (hstep : ReloadStep s t)
    (ih1 : s.frames.length ≤ 1)
    (ih2 : s._settingsReloadQueued = true ↔ s.frames.length = 1) :
    t.frames.length ≤ 1 ∧ (t._settingsReloadQueued = true ↔ t.frames.length = 1) := by
  cases hstep with
  | trigger => exact DispatchReloadSettings_invariant s ih1 ih2
  | resume i => exact resumeReload_invariant s i ih1 ih2
  | finish i => exact finishReload_invariant s i ih1 ih2

theorem ReloadReachable_invariant (s : ReloadState) (h : ReloadReachable s) :
    s.frames.length ≤ 1 ∧ (s._settingsReloadQueued = true ↔ s.frames.length = 1) := by
  induction h with
  | start => simp
  | step _ hstep ih => exact ReloadStep_invariant _ _ hstep ih.1 ih.2

theorem finishReload_clears (s : ReloadState) (i : Nat)
    (hlen : s.frames.length = 1) (hs : s._settingsReloadQueued = true)
    (ht : (finishReload s i)._settingsReloadQueued = false) :
    s.frames = [.reloaded] := by
  match hf : s.frames, hlen with
  | [f], _ =>
    cases f with
    | reloaded => rfl
    | awaitingQuiesce =>
      unfold finishReload at ht
      rw [hf] at ht
      cases i with
      | zero => simp [hs] at ht
      | succ n => simp [hs] at ht

theorem resumeReload_keeps_flag (s : ReloadState) (i : Nat) :
    (resumeReload s i)._settingsReloadQueued = s._settingsReloadQueued := by
  unfold resumeReload
  split <;> rfl

/-- C28: seen as steps on the in-flight flag, a trigger that finds the flag set changes
nothing; a trigger that finds it clear sets it and starts exactly one activation, which
waits before it reloads; the flag is cleared only by the end of an activation whose
reload has run, and no step runs more than one reload; and in every state reached from
the start at most one activation is in flight, and one is in flight exactly when the
flag is set. The activation does run: when the flag is clear nothing is in flight, and
the trigger, the resumption and the end of the activation it starts run
`_ReloadSettings` exactly once and leave the flag clear and nothing in flight; when
the flag is set, the one activation in flight either still waits, and its resumption
runs `_ReloadSettings` once and keeps the flag set, or has reloaded, and its end
clears the flag and runs no reload; and every step from such a state is one of these
or changes nothing. -/
theorem reload_triggers_coalesce (s t : ReloadState) (h : ReloadReachable s) :
    (s._settingsReloadQueued = true → _DispatchReloadSettings s = s) ∧
    (s._settingsReloadQueued = false →
      _DispatchReloadSettings s
        = { s with _settingsReloadQueued := true, frames := s.frames ++ [.awaitingQuiesce] }) ∧
    (ReloadStep s t → s._settingsReloadQueued = true → t._settingsReloadQueued = false →
      s.frames = [.reloaded] ∧ t.frames = [] ∧ t.reloadsRun = s.reloadsRun) ∧
    (ReloadStep s t → s.reloadsRun ≤ t.reloadsRun ∧ t.reloadsRun ≤ s.reloadsRun + 1) ∧
    s.frames.length ≤ 1 ∧
    (s._settingsReloadQueued = true ↔ s.frames.length = 1) ∧
    (s._settingsReloadQueued = false →
      s.frames = [] ∧
      _DispatchReloadSettings s
        = { s with _settingsReloadQueued := true, frames := [.awaitingQuiesce] } ∧
      resumeReload (_DispatchReloadSettings s) 0
        = { s with _settingsReloadQueued := true, frames := [.reloaded],
                   reloadsRun := s.reloadsRun + 1 } ∧
      finishReload (resumeReload (_DispatchReloadSettings s) 0) 0
        = { s with reloadsRun := s.reloadsRun + 1 } ∧
      (ReloadStep s t → t = s ∨ t = _DispatchReloadSettings s)) ∧
    (s._settingsReloadQueued = true →
      s.frames = [.awaitingQuiesce] ∨ s.frames = [.reloaded]) ∧
    (s.frames = [.awaitingQuiesce] →
      resumeReload s 0 = { s with frames := [.reloaded], reloadsRun := s.reloadsRun + 1 } ∧
      (ReloadStep s t → t = s ∨ t = resumeReload s 0)) ∧
    (s.frames = [.reloaded] →
      finishReload s 0 = { s with _settingsReloadQueued := false, frames := [] } ∧
      (ReloadStep s t → t = s ∨ t = finishReload s 0)) := by
  obtain ⟨inv1, inv2⟩ := ReloadReachable_invariant s h
  have hset : ∀ f, s.frames = [f] → s._settingsReloadQueued = true := fun f hf =>
    inv2.2 (by rw [hf]; rfl)
  refine ⟨?_, ?_, ?_, ?_, inv1, inv2, ?_, ?_, ?_, ?_⟩
  · intro hq
    simp [_DispatchReloadSettings, hq]
  · intro hq
    simp [_DispatchReloadSettings, hq]
  · intro hstep hs ht
    cases hstep with
    | trigger =>
      simp [_DispatchReloadSettings, hs] at ht
    | resume i =>
      rw [resumeReload_keeps_flag, hs] at ht
      cases ht
    | finish i =>
      have hf := finishReload_clears s i (inv2.1 hs) hs ht
      refine ⟨hf, ?_, ?_⟩
      · have hinv := finishReload_invariant s i inv1 inv2
        have hne : (finishReload s i).frames.length ≠ 1 := fun h1 => by
          have := hinv.2.2 h1
          rw [ht] at this
          cases this
        have hle := hinv.1
        exact List.length_eq_zero.1 (by omega)
      · unfold finishReload
        split <;> rfl
  · intro hstep
    cases hstep with
    | trigger =>
      unfold _DispatchReloadSettings
      split <;> simp
    | resume i =>
      unfold resumeReload
      split <;> simp
    | finish i =>
      unfold finishReload
      split <;> simp
  · intro hq
    have hnil : s.frames = [] := by
      have hne : s.frames.length ≠ 1 := fun h1 => by
        have := inv2.2 h1
        rw [hq] at this
        cases this
      exact List.length_eq_zero.1 (by omega)
    obtain ⟨q, frames, runs⟩ := s
    simp only at hq hnil
    subst hq
    subst hnil
    refine ⟨rfl, rfl, rfl, rfl, ?_⟩
    intro hstep
    cases hstep with
    | trigger => exact Or.inr rfl
    | resume i => exact Or.inl (by simp [resumeReload])
    | finish i => exact Or.inl (by simp [finishReload])
  · intro hq
    have hlen := inv2.1 hq
    match hf : s.frames, hlen with
    | [f], _ =>
      cases f with
      | awaitingQuiesce => exact Or.inl rfl
      | reloaded => exact Or.inr rfl
  · intro hf
    have hq := hset _ hf
    obtain ⟨q, frames, runs⟩ := s
    simp only at hq hf
    subst hq
    subst hf
    refine ⟨rfl, ?_⟩
    intro hstep
    cases hstep with
    | trigger => exact Or.inl rfl
    | resume i =>
      cases i with
      | zero => exact Or.inr rfl
      | succ n => exact Or.inl (by simp [resumeReload])
    | finish i =>
      cases i with
      | zero => exact Or.inl rfl
      | succ n => exact Or.inl (by simp [finishReload])
  · intro hf
    have hq := hset _ hf
    obtain ⟨q, frames, runs⟩ := s
    simp only at hq hf
    subst hq
    subst hf
    refine ⟨rfl, ?_⟩
    intro hstep
    cases hstep with
    | trigger => exact Or.inl rfl
    | resume i =>
      cases i with
      | zero => exact Or.inl rfl
      | succ n => exact Or.inl (by simp [resumeReload])
    | finish i =>
      cases i with
      | zero => exact Or.inr rfl
      | succ n => exact Or.inl (by simp [finishReload])

/-- Instance: after a trigger and the resumption of its activation, a further trigger
changes nothing and exactly one activation is in flight; the end of that activation
clears the flag, and from there the reload count stays at one. -/
theorem reload_triggers_coalesce_witness :
    _DispatchReloadSettings exReloadingState = exReloadingState ∧
    exReloadingState.frames.length ≤ 1 ∧
    finishReload exReloadingState 0
      = { _settingsReloadQueued := false, frames := [], reloadsRun := 1 } :=
  have h : ReloadReachable exReloadingState :=
    ReloadReachable.step (ReloadReachable.step ReloadReachable.start (ReloadStep.trigger _))
      (ReloadStep.resume _ 0)
  ⟨(reload_triggers_coalesce exReloadingState exReloadingState h).1 rfl,
   (reload_triggers_coalesce exReloadingState exReloadingState h).2.2.2.2.1,
   ((reload_triggers_coalesce exReloadingState exReloadingState h).2.2.2.2.2.2.2.2.2 rfl).1⟩

/-- C29: `ProfileGroup::LayerJson` overwrites the name, the hidden flag and the icon for
exactly those of the three keys that are present in the fragment, leaves the others as
they are and never changes the children. So layering the empty fragment changes
nothing, layering a fragment twice is layering it once, and of two fragments layered in
sequence the later one wins on every field it sets, the earlier one on the fields only
it sets. -/
theorem LayerJson_spec (g : ProfileGroup) (a b : GroupJson) :
    (g.LayerJson a).profilesAndGroups = g.profilesAndGroups ∧
    (g.LayerJson a).GetName = (match a.name with | some v => v | none => g.GetName) ∧
    (g.LayerJson a).IsHidden = (match a.hidden with | some v => v | none => g.IsHidden) ∧
    (g.LayerJson a).icon = (match a.icon with | some v => v | none => g.icon) ∧
    g.LayerJson {} = g ∧
    (g.LayerJson a).LayerJson a = g.LayerJson a ∧
    ((g.LayerJson a).LayerJson b).GetName
      = (match b.name with | some v => v | none => (g.LayerJson a).GetName) ∧
    ((g.LayerJson a).LayerJson b).IsHidden
      = (match b.hidden with | some v => v | none => (g.LayerJson a).IsHidden) ∧
    ((g.LayerJson a).LayerJson b).icon
      = (match b.icon with | some v => v | none => (g.LayerJson a).icon) ∧
    ((g.LayerJson a).LayerJson b).profilesAndGroups = g.profilesAndGroups := by
  cases g with
  | mk children name hidden icon =>
    cases a with
    | mk an ah ai =>
      cases b with
      | mk bn bh bi =>
        cases an <;> cases ah <;> cases ai <;> cases bn <;> cases bh <;> cases bi <;>
          simp [ProfileGroup.LayerJson, JsonUtils.GetValue, ProfileGroup.profilesAndGroups,
            ProfileGroup.GetName, ProfileGroup.IsHidden, ProfileGroup.icon]

/-- Instance: layering a fragment that names and hides the Group, then one that renames
it and clears the icon. -/
theorem LayerJson_spec_witness :
    (exGroup.LayerJson exFragmentA).LayerJson exFragmentB
      = .mk [.profile exA] "Tools" true none ∧
    exGroup.LayerJson {} = exGroup :=
  ⟨rfl, (LayerJson_spec exGroup exFragmentA exFragmentB).2.2.2.2.1⟩


/-! ## `UpdateColorSchemeReferences` -/

theorem renameScheme_idem (oldName newName : String) (o : ProfileObject) :
    renameScheme oldName newName (renameScheme oldName newName o)
      = renameScheme oldName newName o := by
  unfold renameScheme
  by_cases h : o.settings.schemeName = some oldName
  · simp only [h, if_true]
    by_cases h2 : (o.withColorSchemeName newName).settings.schemeName = some oldName
    · simp [h2, ProfileObject.withColorSchemeName]
    · simp [h2]
  · simp [h]

theorem renameScheme_ne (oldName newName : String) (hne : oldName ≠ newName)
    (o : ProfileObject) :
    (renameScheme oldName newName o).settings.schemeName ≠ some oldName := by
  unfold renameScheme
  by_cases h : o.settings.schemeName = some oldName
  · simp only [h, if_true, ProfileObject.withColorSchemeName]
    intro hc
    exact hne (Option.some.inj hc).symm
  · simp [h]

/-- One guarded update, as both the defaults branch and the loop body of
`UpdateColorSchemeReferences` perform it. -/
theorem guardedUpdate_getElem? (oldName newName : String) (objects : List ProfileObject)
    (r k : Nat) :
    (if hasColorSchemeNamed objects r oldName = true
      then setColorSchemeName objects r newName else objects)[k]?
      = objects[k]?.map (fun o => if k = r then renameScheme oldName newName o else o) := by
  unfold hasColorSchemeNamed setColorSchemeName
  cases hr : objects[r]? with
  | none =>
    by_cases hk : k = r
    · subst hk
      simp [hr]
    · simp [hk]
  | some o =>
    by_cases hs : o.settings.schemeName = some oldName
    · simp only [hs, decide_True, if_true]
      by_cases hk : k = r
      · subst hk
        have hlt : k < objects.length := by
          by_contra hc
          rw [List.getElem?_eq_none (Nat.le_of_not_lt hc)] at hr
          cases hr
        rw [List.getElem?_set_self hlt, hr]
        simp [renameScheme, hs]
      · rw [List.getElem?_set_ne (fun h => hk h.symm)]
        simp [hk]
    · simp only [hs, decide_False, Bool.false_eq_true, if_false]
      by_cases hk : k = r
      · subst hk
        simp [hr, renameScheme, hs]
      · simp [hk]

theorem guardedUpdate_length (oldName newName : String) (objects : List ProfileObject)
    (r : Nat) :
    (if hasColorSchemeNamed objects r oldName = true
      then setColorSchemeName objects r newName else objects).length = objects.length := by
  unfold setColorSchemeName
  split
  · split <;> simp
  · rfl

theorem updateSchemeLoop_getElem? (oldName newName : String) (l : List Nat) :
    ∀ (objects : List ProfileObject) (k : Nat),
      (updateSchemeLoop oldName newName l objects)[k]?
        = objects[k]?.map (fun o => if k ∈ l then renameScheme oldName newName o else o) := by
  induction l with
  | nil =>
    intro objects k
    simp [updateSchemeLoop]
  | cons r rest ih =>
    intro objects k
    have hstep : updateSchemeLoop oldName newName (r :: rest) objects
        = updateSchemeLoop oldName newName rest
            (if hasColorSchemeNamed objects r oldName = true
              then setColorSchemeName objects r newName else objects) := by
      simp only [updateSchemeLoop]
      split <;> rfl
    rw [hstep, ih, guardedUpdate_getElem?]
    cases objects[k]? with
    | none => rfl
    | some o =>
      simp only [Option.map_some', List.mem_cons]
      by_cases hk : k = r
      · by_cases hm : k ∈ rest
        · simp [hk, hm, renameScheme_idem]
        · simp [hk, renameScheme_idem]
      · by_cases hm : k ∈ rest
        · simp [hk, hm]
        · simp [hk, hm]

theorem updateSchemeLoop_length (oldName newName : String) (l : List Nat) :
    ∀ (objects : List ProfileObject),
      (updateSchemeLoop oldName newName l objects).length = objects.length := by
  induction l with
  | nil => intro objects; rfl
  | cons r rest ih =>
    intro objects
    simp only [updateSchemeLoop]
    split
    · next hc =>
      rw [ih]
      have h := guardedUpdate_length oldName newName objects r
      rw [if_pos hc] at h
      exact h
    · rw [ih]


/-- C30: for all names, `UpdateColorSchemeReferences` replaces the object behind each
reference by its renamed version (scheme name `newName` when the scheme name was set and
equal to `oldName`, the same object otherwise) exactly when the reference is in the
all-profiles list or is the profile-defaults reference, and leaves every other object
alone; a rename changes the scheme name only; the lists of references, the tree and the
number of objects are unchanged; and when the names differ, no referenced object has
the scheme name `oldName` afterwards. -/
theorem UpdateColorSchemeReferences_spec (s : CascadiaSettings) (oldName newName : String)
    (k : Nat) :
    (UpdateColorSchemeReferences s oldName newName).objects[k]?
      = s.objects[k]?.map (fun o =>
          if k ∈ s._allProfiles ∨ s._userDefaultProfileSettings = some k
          then renameScheme oldName newName o else o) ∧
    (∀ o : ProfileObject,
      (renameScheme oldName newName o).settings.schemeName
        = (if o.settings.schemeName = some oldName then some newName
           else o.settings.schemeName) ∧
      { (renameScheme oldName newName o).settings with schemeName := o.settings.schemeName }
        = o.settings ∧
      (renameScheme oldName newName o).parents = o.parents) ∧
    (UpdateColorSchemeReferences s oldName newName)._allProfiles = s._allProfiles ∧
    (UpdateColorSchemeReferences s oldName newName)._activeProfiles = s._activeProfiles ∧
    (UpdateColorSchemeReferences s oldName newName)._userDefaultProfileSettings
      = s._userDefaultProfileSettings ∧
    (UpdateColorSchemeReferences s oldName newName)._profilesAndGroups
      = s._profilesAndGroups ∧
    (UpdateColorSchemeReferences s oldName newName).objects.length = s.objects.length ∧
    (allProfileObjects (UpdateColorSchemeReferences s oldName newName)).length
      = (allProfileObjects s).length ∧
    (oldName ≠ newName →
      (k ∈ s._allProfiles ∨ s._userDefaultProfileSettings = some k) →
      ∀ o, (UpdateColorSchemeReferences s oldName newName).objects[k]? = some o →
        o.settings.schemeName ≠ some oldName) := by
  have hget : ∀ j, (UpdateColorSchemeReferences s oldName newName).objects[j]?
      = s.objects[j]?.map (fun o =>
          if j ∈ s._allProfiles ∨ s._userDefaultProfileSettings = some j
          then renameScheme oldName newName o else o) := by
    intro j
    unfold UpdateColorSchemeReferences
    simp only
    rw [updateSchemeLoop_getElem?]
    cases hd : s._userDefaultProfileSettings with
    | none =>
      simp only [false_and, or_false]
      cases s.objects[j]? <;> simp
    | some d =>
      simp only
      rw [guardedUpdate_getElem?]
      cases s.objects[j]? with
      | none => rfl
      | some o =>
        simp only [Option.map_some', Option.some.injEq]
        by_cases hj : j = d
        · by_cases hm : j ∈ s._allProfiles
          · simp [hj, hm, renameScheme_idem]
          · simp [hj, renameScheme_idem]
        · have hj2 : ¬ d = j := fun h => hj h.symm
          by_cases hm : j ∈ s._allProfiles
          · simp [hj, hj2, hm]
          · simp [hj, hj2, hm]
  have hlen : (UpdateColorSchemeReferences s oldName newName).objects.length
      = s.objects.length := by
    unfold UpdateColorSchemeReferences
    simp only
    rw [updateSchemeLoop_length]
    cases s._userDefaultProfileSettings with
    | none => rfl
    | some d => exact guardedUpdate_length oldName newName s.objects d
  refine ⟨hget k, ?_, rfl, rfl, rfl, rfl, hlen, ?_, ?_⟩
  · intro o
    unfold renameScheme
    by_cases h : o.settings.schemeName = some oldName
    · rw [if_pos h, if_pos h]
      refine ⟨rfl, ?_, rfl⟩
      cases o with
      | mk settings parents =>
        cases settings
        simp [ProfileObject.withColorSchemeName]
    · rw [if_neg h, if_neg h]
      exact ⟨rfl, rfl, rfl⟩
  · unfold allProfileObjects
    have hall : (UpdateColorSchemeReferences s oldName newName)._allProfiles
        = s._allProfiles := rfl
    rw [hall]
    have hsome : ∀ l : List Nat,
        (l.filterMap fun profile =>
          (UpdateColorSchemeReferences s oldName newName).objects[profile]?).length
        = (l.filterMap fun profile => s.objects[profile]?).length := by
      intro l
      induction l with
      | nil => rfl
      | cons r rest ih =>
        simp only [List.filterMap_cons]
        rw [hget r]
        cases s.objects[r]? with
        | none => simpa using ih
        | some o => simpa using ih
    exact hsome _
  · intro hne href o ho
    rw [hget k] at ho
    cases hk : s.objects[k]? with
    | none =>
      rw [hk] at ho
      cases ho
    | some o2 =>
      rw [hk] at ho
      simp only [Option.map_some', href, if_true, Option.some.injEq] at ho
      rw [← ho]
      exact renameScheme_ne oldName newName hne o2

/-- Instance: renaming "Old" to "New" on settings whose defaults object and two of four
profiles name "Old"; the other two profiles keep what they had. -/
theorem UpdateColorSchemeReferences_spec_witness :
    ((UpdateColorSchemeReferences schemeSettings "Old" "New").objects.map
        fun o => o.settings.schemeName)
      = [some "New", some "Other", some "New", some "New", none] ∧
    (UpdateColorSchemeReferences schemeSettings "Old" "New").objects.length = 5 :=
  ⟨by decide, (UpdateColorSchemeReferences_spec schemeSettings "Old" "New" 0).2.2.2.2.2.2.1⟩


/-! ## The cloner of the inheritance graph -/

theorem cloneParentsWith_ok_cons
    {f : Nat → CloneState → Except CloneFailure (Nat × CloneState)}
    {p : Nat} {rest : List Nat} {st st2 : CloneState} {cs : List Nat}
    (h : cloneParentsWith f (p :: rest) st = .ok (cs, st2)) :
    ∃ c st1 cs1, f p st = .ok (c, st1) ∧ cloneParentsWith f rest st1 = .ok (cs1, st2) ∧
      cs = c :: cs1 := by
  simp only [cloneParentsWith] at h
  split at h
  · cases h
  · next c st1 hone =>
    split at h
    · cases h
    · next cs1 st3 hrest =>
      injection h with h
      injection h with h1 h2
      subst h1 h2
      exact ⟨c, st1, cs1, hone, hrest, rfl⟩

theorem cloneParentsWith_error_cons
    {f : Nat → CloneState → Except CloneFailure (Nat × CloneState)}
    {p : Nat} {rest : List Nat} {st : CloneState} {e : CloneFailure}
    (h : cloneParentsWith f (p :: rest) st = .error e) :
    f p st = .error e ∨
      ∃ c st1, f p st = .ok (c, st1) ∧ cloneParentsWith f rest st1 = .error e := by
  simp only [cloneParentsWith] at h
  split at h
  · next e1 hone =>
    injection h with h
    subst h
    exact Or.inl hone
  · next c st1 hone =>
    split at h
    · next e1 hrest =>
      injection h with h
      subst h
      exact Or.inr ⟨c, st1, hone, hrest⟩
    · cases h

theorem cloneNode_succ_ok {g : List ProfileObject} {fuel : Nat} {path : List Nat}
    {source : Nat} {st st2 : CloneState} {c : Nat}
    (h : cloneNode g (fuel + 1) path source st = .ok (c, st2)) :
    source ∉ path ∧
    ((st.visited.lookup source = some c ∧ st2 = st) ∨
     (st.visited.lookup source = none ∧
      ∃ o cs st1, g[source]? = some o ∧
        cloneParentsWith (cloneNode g fuel (source :: path)) o.parents st = .ok (cs, st1) ∧
        c = st1.clones.length ∧
        st2 = { clones := st1.clones ++ [{ settings := o.settings, parents := cs }],
                visited := (source, st1.clones.length) :: st1.visited })) := by
  simp only [cloneNode] at h
  split at h
  · cases h
  · next hpath =>
    refine ⟨hpath, ?_⟩
    split at h
    · next c1 hl =>
      injection h with h
      injection h with h1 h2
      subst h1 h2
      exact Or.inl ⟨hl, rfl⟩
    · next hl =>
      split at h
      · cases h
      · next o ho =>
        split at h
        · cases h
        · next cs st1 hloop =>
          injection h with h
          injection h with h1 h2
          exact Or.inr ⟨hl, o, cs, st1, ho, hloop, h1.symm, h2.symm⟩

theorem cloneNode_succ_error {g : List ProfileObject} {fuel : Nat} {path : List Nat}
    {source : Nat} {st : CloneState} {e : CloneFailure}
    (h : cloneNode g (fuel + 1) path source st = .error e) :
    (source ∈ path ∧ e = .CyclicInheritance) ∨
    (source ∉ path ∧ st.visited.lookup source = none ∧
      ((g[source]? = none ∧ e = .nullReference) ∨
       ∃ o, g[source]? = some o ∧
        cloneParentsWith (cloneNode g fuel (source :: path)) o.parents st = .error e)) := by
  simp only [cloneNode] at h
  split at h
  · next hpath =>
    injection h with h
    exact Or.inl ⟨hpath, h.symm⟩
  · next hpath =>
    split at h
    · cases h
    · next hl =>
      refine Or.inr ⟨hpath, hl, ?_⟩
      split at h
      · next ho =>
        injection h with h
        exact Or.inl ⟨ho, h.symm⟩
      · next o ho =>
        split at h
        · next e1 hloop =>
          injection h with h
          subst h
          exact Or.inr ⟨o, ho, hloop⟩
        · cases h

/-- A failure of the loop over the parents is the failure of one parent, in a state
that every property kept by the successful steps still has. -/
theorem cloneParentsWith_error_elim
    (f : Nat → CloneState → Except CloneFailure (Nat × CloneState))
    (J : CloneState → Prop)
    (hJ : ∀ p st c st1, J st → f p st = .ok (c, st1) → J st1)
    (l : List Nat) :
    ∀ (st : CloneState) (e : CloneFailure), J st → cloneParentsWith f l st = .error e →
      ∃ p ∈ l, ∃ st1, J st1 ∧ f p st1 = .error e := by
  induction l with
  | nil =>
    intro st e _ h
    simp [cloneParentsWith] at h
  | cons p rest ih =>
    intro st e hst h
    rcases cloneParentsWith_error_cons h with h1 | ⟨c, st1, h1, h2⟩
    · exact ⟨p, List.mem_cons_self _ _, st, hst, h1⟩
    · obtain ⟨q, hq, st2, hst2, hf⟩ := ih st1 e (hJ p st c st1 hst h1) h2
      exact ⟨q, List.mem_cons_of_mem _ hq, st2, hst2, hf⟩

/-! ### The recursion never runs out of budget -/

theorem length_le_of_nodup_of_lt (path : List Nat) (n : Nat) (hnodup : path.Nodup)
    (hlt : ∀ x ∈ path, x < n) : path.length ≤ n := by
  have hsub : path.toFinset ⊆ Finset.range n := by
    intro x hx
    rw [List.mem_toFinset] at hx
    exact Finset.mem_range.2 (hlt x hx)
  have hcard := Finset.card_le_card hsub
  rw [List.toFinset_card_of_nodup hnodup, Finset.card_range] at hcard
  exact hcard

theorem cloneNode_ne_fuelExhausted (g : List ProfileObject) (fuel : Nat) :
    ∀ (path : List Nat) (source : Nat) (st : CloneState),
      path.Nodup → (∀ x ∈ path, x < g.length) → g.length + 1 ≤ fuel + path.length →
      cloneNode g fuel path source st ≠ .error .fuelExhausted := by
  induction fuel with
  | zero =>
    intro path source st hnodup hlt hlen
    have := length_le_of_nodup_of_lt path g.length hnodup hlt
    omega
  | succ fuel ih =>
    intro path source st hnodup hlt hlen h
    rcases cloneNode_succ_error h with ⟨_, he⟩ | ⟨hpath, _, ⟨_, he⟩ | ⟨o, ho, hloop⟩⟩
    · cases he
    · cases he
    · obtain ⟨p, _, st1, _, hf⟩ :=
        cloneParentsWith_error_elim _ (fun _ => True) (fun _ _ _ _ _ _ => trivial)
          o.parents st _ trivial hloop
      have hsrc : source < g.length := by
        by_contra hc
        rw [List.getElem?_eq_none (Nat.le_of_not_lt hc)] at ho
        cases ho
      refine ih (source :: path) p st1 (List.nodup_cons.2 ⟨hpath, hnodup⟩) ?_ ?_ hf
      · intro x hx
        rcases List.mem_cons.1 hx with hx | hx
        · rw [hx]; exact hsrc
        · exact hlt x hx
      · simp only [List.length_cons]
        omega

theorem CloneInheritanceGraph_ne_fuelExhausted (g : List ProfileObject) (roots : List Nat)
    (st : CloneState) :
    Profile.CloneInheritanceGraph g roots st ≠ .error .fuelExhausted := by
  intro h
  obtain ⟨p, _, st1, _, hf⟩ :=
    cloneParentsWith_error_elim _ (fun _ => True) (fun _ _ _ _ _ _ => trivial)
      roots st _ trivial h
  exact cloneNode_ne_fuelExhausted g (g.length + 1) [] p st1 List.nodup_nil
    (fun x hx => by cases hx) (by simp) hf

/-! ### No reference is null in well-formed settings -/

theorem cloneNode_ne_nullReference (g : List ProfileObject)
    (hwf : ∀ o ∈ g, ∀ p ∈ o.parents, p < g.length) (fuel : Nat) :
    ∀ (path : List Nat) (source : Nat) (st : CloneState), source < g.length →
      cloneNode g fuel path source st ≠ .error .nullReference := by
  induction fuel with
  | zero =>
    intro path source st _ h
    simp [cloneNode] at h
  | succ fuel ih =>
    intro path source st hsrc h
    rcases cloneNode_succ_error h with ⟨_, he⟩ | ⟨hpath, _, ⟨ho, _⟩ | ⟨o, ho, hloop⟩⟩
    · cases he
    · rw [List.getElem?_eq_getElem hsrc] at ho
      cases ho
    · obtain ⟨p, hp, st1, _, hf⟩ :=
        cloneParentsWith_error_elim _ (fun _ => True) (fun _ _ _ _ _ _ => trivial)
          o.parents st _ trivial hloop
      have hmem : o ∈ g := List.getElem?_mem ho
      exact ih (source :: path) p st1 (hwf o hmem p hp) hf

theorem CloneInheritanceGraph_ne_nullReference (g : List ProfileObject)
    (hwf : ∀ o ∈ g, ∀ p ∈ o.parents, p < g.length) (roots : List Nat)
    (hroots : ∀ p ∈ roots, p < g.length) (st : CloneState) :
    Profile.CloneInheritanceGraph g roots st ≠ .error .nullReference := by
  intro h
  obtain ⟨p, hp, st1, _, hf⟩ :=
    cloneParentsWith_error_elim _ (fun _ => True) (fun _ _ _ _ _ _ => trivial)
      roots st _ trivial h
  exact cloneNode_ne_nullReference g hwf (g.length + 1) [] p st1 (hroots p hp) hf


/-! ### The state only grows, and the nodes on the path stay unvisited -/

theorem CloneState.Grows.refl (st : CloneState) : st.Grows st :=
  ⟨⟨[], by simp⟩, fun _ _ h => h⟩

theorem CloneState.Grows.trans {st1 st2 st3 : CloneState} (h12 : st1.Grows st2)
    (h23 : st2.Grows st3) : st1.Grows st3 := by
  obtain ⟨⟨a, ha⟩, hl⟩ := h12
  obtain ⟨⟨b, hb⟩, hm⟩ := h23
  refine ⟨⟨a ++ b, ?_⟩, fun u c h => hm u c (hl u c h)⟩
  rw [hb, ha, List.append_assoc]

theorem lookup_cons_ne {u source c : Nat} {visited : List (Nat × Nat)} (h : u ≠ source) :
    List.lookup u ((source, c) :: visited) = List.lookup u visited := by
  rw [List.lookup_cons]
  have : (u == source) = false := by simpa using h
  rw [this]

theorem lookup_cons_self {source c : Nat} {visited : List (Nat × Nat)} :
    List.lookup source ((source, c) :: visited) = some c := by
  rw [List.lookup_cons]
  simp

/-- What a successful loop over the parents with `cloneOne` leaves behind, when each
successful step of `cloneOne` grows the state, keeps the nodes of `path` as they were
and ends with its node in the map. -/
theorem cloneParentsWith_grows
    (f : Nat → CloneState → Except CloneFailure (Nat × CloneState)) (path : List Nat)
    (hf : ∀ p st c st1, f p st = .ok (c, st1) →
      st.Grows st1 ∧ (∀ u ∈ path, st1.visited.lookup u = st.visited.lookup u) ∧
      st1.visited.lookup p = some c)
    (l : List Nat) :
    ∀ (st st2 : CloneState) (cs : List Nat), cloneParentsWith f l st = .ok (cs, st2) →
      st.Grows st2 ∧ (∀ u ∈ path, st2.visited.lookup u = st.visited.lookup u) ∧
      List.Forall₂ (fun p c => st2.visited.lookup p = some c) l cs := by
  induction l with
  | nil =>
    intro st st2 cs h
    simp only [cloneParentsWith] at h
    injection h with h
    injection h with h1 h2
    subst h1 h2
    exact ⟨CloneState.Grows.refl _, fun _ _ => rfl, List.Forall₂.nil⟩
  | cons p rest ih =>
    intro st st2 cs h
    obtain ⟨c, st1, cs1, h1, h2, hcs⟩ := cloneParentsWith_ok_cons h
    obtain ⟨g1, k1, l1⟩ := hf p st c st1 h1
    obtain ⟨g2, k2, l2⟩ := ih st1 st2 cs1 h2
    subst hcs
    refine ⟨g1.trans g2, ?_, List.Forall₂.cons (g2.2 p c l1) l2⟩
    intro u hu
    rw [k2 u hu, k1 u hu]

theorem cloneNode_grows (g : List ProfileObject) (fuel : Nat) :
    ∀ (path : List Nat) (source : Nat) (st : CloneState) (c : Nat) (st2 : CloneState),
      cloneNode g fuel path source st = .ok (c, st2) →
      st.Grows st2 ∧ (∀ u ∈ path, st2.visited.lookup u = st.visited.lookup u) ∧
      st2.visited.lookup source = some c := by
  induction fuel with
  | zero =>
    intro path source st c st2 h
    simp [cloneNode] at h
  | succ fuel ih =>
    intro path source st c st2 h
    obtain ⟨hpath, ⟨hl, hst⟩ | ⟨hl, o, cs, st1, ho, hloop, hc, hst⟩⟩ := cloneNode_succ_ok h
    · subst hst
      exact ⟨CloneState.Grows.refl _, fun _ _ => rfl, hl⟩
    · obtain ⟨g1, k1, _⟩ :=
        cloneParentsWith_grows _ (source :: path) (ih (source :: path)) o.parents st st1 cs hloop
      have hnone : st1.visited.lookup source = none := by
        rw [k1 source (List.mem_cons_self _ _)]
        exact hl
      subst hst hc
      refine ⟨⟨?_, ?_⟩, ?_, ?_⟩
      · obtain ⟨a, ha⟩ := g1.1
        exact ⟨a ++ [{ settings := o.settings, parents := cs }], by
          simp only [ha, List.append_assoc]⟩
      · intro u c1 hu
        have hne : u ≠ source := by
          intro he
          rw [he, hl] at hu
          cases hu
        simp only
        rw [lookup_cons_ne hne]
        exact g1.2 u c1 hu
      · intro u hu
        have hne : u ≠ source := by
          intro he
          rw [he] at hu
          exact hpath hu
        simp only
        rw [lookup_cons_ne hne]
        exact k1 u (List.mem_cons_of_mem _ hu)
      · simp only
        exact lookup_cons_self

/-- The loop over the parents of a node that is not yet in the map leaves the node out
of the map. -/
theorem cloneParentsWith_keeps_source (g : List ProfileObject) (fuel : Nat) (path : List Nat)
    (source : Nat) (l cs : List Nat) (st st1 : CloneState)
    (hl : st.visited.lookup source = none)
    (hloop : cloneParentsWith (cloneNode g fuel (source :: path)) l st = .ok (cs, st1)) :
    st.Grows st1 ∧ st1.visited.lookup source = none ∧
    List.Forall₂ (fun p c => st1.visited.lookup p = some c) l cs := by
  obtain ⟨g1, k1, l1⟩ :=
    cloneParentsWith_grows _ (source :: path) (cloneNode_grows g fuel (source :: path))
      l st st1 cs hloop
  refine ⟨g1, ?_, l1⟩
  rw [k1 source (List.mem_cons_self _ _)]
  exact hl


/-! ### The map and the clones stay consistent -/

theorem forall₂_imp_of_mem {R S : Nat → Nat → Prop} {l1 l2 : List Nat}
    (h : List.Forall₂ R l1 l2) (himp : ∀ a b, a ∈ l1 → R a b → S a b) :
    List.Forall₂ S l1 l2 := by
  induction h with
  | nil => exact List.Forall₂.nil
  | cons hab _ ih =>
    exact List.Forall₂.cons (himp _ _ (List.mem_cons_self _ _) hab)
      (ih fun a b ha hr => himp a b (List.mem_cons_of_mem _ ha) hr)

theorem forall₂_exists_of_mem {R : Nat → Nat → Prop} {l1 l2 : List Nat}
    (h : List.Forall₂ R l1 l2) {a : Nat} (ha : a ∈ l1) : ∃ b ∈ l2, R a b := by
  induction h with
  | nil => cases ha
  | cons hab _ ih =>
    rcases List.mem_cons.1 ha with ha | ha
    · subst ha
      exact ⟨_, List.mem_cons_self _ _, hab⟩
    · obtain ⟨b, hb, hr⟩ := ih ha
      exact ⟨b, List.mem_cons_of_mem _ hb, hr⟩

/-- Entering a newly cloned node keeps the state consistent. -/
theorem CloneInv.push {g : List ProfileObject} {defaults : Option Nat} {base : Nat}
    {st1 : CloneState} (hinv : CloneInv g defaults base st1) {source : Nat}
    {o : ProfileObject} {cs : List Nat}
    (hnone : st1.visited.lookup source = none) (ho : g[source]? = some o)
    (hcs : List.Forall₂ (fun p c => st1.visited.lookup p = some c) o.parents cs) :
    CloneInv g defaults base
      { clones := st1.clones ++ [{ settings := o.settings, parents := cs }],
        visited := (source, st1.clones.length) :: st1.visited } := by
  have hlook : ∀ u c, st1.visited.lookup u = some c →
      List.lookup u ((source, st1.clones.length) :: st1.visited) = some c := by
    intro u c hu
    have hne : u ≠ source := by
      intro he
      rw [he, hnone] at hu
      cases hu
    rw [lookup_cons_ne hne]
    exact hu
  have hcases : ∀ u c, List.lookup u ((source, st1.clones.length) :: st1.visited) = some c →
      (u = source ∧ c = st1.clones.length) ∨ (u ≠ source ∧ st1.visited.lookup u = some c) := by
    intro u c hu
    by_cases he : u = source
    · subst he
      rw [lookup_cons_self] at hu
      exact Or.inl ⟨rfl, (Option.some.inj hu).symm⟩
    · rw [lookup_cons_ne he] at hu
      exact Or.inr ⟨he, hu⟩
  constructor
  · intro u c hu
    simp only [List.length_append, List.length_singleton]
    rcases hcases u c hu with ⟨_, hc⟩ | ⟨_, h1⟩
    · omega
    · have := hinv.bound u c h1
      omega
  · intro u v c hu hv
    rcases hcases u c hu with ⟨hu1, hc⟩ | ⟨_, h1⟩
    · rcases hcases v c hv with ⟨hv1, _⟩ | ⟨_, h2⟩
      · rw [hu1, hv1]
      · have := hinv.bound v c h2
        omega
    · rcases hcases v c hv with ⟨_, hc⟩ | ⟨_, h2⟩
      · have := hinv.bound u c h1
        omega
      · exact hinv.inj u v c h1 h2
  · intro c hb hc
    simp only [List.length_append, List.length_singleton] at hc
    by_cases he : c = st1.clones.length
    · exact ⟨source, by rw [he]; exact lookup_cons_self⟩
    · obtain ⟨u, hu⟩ := hinv.onto c hb (by omega)
      exact ⟨u, hlook u c hu⟩
  · intro u c hu
    rcases hcases u c hu with ⟨hu1, hc⟩ | ⟨_, h1⟩
    · subst hu1 hc
      refine ⟨o, { settings := o.settings, parents := cs }, ho, ?_, rfl, ?_⟩
      · simp
      · intro _
        exact forall₂_imp_of_mem hcs fun p c1 _ hp => ⟨hlook p c1 hp, hinv.bound p c1 hp⟩
    · obtain ⟨o1, co, ho1, hco, hset, hpar⟩ := hinv.node u c h1
      refine ⟨o1, co, ho1, ?_, hset, ?_⟩
      · simp only
        rw [List.getElem?_append_left (hinv.bound u c h1)]
        exact hco
      · intro hd
        exact forall₂_imp_of_mem (hpar hd) fun p c1 _ hp => ⟨hlook p c1 hp.1, hp.2⟩

theorem cloneParentsWith_inv {g : List ProfileObject} {defaults : Option Nat} {base : Nat}
    (f : Nat → CloneState → Except CloneFailure (Nat × CloneState))
    (hf : ∀ p st c st1, CloneInv g defaults base st → f p st = .ok (c, st1) →
      CloneInv g defaults base st1)
    (l : List Nat) :
    ∀ (st : CloneState) (cs : List Nat) (st2 : CloneState), CloneInv g defaults base st →
      cloneParentsWith f l st = .ok (cs, st2) → CloneInv g defaults base st2 := by
  induction l with
  | nil =>
    intro st cs st2 hinv h
    simp only [cloneParentsWith] at h
    injection h with h
    injection h with h1 h2
    subst h2
    exact hinv
  | cons p rest ih =>
    intro st cs st2 hinv h
    obtain ⟨c, st1, cs1, h1, h2, _⟩ := cloneParentsWith_ok_cons h
    exact ih st1 cs1 st2 (hf p st c st1 hinv h1) h2

theorem cloneNode_inv (g : List ProfileObject) (defaults : Option Nat) (base : Nat)
    (fuel : Nat) :
    ∀ (path : List Nat) (source : Nat) (st : CloneState) (c : Nat) (st2 : CloneState),
      CloneInv g defaults base st → cloneNode g fuel path source st = .ok (c, st2) →
      CloneInv g defaults base st2 := by
  induction fuel with
  | zero =>
    intro path source st c st2 _ h
    simp [cloneNode] at h
  | succ fuel ih =>
    intro path source st c st2 hinv h
    obtain ⟨hpath, ⟨hl, hst⟩ | ⟨hl, o, cs, st1, ho, hloop, hc, hst⟩⟩ := cloneNode_succ_ok h
    · subst hst
      exact hinv
    · have hinv1 : CloneInv g defaults base st1 :=
        cloneParentsWith_inv _ (ih (source :: path)) o.parents st cs st1 hinv hloop
      obtain ⟨_, hnone, hcs⟩ :=
        cloneParentsWith_keeps_source g fuel path source o.parents cs st st1 hl hloop
      subst hst
      exact hinv1.push hnone ho hcs

theorem CloneInheritanceGraph_ok (g : List ProfileObject) (defaults : Option Nat) (base : Nat)
    (roots cs : List Nat) (st st2 : CloneState) (hinv : CloneInv g defaults base st)
    (h : Profile.CloneInheritanceGraph g roots st = .ok (cs, st2)) :
    CloneInv g defaults base st2 ∧ st.Grows st2 ∧
    List.Forall₂ (fun p c => st2.visited.lookup p = some c) roots cs := by
  unfold Profile.CloneInheritanceGraph at h
  obtain ⟨g1, _, l1⟩ :=
    cloneParentsWith_grows _ [] (cloneNode_grows g (g.length + 1) []) roots st st2 cs h
  exact ⟨cloneParentsWith_inv _ (cloneNode_inv g defaults base (g.length + 1) []) roots st cs
    st2 hinv h, g1, l1⟩

/-! ### Cycles -/

/-- Along a link that the cloner follows, the clone of the parent was made before the
clone of the child. -/
theorem CloneInv.edge {g : List ProfileObject} {defaults : Option Nat} {base : Nat}
    {st : CloneState} (hinv : CloneInv g defaults base st) {u v c : Nat}
    (hu : st.visited.lookup u = some c) (he : ClonedEdge g defaults u v) :
    ∃ c1, st.visited.lookup v = some c1 ∧ c1 < c ∧ ParentEdge st.clones c c1 := by
  obtain ⟨hd, o, ho, hv⟩ := he
  obtain ⟨o1, co, ho1, hco, _, hpar⟩ := hinv.node u c hu
  rw [ho] at ho1
  injection ho1 with ho1
  subst ho1
  obtain ⟨c1, hc1, hl, hlt⟩ := forall₂_exists_of_mem (hpar hd) hv
  exact ⟨c1, hl, hlt, co, hco, hc1⟩

theorem CloneInv.reach {g : List ProfileObject} {defaults : Option Nat} {base : Nat}
    {st : CloneState} (hinv : CloneInv g defaults base st) {u v c : Nat}
    (hu : st.visited.lookup u = some c)
    (hr : Relation.ReflTransGen (ClonedEdge g defaults) u v) :
    ∃ c1, st.visited.lookup v = some c1 ∧ c1 ≤ c ∧
      Relation.ReflTransGen (ParentEdge st.clones) c c1 := by
  induction hr with
  | refl => exact ⟨c, hu, Nat.le_refl _, Relation.ReflTransGen.refl⟩
  | tail _ he ih =>
    obtain ⟨c1, h1, hle, hp⟩ := ih
    obtain ⟨c2, h2, hlt, hp2⟩ := hinv.edge h1 he
    exact ⟨c2, h2, by omega, hp.tail hp2⟩

theorem CloneInv.no_cycle {g : List ProfileObject} {defaults : Option Nat} {base : Nat}
    {st : CloneState} (hinv : CloneInv g defaults base st) {u c : Nat}
    (hu : st.visited.lookup u = some c) :
    ¬ Relation.TransGen (ClonedEdge g defaults) u u := by
  intro hcyc
  obtain ⟨w, hr, he⟩ := Relation.TransGen.tail'_iff.1 hcyc
  obtain ⟨c1, h1, hle, _⟩ := hinv.reach hu hr
  obtain ⟨c2, h2, hlt, _⟩ := hinv.edge h1 he
  rw [hu] at h2
  injection h2 with h2
  omega


/-- A failure with `CyclicInheritance` below a node comes from a node of the current
path that the node reaches, or from a cycle that the node reaches, along links that
the cloner follows. -/
theorem cloneNode_cyclic (g : List ProfileObject) (defaults : Option Nat) (fuel : Nat) :
    ∀ (path : List Nat) (source : Nat) (st : CloneState),
      (∀ d, defaults = some d → ∃ c, st.visited.lookup d = some c) →
      cloneNode g fuel path source st = .error .CyclicInheritance →
      (∃ u ∈ path, Relation.ReflTransGen (ClonedEdge g defaults) source u) ∨
      (∃ c, Relation.ReflTransGen (ClonedEdge g defaults) source c ∧
        Relation.TransGen (ClonedEdge g defaults) c c) := by
  induction fuel with
  | zero =>
    intro path source st _ h
    simp [cloneNode] at h
  | succ fuel ih =>
    intro path source st hreg h
    rcases cloneNode_succ_error h with ⟨hpath, _⟩ | ⟨hpath, hl, ⟨_, he⟩ | ⟨o, ho, hloop⟩⟩
    · exact Or.inl ⟨source, hpath, Relation.ReflTransGen.refl⟩
    · cases he
    · obtain ⟨p, hp, st1, hreg1, hf⟩ :=
        cloneParentsWith_error_elim _
          (fun st => ∀ d, defaults = some d → ∃ c, st.visited.lookup d = some c)
          (fun p st c st1 hst hok d hd => by
            obtain ⟨c1, hc1⟩ := hst d hd
            exact ⟨c1, (cloneNode_grows g fuel (source :: path) p st c st1 hok).1.2 d c1 hc1⟩)
          o.parents st _ hreg hloop
      have hedge : ClonedEdge g defaults source p := by
        refine ⟨?_, o, ho, hp⟩
        intro hd
        obtain ⟨c, hc⟩ := hreg source hd
        rw [hl] at hc
        cases hc
      rcases ih (source :: path) p st1 hreg1 hf with ⟨u, hu, hr⟩ | ⟨c, hr, hcyc⟩
      · rcases List.mem_cons.1 hu with hu | hu
        · subst hu
          exact Or.inr ⟨u, Relation.ReflTransGen.refl, Relation.TransGen.head' hedge hr⟩
        · exact Or.inl ⟨u, hu, Relation.ReflTransGen.head hedge hr⟩
      · exact Or.inr ⟨c, Relation.ReflTransGen.head hedge hr, hcyc⟩

theorem CloneInheritanceGraph_cyclic (g : List ProfileObject) (defaults : Option Nat)
    (roots : List Nat) (st : CloneState)
    (hreg : ∀ d, defaults = some d → ∃ c, st.visited.lookup d = some c)
    (h : Profile.CloneInheritanceGraph g roots st = .error .CyclicInheritance) :
    ∃ root ∈ roots, ∃ c, Relation.ReflTransGen (ClonedEdge g defaults) root c ∧
      Relation.TransGen (ClonedEdge g defaults) c c := by
  obtain ⟨p, hp, st1, hreg1, hf⟩ :=
    cloneParentsWith_error_elim _
      (fun st => ∀ d, defaults = some d → ∃ c, st.visited.lookup d = some c)
      (fun p st c st1 hst hok d hd => by
        obtain ⟨c1, hc1⟩ := hst d hd
        exact ⟨c1, (cloneNode_grows g (g.length + 1) [] p st c st1 hok).1.2 d c1 hc1⟩)
      roots st _ hreg h
  rcases cloneNode_cyclic g defaults (g.length + 1) [] p st1 hreg1 hf with
    ⟨u, hu, _⟩ | ⟨c, hr, hcyc⟩
  · cases hu
  · exact ⟨p, hp, c, hr, hcyc⟩

/-- A successful run means that the roots reach no cycle along links that the cloner
follows. -/
theorem CloneInheritanceGraph_ok_no_cycle (g : List ProfileObject) (defaults : Option Nat)
    (base : Nat) (roots cs : List Nat) (st st2 : CloneState)
    (hinv : CloneInv g defaults base st)
    (h : Profile.CloneInheritanceGraph g roots st = .ok (cs, st2)) :
    ¬ ∃ root ∈ roots, ∃ c, Relation.ReflTransGen (ClonedEdge g defaults) root c ∧
      Relation.TransGen (ClonedEdge g defaults) c c := by
  obtain ⟨hinv2, _, hroots⟩ := CloneInheritanceGraph_ok g defaults base roots cs st st2 hinv h
  rintro ⟨root, hroot, c, hr, hcyc⟩
  obtain ⟨c0, _, h0⟩ := forall₂_exists_of_mem hroots hroot
  obtain ⟨c1, h1, _, _⟩ := hinv2.reach h0 hr
  exact hinv2.no_cycle h1 hcyc

/-! ### The state the cloner starts from -/

theorem registerDefaults_inv (s cloneSettings : CascadiaSettings) (st : CloneState)
    (cloneDefaults : Option Nat)
    (h : registerDefaults s cloneSettings = .ok (st, cloneDefaults)) :
    CloneInv s.objects s._userDefaultProfileSettings cloneSettings.objects.length st ∧
    (∀ d, s._userDefaultProfileSettings = some d → st.visited.lookup d = cloneDefaults ∧
      cloneDefaults = some cloneSettings.objects.length) ∧
    (∃ added, st.clones = cloneSettings.objects ++ added) := by
  unfold registerDefaults at h
  cases hd : s._userDefaultProfileSettings with
  | none =>
    rw [hd] at h
    simp only at h
    injection h with h
    injection h with h1 h2
    subst h1
    refine ⟨⟨?_, ?_, ?_, ?_⟩, ?_, ⟨[], by simp⟩⟩
    · intro u c hu
      simp at hu
    · intro u v c hu
      simp at hu
    · intro c hb hc
      simp only at hc
      omega
    · intro u c hu
      simp at hu
    · intro d hd1
      cases hd1
  | some d =>
    rw [hd] at h
    simp only at h
    cases ho : s.objects[d]? with
    | none =>
      rw [ho] at h
      cases h
    | some o =>
      rw [ho] at h
      simp only at h
      injection h with h
      injection h with h1 h2
      subst h1 h2
      have hcases : ∀ u c, List.lookup u [(d, cloneSettings.objects.length)] = some c →
          u = d ∧ c = cloneSettings.objects.length := by
        intro u c hu
        by_cases he : u = d
        · subst he
          rw [lookup_cons_self] at hu
          exact ⟨rfl, (Option.some.inj hu).symm⟩
        · rw [lookup_cons_ne he] at hu
          simp at hu
      refine ⟨⟨?_, ?_, ?_, ?_⟩, ?_, ⟨[Profile.CopySettings o], rfl⟩⟩
      · intro u c hu
        obtain ⟨_, hc⟩ := hcases u c hu
        simp only [List.length_append, List.length_singleton]
        omega
      · intro u v c hu hv
        rw [(hcases u c hu).1, (hcases v c hv).1]
      · intro c hb hc
        simp only [List.length_append, List.length_singleton] at hc
        have : c = cloneSettings.objects.length := by omega
        exact ⟨d, by rw [this]; exact lookup_cons_self⟩
      · intro u c hu
        obtain ⟨hu1, hc⟩ := hcases u c hu
        subst hu1 hc
        refine ⟨o, Profile.CopySettings o, ho, ?_, rfl, ?_⟩
        · simp
        · intro hne
          exact absurd rfl hne
      · intro d1 hd1
        injection hd1 with hd1
        subst hd1
        exact ⟨lookup_cons_self, rfl⟩

theorem registerDefaults_ok (s cloneSettings : CascadiaSettings) (hwf : WellFormedRefs s) :
    ∃ st cloneDefaults, registerDefaults s cloneSettings = .ok (st, cloneDefaults) := by
  unfold registerDefaults
  cases hd : s._userDefaultProfileSettings with
  | none => exact ⟨_, _, rfl⟩
  | some d =>
    simp only
    rw [List.getElem?_eq_getElem (hwf.2.2 d hd)]
    exact ⟨_, _, rfl⟩

theorem ParentEdge_of_hasParent (g : List ProfileObject) (u v : Nat)
    (h : hasParent g u v = true) : ParentEdge g u v := by
  unfold hasParent at h
  cases ho : g[u]? with
  | none =>
    rw [ho] at h
    cases h
  | some o =>
    rw [ho] at h
    exact ⟨o, ho, of_decide_eq_true h⟩

theorem ClonedEdge_le (g : List ProfileObject) (defaults : Option Nat) (u v : Nat)
    (h : ClonedEdge g defaults u v) : ParentEdge g u v := h.2

theorem acyclic_of_parentsBelow (g : List ProfileObject) (h : parentsBelow g = true) :
    ∀ c, ¬ Relation.TransGen (ParentEdge g) c c := by
  have hedge : ∀ u v, ParentEdge g u v → v < u := by
    rintro u v ⟨o, ho, hv⟩
    have hu : u < g.length := by
      by_contra hc
      rw [List.getElem?_eq_none (Nat.le_of_not_lt hc)] at ho
      cases ho
    unfold parentsBelow at h
    rw [List.all_eq_true] at h
    have h1 := h u (List.mem_range.2 hu)
    rw [ho] at h1
    simp only [List.all_eq_true, decide_eq_true_eq] at h1
    exact h1 v hv
  have htrans : ∀ u v, Relation.TransGen (ParentEdge g) u v → v < u := by
    intro u v huv
    induction huv with
    | single he => exact hedge _ _ he
    | tail _ he ih => exact Nat.lt_trans (hedge _ _ he) ih
  intro c hc
  exact Nat.lt_irrefl c (htrans c c hc)


/-! ### The copy as a whole -/

theorem CopyProfileInheritanceTree_error
    (CloneInheritanceGraph :
      List ProfileObject → List Nat → CloneState → Except CloneFailure (List Nat × CloneState))
    (s cloneSettings : CascadiaSettings) (e : CloneFailure) :
    _CopyProfileInheritanceTree CloneInheritanceGraph s cloneSettings = .error e ↔
      registerDefaults s cloneSettings = .error e ∨
      ∃ st cloneDefaults, registerDefaults s cloneSettings = .ok (st, cloneDefaults) ∧
        CloneInheritanceGraph s.objects s._allProfiles st = .error e := by
  unfold _CopyProfileInheritanceTree
  simp only
  cases hreg : registerDefaults s cloneSettings with
  | error e1 => simp
  | ok res =>
    obtain ⟨st, cloneDefaults⟩ := res
    simp only
    cases hclone : CloneInheritanceGraph s.objects s._allProfiles st with
    | error e1 => simp [hclone]
    | ok res1 => simp [hclone]

theorem CopyProfileInheritanceTree_ok
    (CloneInheritanceGraph :
      List ProfileObject → List Nat → CloneState → Except CloneFailure (List Nat × CloneState))
    (s cloneSettings r : CascadiaSettings) :
    _CopyProfileInheritanceTree CloneInheritanceGraph s cloneSettings = .ok r ↔
      ∃ st cloneDefaults cloneParents st1,
        registerDefaults s cloneSettings = .ok (st, cloneDefaults) ∧
        CloneInheritanceGraph s.objects s._allProfiles st = .ok (cloneParents, st1) ∧
        r = { cloneSettings with
              objects := st1.clones,
              _userDefaultProfileSettings := cloneDefaults,
              _allProfiles := cloneSettings._allProfiles ++ cloneParents,
              _activeProfiles :=
                cloneSettings._activeProfiles
                  ++ cloneParents.filter fun profile => !Hidden st1.clones profile } := by
  unfold _CopyProfileInheritanceTree
  simp only
  cases hreg : registerDefaults s cloneSettings with
  | error e1 => simp
  | ok res =>
    obtain ⟨st, cloneDefaults⟩ := res
    simp only
    cases hclone : CloneInheritanceGraph s.objects s._allProfiles st with
    | error e1 => simp [hclone]
    | ok res1 =>
      obtain ⟨cloneParents, st1⟩ := res1
      simp only [Except.ok.injEq, Prod.mk.injEq, exists_and_left]
      constructor
      · intro h
        exact ⟨st, cloneDefaults, ⟨rfl, rfl⟩, cloneParents, st1, hclone, h.symm⟩
      · rintro ⟨st2, cd2, ⟨h1, h2⟩, cp, st3, h3, h4⟩
        subst h1 h2
        rw [hclone] at h3
        injection h3 with h3
        injection h3 with h5 h6
        subst h5 h6
        exact h4.symm

theorem Except_cases_CloneFailure {α : Type} (x : Except CloneFailure α) :
    (∃ a, x = .ok a) ∨ x = .error .CyclicInheritance ∨ x = .error .nullReference ∨
      x = .error .fuelExhausted := by
  cases x with
  | ok a => exact Or.inl ⟨a, rfl⟩
  | error e =>
    cases e
    · exact Or.inr (Or.inl rfl)
    · exact Or.inr (Or.inr (Or.inl rfl))
    · exact Or.inr (Or.inr (Or.inr rfl))

theorem copy_ne_fuelExhausted (s cloneSettings : CascadiaSettings) :
    _CopyProfileInheritanceTree Profile.CloneInheritanceGraph s cloneSettings
      ≠ .error .fuelExhausted := by
  intro h
  rcases (CopyProfileInheritanceTree_error _ s cloneSettings _).1 h with h | ⟨st, cd, _, h⟩
  · unfold registerDefaults at h
    split at h
    · split at h
      · cases h
      · cases h
    · cases h
  · exact CloneInheritanceGraph_ne_fuelExhausted _ _ _ h

theorem copy_ne_nullReference (s cloneSettings : CascadiaSettings) (hwf : WellFormedRefs s) :
    _CopyProfileInheritanceTree Profile.CloneInheritanceGraph s cloneSettings
      ≠ .error .nullReference := by
  intro h
  obtain ⟨st0, cd0, hreg⟩ := registerDefaults_ok s cloneSettings hwf
  rcases (CopyProfileInheritanceTree_error _ s cloneSettings _).1 h with h | ⟨st, cd, _, h⟩
  · rw [hreg] at h
    cases h
  · exact CloneInheritanceGraph_ne_nullReference _ hwf.1 _ hwf.2.1 _ h

theorem copy_cyclic_sound (s cloneSettings : CascadiaSettings) :
    _CopyProfileInheritanceTree Profile.CloneInheritanceGraph s cloneSettings
        = .error .CyclicInheritance →
      ∃ root ∈ s._allProfiles, ∃ c,
        Relation.ReflTransGen (ClonedEdge s.objects s._userDefaultProfileSettings) root c ∧
        Relation.TransGen (ClonedEdge s.objects s._userDefaultProfileSettings) c c := by
  intro h
  rcases (CopyProfileInheritanceTree_error _ s cloneSettings _).1 h with h | ⟨st, cd, hreg, h⟩
  · unfold registerDefaults at h
    split at h
    · split at h
      · cases h
      · cases h
    · cases h
  · obtain ⟨_, hd, _⟩ := registerDefaults_inv s cloneSettings st cd hreg
    refine CloneInheritanceGraph_cyclic _ _ _ st ?_ h
    intro d hd1
    obtain ⟨h1, h2⟩ := hd d hd1
    exact ⟨_, h1.trans h2⟩

theorem copy_ok_no_cycle (s cloneSettings r : CascadiaSettings)
    (h : _CopyProfileInheritanceTree Profile.CloneInheritanceGraph s cloneSettings = .ok r) :
    ¬ ∃ root ∈ s._allProfiles, ∃ c,
        Relation.ReflTransGen (ClonedEdge s.objects s._userDefaultProfileSettings) root c ∧
        Relation.TransGen (ClonedEdge s.objects s._userDefaultProfileSettings) c c := by
  obtain ⟨st, cd, cs, st1, hreg, hclone, _⟩ :=
    (CopyProfileInheritanceTree_ok _ s cloneSettings r).1 h
  obtain ⟨hinv, _, _⟩ := registerDefaults_inv s cloneSettings st cd hreg
  exact CloneInheritanceGraph_ok_no_cycle _ _ _ _ cs st st1 hinv hclone

/-- C24, as amended: for settings whose references all point at objects, cloning always
ends, with a result or with `CyclicInheritance`: the recursion never runs out of its
budget and meets no null reference. It fails with `CyclicInheritance` exactly when a
profile of the all-profiles list (a parent of the synthetic root) reaches a cycle along
parent links that do not start at the profile-defaults object, which is registered
before the cloner runs and is never explored; so when there is no such cycle, in
particular in an acyclic graph, cloning returns the clone settings, and when there is
no profile-defaults object every reachable cycle makes it fail. -/
theorem copy_cycle_policy (s cloneSettings : CascadiaSettings) (hwf : WellFormedRefs s) :
    _CopyProfileInheritanceTree Profile.CloneInheritanceGraph s cloneSettings
      ≠ .error .fuelExhausted ∧
    _CopyProfileInheritanceTree Profile.CloneInheritanceGraph s cloneSettings
      ≠ .error .nullReference ∧
    (_CopyProfileInheritanceTree Profile.CloneInheritanceGraph s cloneSettings
        = .error .CyclicInheritance ↔
      ∃ root ∈ s._allProfiles, ∃ c,
        Relation.ReflTransGen (ClonedEdge s.objects s._userDefaultProfileSettings) root c ∧
        Relation.TransGen (ClonedEdge s.objects s._userDefaultProfileSettings) c c) ∧
    ((¬ ∃ root ∈ s._allProfiles, ∃ c,
        Relation.ReflTransGen (ClonedEdge s.objects s._userDefaultProfileSettings) root c ∧
        Relation.TransGen (ClonedEdge s.objects s._userDefaultProfileSettings) c c) →
      ∃ r, _CopyProfileInheritanceTree Profile.CloneInheritanceGraph s cloneSettings = .ok r) ∧
    ((∀ c, ¬ Relation.TransGen (ParentEdge s.objects) c c) →
      ∃ r, _CopyProfileInheritanceTree Profile.CloneInheritanceGraph s cloneSettings = .ok r) ∧
    (s._userDefaultProfileSettings = none →
      (∃ root ∈ s._allProfiles, ∃ c,
        Relation.ReflTransGen (ParentEdge s.objects) root c ∧
        Relation.TransGen (ParentEdge s.objects) c c) →
      _CopyProfileInheritanceTree Profile.CloneInheritanceGraph s cloneSettings
        = .error .CyclicInheritance) := by
  have hfuel := copy_ne_fuelExhausted s cloneSettings
  have hnull := copy_ne_nullReference s cloneSettings hwf
  have hiff : _CopyProfileInheritanceTree Profile.CloneInheritanceGraph s cloneSettings
        = .error .CyclicInheritance ↔
      ∃ root ∈ s._allProfiles, ∃ c,
        Relation.ReflTransGen (ClonedEdge s.objects s._userDefaultProfileSettings) root c ∧
        Relation.TransGen (ClonedEdge s.objects s._userDefaultProfileSettings) c c := by
    constructor
    · exact copy_cyclic_sound s cloneSettings
    · intro hcyc
      rcases Except_cases_CloneFailure
        (_CopyProfileInheritanceTree Profile.CloneInheritanceGraph s cloneSettings) with
        ⟨r, hr⟩ | h | h | h
      · exact absurd hcyc (copy_ok_no_cycle s cloneSettings r hr)
      · exact h
      · exact absurd h hnull
      · exact absurd h hfuel
  have hok : (¬ ∃ root ∈ s._allProfiles, ∃ c,
        Relation.ReflTransGen (ClonedEdge s.objects s._userDefaultProfileSettings) root c ∧
        Relation.TransGen (ClonedEdge s.objects s._userDefaultProfileSettings) c c) →
      ∃ r, _CopyProfileInheritanceTree Profile.CloneInheritanceGraph s cloneSettings
        = .ok r := by
    intro hno
    rcases Except_cases_CloneFailure
      (_CopyProfileInheritanceTree Profile.CloneInheritanceGraph s cloneSettings) with
      hr | h | h | h
    · exact hr
    · exact absurd (hiff.1 h) hno
    · exact absurd h hnull
    · exact absurd h hfuel
  refine ⟨hfuel, hnull, hiff, hok, ?_, ?_⟩
  · intro hdag
    apply hok
    rintro ⟨root, _, c, _, hcyc⟩
    exact hdag c (hcyc.mono (ClonedEdge_le _ _))
  · intro hnone hcyc
    apply hiff.2
    have hsame : ∀ u v, ParentEdge s.objects u v →
        ClonedEdge s.objects s._userDefaultProfileSettings u v := by
      intro u v h
      refine ⟨?_, h⟩
      rw [hnone]
      intro hc
      cases hc
    obtain ⟨root, hroot, c, hr, hc⟩ := hcyc
    exact ⟨root, hroot, c, hr.mono hsame, hc.mono hsame⟩

/-- Instance: the settings in which "A" and "B" inherit from each other make the copy
fail with `CyclicInheritance`, and the diamond settings are copied. -/
theorem copy_cycle_policy_witness :
    _CopyProfileInheritanceTree Profile.CloneInheritanceGraph cyclicSettings freshSettings
      = .error .CyclicInheritance ∧
    ∃ r, _CopyProfileInheritanceTree Profile.CloneInheritanceGraph diamondSettings freshSettings
      = .ok r :=
  ⟨(copy_cycle_policy cyclicSettings freshSettings
      ⟨by decide, by decide, fun d hd => by cases hd⟩).2.2.2.2.2 rfl
      ⟨0, by decide, 0, Relation.ReflTransGen.refl,
        Relation.TransGen.tail
          (Relation.TransGen.single (ParentEdge_of_hasParent _ 0 1 (by decide)))
          (ParentEdge_of_hasParent _ 1 0 (by decide))⟩,
   (copy_cycle_policy diamondSettings freshSettings
      ⟨by decide, by decide, fun d hd => by cases hd; decide⟩).2.2.2.2.1
      (acyclic_of_parentsBelow _ (by decide))⟩

/-- The claim C24 fails as stated: in these settings "A" inherits from the
profile-defaults object and the profile-defaults object from "A", so the only profile
of the all-profiles list lies on a cycle of the inheritance graph; yet the copy does
not fail, because the profile-defaults object is in `visited` before the cloner runs
and its parents are never looked at. -/
theorem copy_misses_cycle_through_defaults :
    WellFormedRefs cyclicDefaultsSettings ∧
    (0 ∈ cyclicDefaultsSettings._allProfiles ∧
      Relation.TransGen (ParentEdge cyclicDefaultsSettings.objects) 0 0) ∧
    (_CopyProfileInheritanceTree Profile.CloneInheritanceGraph cyclicDefaultsSettings
        freshSettings).toOption.map (fun r => (r.objects, r._allProfiles))
      = some ([{ settings := inhProfile 0 "defaults" false },
               { settings := inhProfile 12 "A" false, parents := [0] }], [1]) :=
  ⟨⟨by decide, by decide, fun d hd => by cases hd; decide⟩,
   ⟨by decide,
    Relation.TransGen.tail
      (Relation.TransGen.single (ParentEdge_of_hasParent _ 0 1 (by decide)))
      (ParentEdge_of_hasParent _ 1 0 (by decide))⟩,
   rfl⟩


/-- C23, as amended: for an inheritance DAG whose references all point at objects, the
copy returns, and there is a map from source objects to clones under which: the new
entries of the all-profiles list are the clones of the source list, in order; no two
source objects share a clone, and every object added to the clone settings is the
clone of a source object, so each cloned object has exactly one clone; a clone has the
settings of its source and, unless the source is the profile-defaults object, has as
parents the clones of the parents of its source; the clone of the profile-defaults
object is the one stored in the clone settings; and whenever two profiles of the
all-profiles list reach a common ancestor along parent links that do not start at the
profile-defaults object (the object itself counts), the clones of both reach the one
clone of that ancestor along the parent links of the clone settings. -/
theorem copy_shares_ancestors (s cloneSettings : CascadiaSettings) (hwf : WellFormedRefs s)
    (hdag : ∀ c, ¬ Relation.TransGen (ParentEdge s.objects) c c) :
    ∃ (r : CascadiaSettings) (m : Nat → Option Nat),
      _CopyProfileInheritanceTree Profile.CloneInheritanceGraph s cloneSettings = .ok r ∧
      (∃ cloneParents, r._allProfiles = cloneSettings._allProfiles ++ cloneParents ∧
        List.Forall₂ (fun p c => m p = some c) s._allProfiles cloneParents) ∧
      (∀ u v c, m u = some c → m v = some c → u = v) ∧
      (∀ c, cloneSettings.objects.length ≤ c → c < r.objects.length → ∃ u, m u = some c) ∧
      (∀ u c, m u = some c → ∃ o co, s.objects[u]? = some o ∧ r.objects[c]? = some co ∧
        co.settings = o.settings ∧
        (s._userDefaultProfileSettings ≠ some u →
          List.Forall₂ (fun p c1 => m p = some c1) o.parents co.parents)) ∧
      (∀ d, s._userDefaultProfileSettings = some d →
        m d = r._userDefaultProfileSettings ∧ (m d).isSome = true) ∧
      (∀ a b x, a ∈ s._allProfiles → b ∈ s._allProfiles →
        Relation.ReflTransGen (ClonedEdge s.objects s._userDefaultProfileSettings) a x →
        Relation.ReflTransGen (ClonedEdge s.objects s._userDefaultProfileSettings) b x →
        ∃ ca cb cx, m a = some ca ∧ m b = some cb ∧ m x = some cx ∧
          Relation.ReflTransGen (ParentEdge r.objects) ca cx ∧
          Relation.ReflTransGen (ParentEdge r.objects) cb cx) := by
  obtain ⟨r, hr⟩ : ∃ r,
      _CopyProfileInheritanceTree Profile.CloneInheritanceGraph s cloneSettings = .ok r := by
    rcases Except_cases_CloneFailure
      (_CopyProfileInheritanceTree Profile.CloneInheritanceGraph s cloneSettings) with
      hr | h | h | h
    · exact hr
    · obtain ⟨root, _, c, _, hcyc⟩ := copy_cyclic_sound s cloneSettings h
      exact absurd (hcyc.mono (ClonedEdge_le _ _)) (hdag c)
    · exact absurd h (copy_ne_nullReference s cloneSettings hwf)
    · exact absurd h (copy_ne_fuelExhausted s cloneSettings)
  obtain ⟨st, cd, cs, st1, hreg, hclone, hreq⟩ :=
    (CopyProfileInheritanceTree_ok _ s cloneSettings r).1 hr
  obtain ⟨hinv0, hd0, _⟩ := registerDefaults_inv s cloneSettings st cd hreg
  obtain ⟨hinv, hgrow, hroots⟩ :=
    CloneInheritanceGraph_ok _ _ _ _ cs st st1 hinv0 hclone
  have hobj : r.objects = st1.clones := by rw [hreq]
  have hall : r._allProfiles = cloneSettings._allProfiles ++ cs := by rw [hreq]
  have hdef : r._userDefaultProfileSettings = cd := by rw [hreq]
  refine ⟨r, fun u => st1.visited.lookup u, hr, ⟨cs, hall, hroots⟩, hinv.inj, ?_, ?_, ?_, ?_⟩
  · intro c hb hc
    rw [hobj] at hc
    exact hinv.onto c hb hc
  · intro u c hu
    obtain ⟨o, co, ho, hco, hset, hpar⟩ := hinv.node u c hu
    refine ⟨o, co, ho, ?_, hset, ?_⟩
    · rw [hobj]
      exact hco
    · intro hne
      exact forall₂_imp_of_mem (hpar hne) fun _ _ _ h => h.1
  · intro d hd
    obtain ⟨h1, h2⟩ := hd0 d hd
    have h3 : st1.visited.lookup d = some cloneSettings.objects.length :=
      hgrow.2 d _ (h1.trans h2)
    simp only
    rw [hdef, h3, h2]
    exact ⟨rfl, rfl⟩
  · intro a b x ha hb hax hbx
    obtain ⟨ca, _, hca⟩ := forall₂_exists_of_mem hroots ha
    obtain ⟨cb, _, hcb⟩ := forall₂_exists_of_mem hroots hb
    obtain ⟨cx, hcx, _, hpa⟩ := hinv.reach hca hax
    obtain ⟨cx2, hcx2, _, hpb⟩ := hinv.reach hcb hbx
    rw [hcx] at hcx2
    injection hcx2 with hcx2
    subst hcx2
    rw [hobj]
    exact ⟨ca, cb, cx, hca, hcb, hcx, hpa, hpb⟩

/-- Instance: the diamond settings are a well-formed inheritance DAG, so they are copied
with shared ancestors kept; evaluated, the clones of "A" and "B" both have the one
clone of "Base" and the one clone of the profile-defaults object as parents. -/
theorem copy_shares_ancestors_witness :
    (∃ (r : CascadiaSettings) (m : Nat → Option Nat),
      _CopyProfileInheritanceTree Profile.CloneInheritanceGraph diamondSettings freshSettings
        = .ok r ∧
      ∀ u v c, m u = some c → m v = some c → u = v) ∧
    (_CopyProfileInheritanceTree Profile.CloneInheritanceGraph diamondSettings
        freshSettings).toOption.map (fun r => r.objects.map fun o => (o.settings.name, o.parents))
      = some [("defaults", []), ("Root", []), ("Base", [1]), ("A", [2, 0]), ("B", [2, 0])] :=
  ⟨(copy_shares_ancestors diamondSettings freshSettings
      ⟨by decide, by decide, fun d hd => by cases hd; decide⟩
      (acyclic_of_parentsBelow _ (by decide))).imp
      fun _ h => h.imp fun _ h1 => ⟨h1.1, h1.2.2.1⟩,
   rfl⟩

theorem CopyProfileInheritanceTreeWith_copySettingsOnly
    (CloneInheritanceGraph :
      List ProfileObject → List Nat → CloneState → Except CloneFailure (List Nat × CloneState))
    (s cloneSettings : CascadiaSettings) :
    _CopyProfileInheritanceTreeWith copySettingsOnly CloneInheritanceGraph s cloneSettings
      = _CopyProfileInheritanceTree CloneInheritanceGraph s cloneSettings := rfl

/-- The cloner on the settings with "Root" above the profile-defaults object, from a
state in which the profile-defaults object alone is registered: "Root" is cloned when
the cloner meets it as a parent of "A", after every object the state held. -/
theorem CloneInheritanceGraph_sharedAboveDefaults (made : List ProfileObject) (copy : Nat) :
    Profile.CloneInheritanceGraph sharedAboveDefaultsSettings.objects [2, 3]
        { clones := made, visited := [(1, copy)] }
      = .ok ([made.length + 1, made.length + 2],
          { clones := made ++
              [{ settings := inhProfile 10 "Root" false, parents := [] },
               { settings := inhProfile 12 "A" false, parents := [copy, made.length] },
               { settings := inhProfile 13 "B" false, parents := [copy] }],
            visited := [(3, made.length + 2), (2, made.length + 1), (0, made.length),
              (1, copy)] }) := by
  simp [Profile.CloneInheritanceGraph, sharedAboveDefaultsSettings, cloneParentsWith, cloneNode,
    List.lookup]

theorem CopyProfileInheritanceTreeWith_sharedAboveDefaults
    (CopySettings : List ProfileObject → ProfileObject → List ProfileObject × Nat)
    (made : List ProfileObject) (copy : Nat)
    (hmade : CopySettings [] ⟨inhProfile 0 "defaults" false, [0]⟩ = (made, copy)) :
    ∃ active,
      _CopyProfileInheritanceTreeWith CopySettings Profile.CloneInheritanceGraph
          sharedAboveDefaultsSettings freshSettings
        = .ok { objects := made ++
                  [{ settings := inhProfile 10 "Root" false, parents := [] },
                   { settings := inhProfile 12 "A" false, parents := [copy, made.length] },
                   { settings := inhProfile 13 "B" false, parents := [copy] }],
                _allProfiles := [made.length + 1, made.length + 2],
                _activeProfiles := active,
                _userDefaultProfileSettings := some copy } := by
  have hreg : registerDefaultsWith CopySettings sharedAboveDefaultsSettings freshSettings
      = .ok ({ clones := made, visited := [(1, copy)] }, some copy) := by
    simp [registerDefaultsWith, sharedAboveDefaultsSettings, freshSettings, hmade]
  unfold _CopyProfileInheritanceTreeWith
  rw [hreg]
  have hall : sharedAboveDefaultsSettings._allProfiles = [2, 3] := rfl
  simp only [hall, CloneInheritanceGraph_sharedAboveDefaults]
  exact ⟨_, rfl⟩

theorem getElem?_append_add {α : Type} (l1 l2 : List α) (k : Nat) :
    (l1 ++ l2)[l1.length + k]? = l2[k]? := by
  rw [List.getElem?_append_right (Nat.le_add_right _ _), Nat.add_sub_cancel_left]

/-- The parent links of a list of objects in which the parents of the objects before a
position `n` lie before `n`, and so do the parents of the object at `last`: from that
object no link leads to an object at `n` or after it, the object itself apart. -/
theorem reach_stays_below (objects : List ProfileObject) (n last : Nat)
    (hlow : ∀ i o, i < n → objects[i]? = some o → ∀ p ∈ o.parents, p < n)
    (hlast : ∀ o, objects[last]? = some o → ∀ p ∈ o.parents, p < n)
    (x : Nat) (h : Relation.ReflTransGen (ParentEdge objects) last x) :
    x < n ∨ x = last := by
  induction h with
  | refl => exact Or.inr rfl
  | tail _ hbc ih =>
    obtain ⟨o, ho, hp⟩ := hbc
    rcases ih with hb | hb
    · exact Or.inl (hlow _ o hb ho _ hp)
    · rw [hb] at ho
      exact Or.inl (hlast o ho _ hp)

/-- The claim C23 fails as stated: these settings are an inheritance DAG in which "A" and
"B" share the ancestor "Root", a parent of "A" and of the profile-defaults object,
from which "B" inherits. The copy of the profile-defaults object is made and
registered before the cloner runs, by a call that gets the object alone and not the
map `visited`; so whatever that call does, as long as what it creates refers only to
objects that exist when it returns: the copy returns, "Root" gets a clone when the
cloner meets it as a parent of "A", the clone of "A" has that clone as a parent, and
the clone of "B" does not reach it along parent links. The copy that has no parents is
such a call, and with it the clone of "B" reaches no clone of "Root" at all. -/
theorem copy_misses_ancestor_above_defaults :
    WellFormedRefs sharedAboveDefaultsSettings ∧
    parentsBelow sharedAboveDefaultsSettings.objects = true ∧
    (ParentEdge sharedAboveDefaultsSettings.objects 2 0 ∧
      Relation.TransGen (ParentEdge sharedAboveDefaultsSettings.objects) 3 0) ∧
    (∀ CopySettings : List ProfileObject → ProfileObject → List ProfileObject × Nat,
      (∀ source : ProfileObject,
        (CopySettings [] source).2 < (CopySettings [] source).1.length ∧
        ∀ o ∈ (CopySettings [] source).1, ∀ p ∈ o.parents,
          p < (CopySettings [] source).1.length) →
      ∃ (r : CascadiaSettings) (a b x : Nat),
        _CopyProfileInheritanceTreeWith CopySettings Profile.CloneInheritanceGraph
          sharedAboveDefaultsSettings freshSettings = .ok r ∧
        r._allProfiles = [a, b] ∧
        (r.objects[a]?).map (fun o => o.settings) = some (inhProfile 12 "A" false) ∧
        (r.objects[b]?).map (fun o => o.settings) = some (inhProfile 13 "B" false) ∧
        (r.objects[x]?).map (fun o => o.settings) = some (inhProfile 10 "Root" false) ∧
        ParentEdge r.objects a x ∧
        ¬ Relation.ReflTransGen (ParentEdge r.objects) b x) ∧
    (∀ source : ProfileObject,
      (copySettingsOnly [] source).2 < (copySettingsOnly [] source).1.length ∧
      ∀ o ∈ (copySettingsOnly [] source).1, ∀ p ∈ o.parents,
        p < (copySettingsOnly [] source).1.length) ∧
    (_CopyProfileInheritanceTree Profile.CloneInheritanceGraph sharedAboveDefaultsSettings
        freshSettings).toOption.map
          (fun r => (r.objects.map fun o => (o.settings.name, o.parents), r._allProfiles))
      = some ([("defaults", []), ("Root", []), ("A", [0, 1]), ("B", [0])], [2, 3]) := by
  refine ⟨⟨by decide, by decide, fun d hd => by cases hd; decide⟩, by decide,
    ⟨ParentEdge_of_hasParent _ 2 0 (by decide),
     Relation.TransGen.tail
      (Relation.TransGen.single (ParentEdge_of_hasParent _ 3 1 (by decide)))
      (ParentEdge_of_hasParent _ 1 0 (by decide))⟩, ?_,
    fun source => by simp [copySettingsOnly, Profile.CopySettings], rfl⟩
  intro CopySettings hcopy
  obtain ⟨hpos, hpar⟩ := hcopy ⟨inhProfile 0 "defaults" false, [0]⟩
  obtain ⟨active, hr⟩ := CopyProfileInheritanceTreeWith_sharedAboveDefaults CopySettings
    _ _ rfl
  generalize (CopySettings [] ⟨inhProfile 0 "defaults" false, [0]⟩).1 = made at hpos hpar hr
  generalize (CopySettings [] ⟨inhProfile 0 "defaults" false, [0]⟩).2 = copy at hpos hr
  refine ⟨_, made.length + 1, made.length + 2, made.length, hr, rfl, ?_, ?_, ?_, ?_, ?_⟩
  · simp only [getElem?_append_add]
    rfl
  · simp only [getElem?_append_add]
    rfl
  · have h0 := getElem?_append_add made
      [{ settings := inhProfile 10 "Root" false, parents := [] },
       { settings := inhProfile 12 "A" false, parents := [copy, made.length] },
       ({ settings := inhProfile 13 "B" false, parents := [copy] } : ProfileObject)] 0
    rw [Nat.add_zero] at h0
    simp only [h0]
    rfl
  · refine ⟨⟨inhProfile 12 "A" false, [copy, made.length]⟩, ?_, by simp⟩
    simp only [getElem?_append_add]
    rfl
  · intro hreach
    have := reach_stays_below _ made.length (made.length + 2) ?_ ?_ _ hreach
    · omega
    · intro i o hi ho p hp
      simp only at ho
      rw [List.getElem?_append_left hi] at ho
      exact hpar o (List.getElem?_mem ho) p hp
    · intro o ho p hp
      dsimp only at ho
      rw [getElem?_append_add] at ho
      cases ho
      have hp2 : p = copy := by simpa using hp
      omega


/-! ## `_CopyProfileInheritanceTree` -/

/-- C22: whatever the cloner does, `_CopyProfileInheritanceTree` on clone settings whose
all-profiles and active-profiles lists are still empty produces settings whenever the
profile-defaults object is registered and the cloner returns, and in the settings it
produces the active-profiles list is the all-profiles list with the hidden profiles
filtered out, in the same order: a reference is in the active list exactly when it is
in the all list and its profile is not hidden. -/
theorem CopyProfileInheritanceTree_active
    (CloneInheritanceGraph :
      List ProfileObject → List Nat → CloneState → Except CloneFailure (List Nat × CloneState))
    (s cloneSettings : CascadiaSettings)
    (hall : cloneSettings._allProfiles = []) (hactive : cloneSettings._activeProfiles = []) :
    (∀ st cloneDefaults cloneParents st1,
      registerDefaults s cloneSettings = .ok (st, cloneDefaults) →
      CloneInheritanceGraph s.objects s._allProfiles st = .ok (cloneParents, st1) →
      ∃ r, _CopyProfileInheritanceTree CloneInheritanceGraph s cloneSettings = .ok r ∧
        r._allProfiles = cloneParents) ∧
    ∀ r, _CopyProfileInheritanceTree CloneInheritanceGraph s cloneSettings = .ok r →
      r._activeProfiles = r._allProfiles.filter (fun profile => !Hidden r.objects profile) ∧
      (∀ profile, profile ∈ r._activeProfiles ↔
        profile ∈ r._allProfiles ∧ Hidden r.objects profile = false) := by
  constructor
  · intro st cloneDefaults cloneParents st1 hreg hclone
    refine ⟨_, (CopyProfileInheritanceTree_ok _ s cloneSettings _).2
      ⟨st, cloneDefaults, cloneParents, st1, hreg, hclone, rfl⟩, ?_⟩
    simp [hall]
  intro r hr
  have hfilter : r._activeProfiles
      = r._allProfiles.filter (fun profile => !Hidden r.objects profile) := by
    unfold _CopyProfileInheritanceTree at hr
    simp only at hr
    split at hr
    · cases hr
    · next st cloneDefaults _ =>
      split at hr
      · cases hr
      · next cloneParents st1 _ =>
        injection hr with hr
        subst hr
        simp [hall, hactive]
  refine ⟨hfilter, ?_⟩
  intro profile
  rw [hfilter]
  simp [List.mem_filter]

/-- Instance: the copy of the diamond settings, made by the cloner of the specification:
both profiles are in the all-profiles list, the hidden one is not in the active list. -/
theorem CopyProfileInheritanceTree_active_witness :
    ∃ r, _CopyProfileInheritanceTree Profile.CloneInheritanceGraph diamondSettings freshSettings
        = .ok r ∧
      r._allProfiles = [3, 4] ∧ r._activeProfiles = [3] ∧
      r._activeProfiles = r._allProfiles.filter (fun profile => !Hidden r.objects profile) :=
  ⟨_, rfl, rfl, rfl,
    ((CopyProfileInheritanceTree_active Profile.CloneInheritanceGraph diamondSettings
      freshSettings rfl rfl).2 _ rfl).1⟩


/-! ## Claims on the globals key, the bounds of the pipeline and the reorder stage -/

/-- C31: `_ValidateNoGlobalsKey` appends `LegacyGlobalsProperty` once when the user
document has a top-level member named "globals" and changes nothing otherwise; only
the names of the members matter, so a member "globals" with the value null counts; and
the user document, like everything but the warnings, is the same after the check. -/
theorem ValidateNoGlobalsKey_spec (s : CascadiaSettings) (raw : List (String × JsonValue)) :
    ("globals" ∈ s._userSettings.members →
      _ValidateNoGlobalsKey s = { s with _warnings := s._warnings ++ [.LegacyGlobalsProperty] }) ∧
    ("globals" ∉ s._userSettings.members → _ValidateNoGlobalsKey s = s) ∧
    (s._userSettings.members = memberNames raw →
      ((∃ v, ("globals", v) ∈ raw) →
        (_ValidateNoGlobalsKey s)._warnings = s._warnings ++ [.LegacyGlobalsProperty]) ∧
      (("globals", JsonValue.null) ∈ raw →
        (_ValidateNoGlobalsKey s)._warnings = s._warnings ++ [.LegacyGlobalsProperty]) ∧
      ((∀ v, ("globals", v) ∉ raw) → (_ValidateNoGlobalsKey s)._warnings = s._warnings)) ∧
    (_ValidateNoGlobalsKey s)._userSettings = s._userSettings ∧
    (_ValidateNoGlobalsKey s)._defaultSettings = s._defaultSettings ∧
    (_ValidateNoGlobalsKey s)._profilesAndGroups = s._profilesAndGroups ∧
    (_ValidateNoGlobalsKey s)._globals = s._globals ∧
    (∃ added, (_ValidateNoGlobalsKey s)._warnings = s._warnings ++ added ∧
      added.count .LegacyGlobalsProperty ≤ 1 ∧
      ∀ w ∈ added, w = .LegacyGlobalsProperty) := by
  have hyes : "globals" ∈ s._userSettings.members →
      _ValidateNoGlobalsKey s
        = { s with _warnings := s._warnings ++ [.LegacyGlobalsProperty] } := by
    intro h
    simp [_ValidateNoGlobalsKey, h]
  have hno : "globals" ∉ s._userSettings.members → _ValidateNoGlobalsKey s = s := by
    intro h
    simp [_ValidateNoGlobalsKey, h]
  refine ⟨hyes, hno, ?_, ?_, ?_, ?_, ?_, ?_⟩
  · intro hraw
    have hmem : "globals" ∈ s._userSettings.members ↔ ∃ v, ("globals", v) ∈ raw := by
      rw [hraw, memberNames, List.mem_map]
      constructor
      · rintro ⟨⟨k, v⟩, hkv, hk⟩
        simp only at hk
        subst hk
        exact ⟨v, hkv⟩
      · rintro ⟨v, hv⟩
        exact ⟨("globals", v), hv, rfl⟩
    refine ⟨?_, ?_, ?_⟩
    · intro h
      rw [hyes (hmem.2 h)]
    · intro h
      rw [hyes (hmem.2 ⟨_, h⟩)]
    · intro h
      rw [hno]
      rintro hc
      obtain ⟨v, hv⟩ := hmem.1 hc
      exact h v hv
  · by_cases h : "globals" ∈ s._userSettings.members
    · rw [hyes h]
    · rw [hno h]
  · by_cases h : "globals" ∈ s._userSettings.members
    · rw [hyes h]
    · rw [hno h]
  · by_cases h : "globals" ∈ s._userSettings.members
    · rw [hyes h]
    · rw [hno h]
  · by_cases h : "globals" ∈ s._userSettings.members
    · rw [hyes h]
    · rw [hno h]
  · by_cases h : "globals" ∈ s._userSettings.members
    · rw [hyes h]
      exact ⟨[.LegacyGlobalsProperty], rfl, by simp, by simp⟩
    · rw [hno h]
      exact ⟨[], by simp, by simp, by simp⟩

/-- Instance: the user document of the example has the member "globals", here with the
value null, so the warning follows the one already there; the tree is untouched. -/
theorem ValidateNoGlobalsKey_spec_witness :
    (_ValidateNoGlobalsKey legacySettings)._warnings
      = [.DuplicateProfile, .LegacyGlobalsProperty] ∧
    (_ValidateNoGlobalsKey legacySettings)._userSettings = legacySettings._userSettings :=
  ⟨((ValidateNoGlobalsKey_spec legacySettings
      [("profiles", .other "[]"), ("globals", .null)]).2.2.1 rfl).2.1 (by decide),
   (ValidateNoGlobalsKey_spec legacySettings []).2.2.2.1⟩


/-- C37: the read of `profiles[0]` in `_ValidateDefaultProfileExists` is in bounds inside
the pipeline. `RemoveDuplicateProfiles` with an empty accumulator never empties a tree
whose flattening is non-empty; so whenever `_ValidateProfilesExist` and
`_UpdateActiveProfiles` have succeeded, the flattened tree is non-empty after
`_ValidateNoDuplicateProfiles` and still so after `_ResolveDefaultProfile`, the stage
`_ValidateDefaultProfileExists` returns, and no run of `_ValidateSettings` ends in a
read outside the vector. -/
theorem first_profile_access_in_bounds (env : Collaborators) (s : CascadiaSettings)
    (pgs : List ProfileOrGroup) :
    (ExtractProfiles pgs [] ≠ [] →
      ExtractProfiles (RemoveDuplicateProfiles pgs ∅).1 [] ≠ []) ∧
    (∀ s1 s3, _ValidateProfilesExist s = .ok s1 →
      _UpdateActiveProfiles (_ReorderProfilesToMatchUserSettingsOrder s1) = .ok s3 →
      ExtractProfiles (_ValidateNoDuplicateProfiles s3)._profilesAndGroups [] ≠ [] ∧
      ExtractProfiles
        (_ResolveDefaultProfile env (_ValidateNoDuplicateProfiles s3))._profilesAndGroups []
          ≠ [] ∧
      ∃ s6, _ValidateDefaultProfileExists
        (_ResolveDefaultProfile env (_ValidateNoDuplicateProfiles s3)) = some s6) ∧
    _ValidateSettings env s ≠ .undefinedBehaviour := by
  have hdedup : ∀ t : List ProfileOrGroup, ExtractProfiles t [] ≠ [] →
      ExtractProfiles (RemoveDuplicateProfiles t ∅).1 [] ≠ [] := by
    intro t h
    rw [ExtractProfiles_eq_append_flatten, List.nil_append] at h ⊢
    exact flatten_RemoveDuplicateProfiles_ne_nil t h
  refine ⟨hdedup pgs, ?_, ?_⟩
  · intro s1 s3 _ h3
    rw [UpdateActiveProfiles_eq] at h3
    split at h3
    · cases h3
    · next hne =>
      injection h3 with h3
      have htree : s3._profilesAndGroups
          = RemoveHiddenProfiles (_ReorderProfilesToMatchUserSettingsOrder s1)._profilesAndGroups := by
        rw [← h3]
      have h4 : ExtractProfiles (_ValidateNoDuplicateProfiles s3)._profilesAndGroups [] ≠ [] := by
        rw [ValidateNoDuplicateProfiles_tree, htree]
        exact hdedup _ hne
      have h5 : ExtractProfiles
          (_ResolveDefaultProfile env (_ValidateNoDuplicateProfiles s3))._profilesAndGroups []
            ≠ [] := h4
      obtain ⟨s6, hs6, _⟩ := ValidateDefaultProfileExists_of_ne_nil _ h5
      exact ⟨h4, h5, s6, hs6⟩
  · rcases ValidateSettings_cases env s with ⟨_, h⟩ | ⟨_, _, h⟩ | ⟨_, _, s3, s6, _, _, _, _, h⟩
    · rw [h]
      intro hc
      cases hc
    · rw [h]
      intro hc
      cases hc
    · rw [h]
      intro hc
      cases hc

theorem swapFirstMatch_cases (pgs : List ProfileOrGroup) (guid : GUID) (gIndex : Nat) :
    ∀ (n pIndex : Nat), gIndex ≤ pIndex →
      swapFirstMatch pgs guid gIndex n pIndex = pgs ∨
      ∃ k, ∃ hk : k < pgs.length, ∃ hg : gIndex < pgs.length, gIndex ≤ k ∧
        swapFirstMatch pgs guid gIndex n pIndex = (pgs.set k pgs[gIndex]).set gIndex pgs[k] := by
  intro n
  induction n with
  | zero => intro pIndex _; exact Or.inl rfl
  | succ n ih =>
    intro pIndex hle
    unfold swapFirstMatch
    split
    · next profile hget =>
      split
      · have hk : pIndex < pgs.length := by
          by_contra hc
          rw [List.getElem?_eq_none (Nat.le_of_not_lt hc)] at hget
          cases hget
        have hg : gIndex < pgs.length := Nat.lt_of_le_of_lt hle hk
        exact Or.inr ⟨pIndex, hk, hg, hle, iter_swap_eq pgs pIndex gIndex hk hg⟩
      · exact ih (pIndex + 1) (Nat.le_succ_of_le hle)
    · exact ih (pIndex + 1) (Nat.le_succ_of_le hle)

/-- C38: for every list and every pair of documents, the reorder stage only permutes the
top-level list: the list after it is a permutation of the list before it, so its
length and its entries, with their multiplicities, are the same and no entry is
modified, and the stage changes nothing else. Every step of the outer loop either
leaves the list alone or swaps the positions `k` and `gIndex` with `gIndex ≤ k` and `k`
inside the list, so both swap positions are in bounds. -/
theorem reorder_only_permutes (s : CascadiaSettings) (pgs : List ProfileOrGroup) (guid : GUID)
    (gIndex : Nat) :
    (_ReorderProfilesToMatchUserSettingsOrder s)._profilesAndGroups.Perm s._profilesAndGroups ∧
    (_ReorderProfilesToMatchUserSettingsOrder s)._profilesAndGroups.length
      = s._profilesAndGroups.length ∧
    Multiset.ofList (_ReorderProfilesToMatchUserSettingsOrder s)._profilesAndGroups
      = Multiset.ofList s._profilesAndGroups ∧
    (∀ x, x ∈ (_ReorderProfilesToMatchUserSettingsOrder s)._profilesAndGroups
      ↔ x ∈ s._profilesAndGroups) ∧
    (_ReorderProfilesToMatchUserSettingsOrder s)._warnings = s._warnings ∧
    (_ReorderProfilesToMatchUserSettingsOrder s)._globals = s._globals ∧
    (_ReorderProfilesToMatchUserSettingsOrder s)._userSettings = s._userSettings ∧
    (_ReorderProfilesToMatchUserSettingsOrder s)._defaultSettings = s._defaultSettings ∧
    (swapFirstMatch pgs guid gIndex (pgs.length - gIndex) gIndex = pgs ∨
      ∃ k, ∃ hk : k < pgs.length, ∃ hg : gIndex < pgs.length, gIndex ≤ k ∧
        swapFirstMatch pgs guid gIndex (pgs.length - gIndex) gIndex
          = (pgs.set k pgs[gIndex]).set gIndex pgs[k]) := by
  have hperm : (_ReorderProfilesToMatchUserSettingsOrder s)._profilesAndGroups.Perm
      s._profilesAndGroups := reorderLoop_perm _ _ _
  refine ⟨hperm, hperm.length_eq, ?_, fun x => hperm.mem_iff, rfl, rfl, rfl, rfl, ?_⟩
  · exact Multiset.coe_eq_coe.2 hperm
  · exact swapFirstMatch_cases pgs guid gIndex (pgs.length - gIndex) gIndex (Nat.le_refl _)

/-- Instance: a list of two profiles and two documents that name a guid absent from the
list, repeat a guid and hold Groups: the stage swaps the two profiles and nothing
else happens. -/
theorem reorder_only_permutes_witness :
    (_ReorderProfilesToMatchUserSettingsOrder mixedDocsSettings)._profilesAndGroups
      = [.profile exC, .profile exA] ∧
    (_ReorderProfilesToMatchUserSettingsOrder mixedDocsSettings)._profilesAndGroups.length
      = mixedDocsSettings._profilesAndGroups.length :=
  ⟨rfl, (reorder_only_permutes mixedDocsSettings [] 0 0).2.1⟩


/-! ## Claims on the order of the warnings and on `_HasInvalidColorScheme` -/

theorem ValidateNoDuplicateProfiles_appends (s : CascadiaSettings) :
    (_ValidateNoDuplicateProfiles s)._globals = s._globals ∧
    (_ValidateNoDuplicateProfiles s)._userSettings = s._userSettings ∧
    ∃ b : Bool, (_ValidateNoDuplicateProfiles s)._warnings
      = s._warnings ++ (if b then [.DuplicateProfile] else []) := by
  unfold _ValidateNoDuplicateProfiles
  simp only
  split
  · exact ⟨rfl, rfl, true, rfl⟩
  · exact ⟨rfl, rfl, false, by simp⟩

theorem ValidateDefaultProfileExists_appends (s s6 : CascadiaSettings)
    (h : _ValidateDefaultProfileExists s = some s6) :
    s6._globals.KeybindingsWarnings = s._globals.KeybindingsWarnings ∧
    s6._globals.ColorSchemes = s._globals.ColorSchemes ∧
    s6._globals.Commands = s._globals.Commands ∧
    s6._userSettings = s._userSettings ∧
    ∃ b : Bool, s6._warnings = s._warnings ++ (if b then [.MissingDefaultProfile] else []) := by
  unfold _ValidateDefaultProfileExists at h
  simp only at h
  split at h
  · split at h
    · cases h
    · injection h with h
      subst h
      exact ⟨rfl, rfl, rfl, rfl, true, rfl⟩
  · injection h with h
    subst h
    exact ⟨rfl, rfl, rfl, rfl, false, by simp⟩

theorem ValidateKeybindings_appends (s : CascadiaSettings) :
    (_ValidateKeybindings s)._warnings
      = s._warnings ++ keybindingBlock s._globals.KeybindingsWarnings ∧
    (_ValidateKeybindings s)._userSettings = s._userSettings := by
  unfold _ValidateKeybindings keybindingBlock
  by_cases h : s._globals.KeybindingsWarnings = []
  · simp [h]
  · simp [h, List.isEmpty_iff, foldl_append_singleton]

theorem ValidateColorSchemesInCommands_appends (s : CascadiaSettings) :
    (_ValidateColorSchemesInCommands s)._userSettings = s._userSettings ∧
    ∃ b : Bool, (_ValidateColorSchemesInCommands s)._warnings
      = s._warnings ++ (if b then [.InvalidColorSchemeInCmd] else []) := by
  unfold _ValidateColorSchemesInCommands
  simp only
  split
  · exact ⟨rfl, true, rfl⟩
  · exact ⟨rfl, false, by simp⟩

theorem ValidateNoGlobalsKey_appends (s : CascadiaSettings) :
    ∃ b : Bool, (_ValidateNoGlobalsKey s)._warnings
      = s._warnings ++ (if b then [.LegacyGlobalsProperty] else []) := by
  unfold _ValidateNoGlobalsKey
  split
  · exact ⟨true, rfl⟩
  · exact ⟨false, by simp⟩

theorem ValidateAllSchemesExist_appends (s : CascadiaSettings) :
    ∃ b : Bool, (_ValidateAllSchemesExist s)._warnings
      = s._warnings ++ (if b then [.UnknownColorScheme] else []) := by
  unfold _ValidateAllSchemesExist
  simp only
  split
  · exact ⟨true, rfl⟩
  · exact ⟨false, by simp⟩

theorem ValidateMediaResources_appends (env : Collaborators) (s : CascadiaSettings) :
    (_ValidateMediaResources env s)._globals = s._globals ∧
    ∃ b c : Bool, (_ValidateMediaResources env s)._warnings
      = s._warnings ++ (if b then [.InvalidBackgroundImage] else []) ++
          (if c then [.InvalidIcon] else []) := by
  refine ⟨rfl, ?_⟩
  unfold _ValidateMediaResources appendMediaWarnings
  simp only
  refine ⟨(mediaLoop env.isValidUri env.ExpandedBackgroundImagePath
      env.ExpandEnvironmentStrings (ExtractProfiles s._profilesAndGroups []) false
      false).invalidBackground,
    (mediaLoop env.isValidUri env.ExpandedBackgroundImagePath
      env.ExpandEnvironmentStrings (ExtractProfiles s._profilesAndGroups []) false
      false).invalidIcon, ?_⟩
  split <;> split <;> simp_all

theorem sublist_warningsBeforeKeybindings (b1 b2 b3 b4 b5 : Bool) :
    ((if b1 then [SettingsLoadWarnings.DuplicateProfile] else []) ++
      (if b2 then [SettingsLoadWarnings.MissingDefaultProfile] else []) ++
      (if b3 then [SettingsLoadWarnings.UnknownColorScheme] else []) ++
      (if b4 then [SettingsLoadWarnings.InvalidBackgroundImage] else []) ++
      (if b5 then [SettingsLoadWarnings.InvalidIcon] else [])).Sublist warningsBeforeKeybindings := by
  cases b1 <;> cases b2 <;> cases b3 <;> cases b4 <;> cases b5 <;> decide

theorem sublist_warningsAfterKeybindings (b1 b2 : Bool) :
    ((if b1 then [SettingsLoadWarnings.InvalidColorSchemeInCmd] else []) ++
      (if b2 then [SettingsLoadWarnings.LegacyGlobalsProperty] else [])).Sublist
        warningsAfterKeybindings := by
  cases b1 <;> cases b2 <;> decide

/-- The warnings of a completed run. -/
theorem ValidateSettings_warnings (env : Collaborators) (s s1 : CascadiaSettings)
    (h : _ValidateSettings env s = .completed s1) :
    ∃ before after : List SettingsLoadWarnings,
      s1._warnings = s._warnings ++
        (before ++ keybindingBlock s._globals.KeybindingsWarnings ++ after) ∧
      before.Sublist warningsBeforeKeybindings ∧ after.Sublist warningsAfterKeybindings := by
  rcases ValidateSettings_cases env s with ⟨_, hc⟩ | ⟨_, _, hc⟩ |
    ⟨_, h3, s3, s6, hs3, hw3, hs6, _, hc⟩
  · rw [hc] at h
    cases h
  · rw [hc] at h
    cases h
  · rw [hc] at h
    injection h with h
    subst h
    have hg3 : s3._globals = s._globals := by
      rw [UpdateActiveProfiles_eq, if_neg h3] at hs3
      injection hs3 with hs3
      rw [← hs3]
      rfl
    obtain ⟨hgd, _, b1, hd⟩ := ValidateNoDuplicateProfiles_appends s3
    obtain ⟨hk6, _, _, _, b2, hm⟩ := ValidateDefaultProfileExists_appends _ s6 hs6
    obtain ⟨b3, hsch⟩ := ValidateAllSchemesExist_appends s6
    obtain ⟨hgm, b4, b5, hmed⟩ := ValidateMediaResources_appends env (_ValidateAllSchemesExist s6)
    obtain ⟨hkb, _⟩ := ValidateKeybindings_appends
      (_ValidateMediaResources env (_ValidateAllSchemesExist s6))
    obtain ⟨_, b6, hcmd⟩ := ValidateColorSchemesInCommands_appends
      (_ValidateKeybindings (_ValidateMediaResources env (_ValidateAllSchemesExist s6)))
    obtain ⟨b7, hgl⟩ := ValidateNoGlobalsKey_appends
      (_ValidateColorSchemesInCommands
        (_ValidateKeybindings (_ValidateMediaResources env (_ValidateAllSchemesExist s6))))
    have hK : (_ValidateMediaResources env (_ValidateAllSchemesExist s6))._globals.KeybindingsWarnings
        = s._globals.KeybindingsWarnings := by
      rw [hgm, (ValidateAllSchemesExist_frame s6).2, hk6]
      show (_ValidateNoDuplicateProfiles s3)._globals.KeybindingsWarnings = _
      rw [hgd, hg3]
    refine ⟨_, _, ?_, sublist_warningsBeforeKeybindings b1 b2 b3 b4 b5,
      sublist_warningsAfterKeybindings b6 b7⟩
    unfold warningStages
    rw [hgl, hcmd, hkb, hmed, hsch, hm, hK]
    show ((_ValidateNoDuplicateProfiles s3)._warnings ++ _ ++ _ ++ _ ++ _ ++ _ ++ _ ++ _) = _
    rw [hd, hw3]
    simp only [List.append_assoc]

theorem count_keybindingBlock_le (K : List SettingsLoadWarnings) (w : SettingsLoadWarnings) :
    (keybindingBlock K).count w
      ≤ [SettingsLoadWarnings.AtLeastOneKeybindingWarning].count w + K.count w := by
  unfold keybindingBlock
  split
  · simp
  · rw [List.count_cons, List.count_cons]
    simp only [List.count_nil]
    omega

/-- C39: every stage only appends to the warnings list, and a run of `_ValidateSettings`
either fails, in one of the first three stages, which append nothing, or completes
with the earlier warnings as a prefix, followed by warnings in stage order: some of
DuplicateProfile, MissingDefaultProfile, UnknownColorScheme, InvalidBackgroundImage,
InvalidIcon, in that order and each at most once; then, when there are keybinding
warnings, AtLeastOneKeybindingWarning followed by them; then some of
InvalidColorSchemeInCmd, LegacyGlobalsProperty, in that order and each at most once.
So, the keybinding warnings being of kinds of their own, each of the eight named
kinds is added at most once. -/
theorem ValidateSettings_appends_in_stage_order (env : Collaborators) (s : CascadiaSettings) :
    ((∃ e, _ValidateSettings env s = .failed e) ∨
      ∃ (s1 : CascadiaSettings) (before after : List SettingsLoadWarnings),
        _ValidateSettings env s = .completed s1 ∧
        s1._warnings = s._warnings ++
          (before ++ keybindingBlock s._globals.KeybindingsWarnings ++ after) ∧
        before.Sublist warningsBeforeKeybindings ∧ after.Sublist warningsAfterKeybindings ∧
        before.Nodup ∧ after.Nodup ∧
        ((∀ w ∈ s._globals.KeybindingsWarnings,
            ∃ kind, w = SettingsLoadWarnings.KeybindingWarning kind) →
          ∀ w ∈ warningsBeforeKeybindings ++ [SettingsLoadWarnings.AtLeastOneKeybindingWarning]
              ++ warningsAfterKeybindings,
            (before ++ keybindingBlock s._globals.KeybindingsWarnings ++ after).count w ≤ 1)) ∧
    (∀ s1, _ValidateProfilesExist s = .ok s1 → s1._warnings = s._warnings) ∧
    (_ReorderProfilesToMatchUserSettingsOrder s)._warnings = s._warnings ∧
    (∀ s1, _UpdateActiveProfiles s = .ok s1 → s1._warnings = s._warnings) ∧
    (∃ added, (_ValidateNoDuplicateProfiles s)._warnings = s._warnings ++ added) ∧
    (_ResolveDefaultProfile env s)._warnings = s._warnings ∧
    (∀ s1, _ValidateDefaultProfileExists s = some s1 →
      ∃ added, s1._warnings = s._warnings ++ added) ∧
    (∃ added, (_ValidateAllSchemesExist s)._warnings = s._warnings ++ added) ∧
    (∃ added, (_ValidateMediaResources env s)._warnings = s._warnings ++ added) ∧
    (∃ added, (_ValidateKeybindings s)._warnings = s._warnings ++ added) ∧
    (∃ added, (_ValidateColorSchemesInCommands s)._warnings = s._warnings ++ added) ∧
    (∃ added, (_ValidateNoGlobalsKey s)._warnings = s._warnings ++ added) := by
  refine ⟨?_, ?_, rfl, ?_, ?_, rfl, ?_, ?_, ?_, ?_, ?_, ?_⟩
  · rcases ValidateSettings_cases env s with ⟨_, hc⟩ | ⟨_, _, hc⟩ | ⟨_, _, s3, s6, _, _, _, _, hc⟩
    · exact Or.inl ⟨_, hc⟩
    · exact Or.inl ⟨_, hc⟩
    · right
      obtain ⟨before, after, hw, hb, ha⟩ := ValidateSettings_warnings env s _ hc
      have hnb : before.Nodup := hb.nodup (by decide)
      have hna : after.Nodup := ha.nodup (by decide)
      refine ⟨_, before, after, hc, hw, hb, ha, hnb, hna, ?_⟩
      intro hK w hw1
      have hKw : s._globals.KeybindingsWarnings.count w = 0 := by
        rw [List.count_eq_zero]
        intro hmem
        obtain ⟨kind, hkind⟩ := hK w hmem
        subst hkind
        simp [warningsBeforeKeybindings, warningsAfterKeybindings] at hw1
      have h1 := hb.count_le w
      have h2 := ha.count_le w
      have h3 := count_keybindingBlock_le s._globals.KeybindingsWarnings w
      have h4 : warningsBeforeKeybindings.count w
          + [SettingsLoadWarnings.AtLeastOneKeybindingWarning].count w
          + warningsAfterKeybindings.count w ≤ 1 := by
        simp only [warningsBeforeKeybindings, warningsAfterKeybindings, List.cons_append,
          List.nil_append, List.mem_cons, List.mem_singleton, List.not_mem_nil, or_false] at hw1
        rcases hw1 with h | h | h | h | h | h | h | h <;> subst h <;> decide
      rw [List.count_append, List.count_append]
      omega
  · intro s1 h
    rw [ValidateProfilesExist_eq] at h
    split at h
    · cases h
    · injection h with h
      rw [h]
  · intro s1 h
    rw [UpdateActiveProfiles_eq] at h
    split at h
    · cases h
    · injection h with h
      rw [← h]
  · obtain ⟨_, _, b, hb⟩ := ValidateNoDuplicateProfiles_appends s
    exact ⟨_, hb⟩
  · intro s1 h
    obtain ⟨_, _, _, _, b, hb⟩ := ValidateDefaultProfileExists_appends s s1 h
    exact ⟨_, hb⟩
  · obtain ⟨b, hb⟩ := ValidateAllSchemesExist_appends s
    exact ⟨_, hb⟩
  · obtain ⟨_, b, c, hb⟩ := ValidateMediaResources_appends env s
    exact ⟨_, by rw [hb, List.append_assoc]⟩
  · exact ⟨_, (ValidateKeybindings_appends s).1⟩
  · obtain ⟨_, b, hb⟩ := ValidateColorSchemesInCommands_appends s
    exact ⟨_, hb⟩
  · obtain ⟨b, hb⟩ := ValidateNoGlobalsKey_appends s
    exact ⟨_, hb⟩

/-- Instance: a run on settings that set off every stage: the warning that was there
stays first, and the eight kinds follow in stage order, the keybinding warning right
after its marker. -/
theorem ValidateSettings_appends_in_stage_order_witness :
    (match _ValidateSettings strictEnv allWarningsSettings with
      | .completed s1 => some s1._warnings
      | _ => none)
      = some [.KeybindingWarning 7, .DuplicateProfile, .MissingDefaultProfile,
          .UnknownColorScheme, .InvalidBackgroundImage, .InvalidIcon,
          .AtLeastOneKeybindingWarning, .KeybindingWarning 1, .InvalidColorSchemeInCmd,
          .LegacyGlobalsProperty] ∧
    (_ReorderProfilesToMatchUserSettingsOrder allWarningsSettings)._warnings
      = allWarningsSettings._warnings :=
  ⟨by decide, (ValidateSettings_appends_in_stage_order strictEnv allWarningsSettings).2.2.1⟩


theorem nestedLoop_eq_any (colorSchemes : List String) (l : List Command) :
    nestedLoop colorSchemes l = l.any (fun c => _HasInvalidColorScheme colorSchemes c) := by
  induction l with
  | nil => simp [nestedLoop]
  | cons c rest ih =>
    simp only [nestedLoop, List.any_cons, ih]
    cases _HasInvalidColorScheme colorSchemes c <;> simp

/-- C40: `_HasInvalidColorScheme` is a total function on command trees (it is defined by
recursion on the tree, so it returns on every finite tree), and on a command that has
nested commands its value is that of the loop over the nested commands: true exactly
when one of them is judged invalid, whatever the name, the action and the iteration
marker of the command itself. So a parent command whose own action sets an unknown
scheme and whose nested commands are all judged valid is not reported. -/
theorem HasInvalidColorScheme_judges_parent_by_nested (colorSchemes : List String)
    (name name1 : String) (nested : List Command) (action action1 : Option ActionAndArgs)
    (iterateOn iterateOn1 : ExpandCommandType) (schemeName : String)
    (hnested : nested ≠ []) :
    _HasInvalidColorScheme colorSchemes (.mk name nested action iterateOn)
      = nested.any (fun c => _HasInvalidColorScheme colorSchemes c) ∧
    _HasInvalidColorScheme colorSchemes (.mk name nested action iterateOn)
      = _HasInvalidColorScheme colorSchemes (.mk name1 nested action1 iterateOn1) ∧
    ((∀ c ∈ nested, _HasInvalidColorScheme colorSchemes c = false) →
      schemeName ∉ colorSchemes →
      (Command.mk name nested (some ⟨some (.SetColorSchemeArgs schemeName)⟩)
        .None).carriesInvalidScheme colorSchemes ∧
      _HasInvalidColorScheme colorSchemes
        (.mk name nested (some ⟨some (.SetColorSchemeArgs schemeName)⟩) .None) = false) ∧
    (_HasInvalidColorScheme colorSchemes (.mk name [] action iterateOn) = true ↔
      (Command.mk name [] action iterateOn).carriesInvalidScheme colorSchemes) := by
  have hval : ∀ (n : String) (a : Option ActionAndArgs) (it : ExpandCommandType),
      _HasInvalidColorScheme colorSchemes (.mk n nested a it)
        = nested.any (fun c => _HasInvalidColorScheme colorSchemes c) := by
    intro n a it
    rw [← nestedLoop_eq_any]
    cases nested with
    | nil => exact absurd rfl hnested
    | cons c rest => simp [_HasInvalidColorScheme]
  refine ⟨hval _ _ _, by rw [hval, hval], ?_, leaf_HasInvalidColorScheme_iff _ _ _ _⟩
  intro hall hunknown
  refine ⟨⟨schemeName, rfl, by simp [Command.IterateOn], hunknown⟩, ?_⟩
  rw [hval, List.any_eq_false]
  intro c hc
  simp [hall c hc]

/-- Instance: the parent command of the example sets the unknown scheme "Nope" itself and
holds one valid nested command: it is not reported. -/
theorem HasInvalidColorScheme_judges_parent_by_nested_witness :
    _HasInvalidColorScheme ["Campbell"] parentCommand = false ∧
    parentCommand.carriesInvalidScheme ["Campbell"] :=
  have h := (HasInvalidColorScheme_judges_parent_by_nested ["Campbell"] "parent" "parent"
    [validLeafCommand] none none .None .None "Nope" (List.cons_ne_nil _ _)).2.2.1
    (by decide) (by decide)
  ⟨h.2, h.1⟩


/-! ## Claims on lists of Profiles without Groups -/

theorem isDuplicateAt_head (seen : Finset GUID) (pre rest : List Profile) (p : Profile) :
    isDuplicateAt seen (pre ++ p :: rest) pre.length
      = decide (p.guid ∈ seen ∪ (pre.map fun x => x.guid).toFinset) := by
  unfold isDuplicateAt
  have hget : (pre ++ p :: rest)[pre.length]? = some p := by
    rw [List.getElem?_append_right (Nat.le_refl _)]
    simp
  rw [hget]
  simp only [List.take_left']
  have : (pre.any fun q => decide (q.guid = p.guid)) = decide (p.guid ∈ pre.map fun x => x.guid) := by
    rw [Bool.eq_iff_iff]
    simp only [List.any_eq_true, decide_eq_true_eq, List.mem_map]
  rw [this, Bool.eq_iff_iff]
  simp only [Bool.or_eq_true, decide_eq_true_eq, Finset.mem_union, List.mem_toFinset]

theorem isDuplicateAt_shift (seen : Finset GUID) (pre rest : List Profile) (p : Profile)
    (k : Nat) :
    isDuplicateAt seen (pre ++ p :: rest) (pre.length + (k + 1))
      = isDuplicateAt seen ((pre ++ [p]) ++ rest) ((pre ++ [p]).length + k) := by
  have h1 : (pre ++ [p]) ++ rest = pre ++ p :: rest := by simp
  have h2 : (pre ++ [p]).length + k = pre.length + (k + 1) := by
    simp only [List.length_append, List.length_singleton]
    omega
  rw [h1, h2]

theorem seen_union_snoc_of_mem (seen : Finset GUID) (pre : List Profile) (p : Profile)
    (h : p.guid ∈ seen ∪ (pre.map fun x => x.guid).toFinset) :
    seen ∪ ((pre ++ [p]).map fun x => x.guid).toFinset
      = seen ∪ (pre.map fun x => x.guid).toFinset := by
  ext x
  simp only [List.map_append, List.map_cons, List.map_nil, Finset.mem_union, List.mem_toFinset,
    List.mem_append, List.mem_singleton] at h ⊢
  constructor
  · rintro (hx | hx | hx)
    · exact Or.inl hx
    · exact Or.inr hx
    · rw [hx]
      exact h
  · rintro (hx | hx)
    · exact Or.inl hx
    · exact Or.inr (Or.inl hx)

theorem seen_union_snoc (seen : Finset GUID) (pre : List Profile) (p : Profile) :
    seen ∪ ((pre ++ [p]).map fun x => x.guid).toFinset
      = insert p.guid (seen ∪ (pre.map fun x => x.guid).toFinset) := by
  ext x
  simp only [List.map_append, List.map_cons, List.map_nil, Finset.mem_union, List.mem_toFinset,
    List.mem_append, List.mem_singleton, Finset.mem_insert]
  tauto

theorem range_succ_filter (n : Nat) (keep : Nat → Bool) :
    (List.range (n + 1)).filter keep
      = (if keep 0 then [0] else []) ++
          ((List.range n).filter fun k => keep (k + 1)).map (fun k => k + 1) := by
  rw [List.range_succ_eq_map, List.filter_cons, List.filter_map]
  have : (keep ∘ Nat.succ) = fun k => keep (k + 1) := rfl
  rw [this]
  split <;> simp [Nat.succ_eq_add_one]

theorem dedupTopLevel_profiles (seen : Finset GUID) :
    ∀ (rest pre : List Profile),
      dedupTopLevel (rest.map ProfileOrGroup.profile)
          (seen ∪ (pre.map fun x => x.guid).toFinset)
        = (((List.range rest.length).filter
            fun k => !isDuplicateAt seen (pre ++ rest) (pre.length + k)).filterMap
              fun k => rest[k]?).map ProfileOrGroup.profile := by
  intro rest
  induction rest with
  | nil => intro pre; simp [dedupTopLevel]
  | cons p rest ih =>
    intro pre
    have hhead := isDuplicateAt_head seen pre rest p
    have hshift : (fun k => !isDuplicateAt seen (pre ++ p :: rest) (pre.length + (k + 1)))
        = fun k => !isDuplicateAt seen ((pre ++ [p]) ++ rest) ((pre ++ [p]).length + k) := by
      funext k
      rw [isDuplicateAt_shift]
    simp only [List.length_cons, List.map_cons]
    rw [range_succ_filter, hshift]
    simp only [Nat.add_zero, hhead]
    have htail : (List.map (fun k => k + 1)
          ((List.range rest.length).filter
            fun k => !isDuplicateAt seen ((pre ++ [p]) ++ rest) ((pre ++ [p]).length + k))).filterMap
          (fun k => (p :: rest)[k]?)
        = ((List.range rest.length).filter
            fun k => !isDuplicateAt seen ((pre ++ [p]) ++ rest)
              ((pre ++ [p]).length + k)).filterMap fun k => rest[k]? := by
      rw [List.filterMap_map]
      congr 1
      funext k
      simp [Function.comp]
    by_cases hmem : p.guid ∈ seen ∪ (pre.map fun x => x.guid).toFinset
    · simp only [dedupTopLevel, hmem, if_true, decide_True, Bool.not_true, Bool.false_eq_true,
        if_false, List.nil_append]
      rw [htail, ← ih (pre ++ [p]), seen_union_snoc_of_mem seen pre p hmem]
    · simp only [dedupTopLevel, hmem, if_false, decide_False, Bool.not_false, if_true,
        List.singleton_append, List.filterMap_cons, List.getElem?_cons_zero, List.map_cons]
      rw [htail, ← ih (pre ++ [p]), seen_union_snoc]

theorem duplicateIndices_profiles (seen : Finset GUID) :
    ∀ (rest pre : List Profile),
      duplicateIndices (rest.map ProfileOrGroup.profile) pre.length
          (seen ∪ (pre.map fun x => x.guid).toFinset)
        = ((List.range rest.length).filter
            fun k => isDuplicateAt seen (pre ++ rest) (pre.length + k)).map
              fun k => pre.length + k := by
  intro rest
  induction rest with
  | nil => intro pre; simp [duplicateIndices]
  | cons p rest ih =>
    intro pre
    have hhead := isDuplicateAt_head seen pre rest p
    have hshift : (fun k => isDuplicateAt seen (pre ++ p :: rest) (pre.length + (k + 1)))
        = fun k => isDuplicateAt seen ((pre ++ [p]) ++ rest) ((pre ++ [p]).length + k) := by
      funext k
      rw [isDuplicateAt_shift]
    have hlen : (pre ++ [p]).length = pre.length + 1 := by simp
    simp only [List.length_cons, List.map_cons]
    rw [range_succ_filter, hshift]
    simp only [Nat.add_zero, hhead, List.map_append, List.map_map]
    have htail : List.map ((fun k => pre.length + k) ∘ fun k => k + 1)
          ((List.range rest.length).filter
            fun k => isDuplicateAt seen ((pre ++ [p]) ++ rest) ((pre ++ [p]).length + k))
        = ((List.range rest.length).filter
            fun k => isDuplicateAt seen ((pre ++ [p]) ++ rest) ((pre ++ [p]).length + k)).map
              fun k => (pre ++ [p]).length + k := by
      apply List.map_congr_left
      intro k _
      simp only [Function.comp, hlen]
      omega
    rw [htail, ← ih (pre ++ [p]), hlen]
    by_cases hmem : p.guid ∈ seen ∪ (pre.map fun x => x.guid).toFinset
    · simp only [duplicateIndices, hmem, if_true, decide_True, List.map_cons, List.map_nil,
        Nat.add_zero, List.singleton_append]
      rw [seen_union_snoc_of_mem seen pre p hmem]
    · simp only [duplicateIndices, hmem, if_false, decide_False, Bool.false_eq_true,
        List.map_nil, List.nil_append]
      rw [seen_union_snoc]

theorem hasDuplicate_profiles (seen : Finset GUID) :
    ∀ (rest pre : List Profile),
      hasDuplicate (seen ∪ (pre.map fun x => x.guid).toFinset) (rest.map fun x => x.guid)
        = (List.range rest.length).any
            fun k => isDuplicateAt seen (pre ++ rest) (pre.length + k) := by
  intro rest
  induction rest with
  | nil => intro pre; simp [hasDuplicate]
  | cons p rest ih =>
    intro pre
    have hhead := isDuplicateAt_head seen pre rest p
    simp only [List.length_cons, List.map_cons, hasDuplicate]
    rw [List.range_succ_eq_map, List.any_cons, List.any_map]
    simp only [Nat.add_zero, hhead]
    congr 1
    rw [← seen_union_snoc, ih (pre ++ [p])]
    congr 1
    funext k
    simp only [Function.comp, Nat.succ_eq_add_one]
    rw [isDuplicateAt_shift]


theorem entriesWhere_map {α β : Type} (f : α → β) (v : List α) (keep : Nat → Bool) :
    entriesWhere (v.map f) keep = (entriesWhere v keep).map f := by
  unfold entriesWhere
  rw [List.map_filterMap, List.length_map]
  congr 1
  funext i
  rw [List.getElem?_map]

theorem length_entriesWhere {α : Type} (v : List α) (keep : Nat → Bool) :
    (entriesWhere v keep).length = ((List.range v.length).filter keep).length := by
  unfold entriesWhere
  have hgen : ∀ l : List Nat, (∀ i ∈ l, i < v.length) →
      (l.filterMap fun i => v[i]?).length = l.length := by
    intro l
    induction l with
    | nil => intro _; rfl
    | cons a rest ih =>
      intro h
      have ha : a < v.length := h a (List.mem_cons_self _ _)
      rw [List.filterMap_cons, List.getElem?_eq_getElem ha]
      simp only [List.length_cons]
      rw [ih fun i hi => h i (List.mem_cons_of_mem _ hi)]
  apply hgen
  intro i hi
  exact List.mem_range.1 (List.mem_filter.1 hi).1

theorem dedupTopLevel_sublist :
    ∀ (pgs : List ProfileOrGroup) (seen : Finset GUID), (dedupTopLevel pgs seen).Sublist pgs := by
  intro pgs
  induction pgs with
  | nil => intro seen; simp [dedupTopLevel]
  | cons x rest ih =>
    intro seen
    cases x with
    | profile p =>
      simp only [dedupTopLevel]
      split
      · exact (ih _).cons _
      · exact (ih _).cons₂ _
    | group g =>
      simp only [dedupTopLevel]
      exact (ih _).cons₂ _

/-- C32: on a list that holds only Profiles, for every initial seen-guid set,
`RemoveDuplicateProfiles` leaves the entries that are no duplicates, in their order: an
entry is removed exactly when its guid is in the set or is the guid of an entry at an
earlier index. The indices its first loop collects are the indices of those entries,
in ascending order, and erasing them in descending order leaves exactly the entries at
the other indices. The returned flag is true exactly when some entry is a duplicate,
that is, exactly when the list got shorter. -/
theorem RemoveDuplicateProfiles_on_profiles (ps : List Profile) (seen : Finset GUID) :
    (RemoveDuplicateProfiles (ps.map ProfileOrGroup.profile) seen).1
      = (entriesWhere ps fun i => !isDuplicateAt seen ps i).map ProfileOrGroup.profile ∧
    (RemoveDuplicateProfiles (ps.map ProfileOrGroup.profile) seen).1.Sublist
      (ps.map ProfileOrGroup.profile) ∧
    (collectDuplicates (ps.map ProfileOrGroup.profile) 0 ⟨seen, [], false⟩).indicesToDelete
      = (List.range ps.length).filter (isDuplicateAt seen ps) ∧
    eraseIndices (ps.map ProfileOrGroup.profile)
        ((List.range ps.length).filter (isDuplicateAt seen ps)).reverse
      = entriesWhere (ps.map ProfileOrGroup.profile)
          (fun i => decide (i ∉ (List.range ps.length).filter (isDuplicateAt seen ps))) ∧
    ((RemoveDuplicateProfiles (ps.map ProfileOrGroup.profile) seen).2.2 = true ↔
      ∃ i, i < ps.length ∧ isDuplicateAt seen ps i = true) ∧
    ((RemoveDuplicateProfiles (ps.map ProfileOrGroup.profile) seen).2.2 = true ↔
      (RemoveDuplicateProfiles (ps.map ProfileOrGroup.profile) seen).1.length < ps.length) := by
  have hseen : seen ∪ (([] : List Profile).map fun x => x.guid).toFinset = seen := by simp
  have hfst : (RemoveDuplicateProfiles (ps.map ProfileOrGroup.profile) seen).1
      = (entriesWhere ps fun i => !isDuplicateAt seen ps i).map ProfileOrGroup.profile := by
    rw [RemoveDuplicateProfiles_fst]
    have h := dedupTopLevel_profiles seen ps []
    rw [hseen] at h
    simpa [entriesWhere] using h
  have hidx : duplicateIndices (ps.map ProfileOrGroup.profile) 0 seen
      = (List.range ps.length).filter (isDuplicateAt seen ps) := by
    have h := duplicateIndices_profiles seen ps []
    rw [hseen] at h
    simpa using h
  have hflag : (RemoveDuplicateProfiles (ps.map ProfileOrGroup.profile) seen).2.2
      = (List.range ps.length).any (isDuplicateAt seen ps) := by
    rw [RemoveDuplicateProfiles_eq, flatten_map_profile]
    have h := hasDuplicate_profiles seen ps []
    rw [hseen] at h
    simpa using h
  have hex : (RemoveDuplicateProfiles (ps.map ProfileOrGroup.profile) seen).2.2 = true ↔
      ∃ i, i < ps.length ∧ isDuplicateAt seen ps i = true := by
    rw [hflag, List.any_eq_true]
    constructor
    · rintro ⟨i, hi, hd⟩
      exact ⟨i, List.mem_range.1 hi, hd⟩
    · rintro ⟨i, hi, hd⟩
      exact ⟨i, List.mem_range.2 hi, hd⟩
  refine ⟨hfst, ?_, ?_, ?_, hex, ?_⟩
  · rw [RemoveDuplicateProfiles_fst]
    exact dedupTopLevel_sublist _ _
  · rw [collectDuplicates_eq]
    simp only [List.nil_append]
    exact hidx
  · have h := RemoveDuplicateProfiles_eq (ps.map ProfileOrGroup.profile) seen
    have h1 : (RemoveDuplicateProfiles (ps.map ProfileOrGroup.profile) seen).1
        = eraseIndices (ps.map ProfileOrGroup.profile)
            (duplicateIndices (ps.map ProfileOrGroup.profile) 0 seen).reverse := by
      rw [h]
    rw [← hidx, ← h1, hfst, entriesWhere_map]
    congr 1
    unfold entriesWhere
    congr 1
    apply List.filter_congr
    intro i hi
    rw [hidx]
    simp only [List.mem_filter, hi, true_and, Bool.not_eq_true, decide_eq_true_eq]
    cases isDuplicateAt seen ps i <;> simp
  · rw [hex, hfst, List.length_map, length_entriesWhere]
    have hlt := List.length_filter_lt_length_iff_exists
      (p := fun i => !isDuplicateAt seen ps i) (l := List.range ps.length)
    rw [List.length_range] at hlt
    rw [hlt]
    constructor
    · rintro ⟨i, hi, hd⟩
      exact ⟨i, List.mem_range.2 hi, by simp [hd]⟩
    · rintro ⟨i, hi, hd⟩
      refine ⟨i, List.mem_range.1 hi, ?_⟩
      simpa using hd

/-- Instance: with guid 5 already seen, the list with guids 1, 2, 1, 5 loses its third
entry (guid 1 occurs at index 0) and its fourth (guid 5 was seen): the collected
indices are 2 and 3, and the flag is true. -/
theorem RemoveDuplicateProfiles_on_profiles_witness :
    (RemoveDuplicateProfiles (repeatList.map ProfileOrGroup.profile) {5}).1
      = [.profile { guid := 1, name := "One", hidden := false },
         .profile { guid := 2, name := "Two", hidden := false }] ∧
    (collectDuplicates (repeatList.map ProfileOrGroup.profile) 0 ⟨{5}, [], false⟩).indicesToDelete
      = [2, 3] ∧
    (RemoveDuplicateProfiles (repeatList.map ProfileOrGroup.profile) {5}).2.2 = true :=
  ⟨(RemoveDuplicateProfiles_on_profiles repeatList {5}).1.trans rfl,
   (RemoveDuplicateProfiles_on_profiles repeatList {5}).2.2.1.trans (by decide),
   (RemoveDuplicateProfiles_on_profiles repeatList {5}).2.2.2.2.1.2 ⟨2, by decide, by decide⟩⟩


theorem RemoveHiddenProfiles_profiles (ps : List Profile) :
    RemoveHiddenProfiles (ps.map ProfileOrGroup.profile)
      = (ps.filter fun p => !p.hidden).map ProfileOrGroup.profile := by
  induction ps with
  | nil => simp [RemoveHiddenProfiles]
  | cons p rest ih =>
    simp only [List.map_cons, RemoveHiddenProfiles, ih, List.filter_cons]
    cases p.hidden <;> simp

theorem dedupTopLevel_first_per_guid :
    ∀ (vis : List Profile) (seen : Finset GUID),
      ∃ kept : List Profile,
        dedupTopLevel (vis.map ProfileOrGroup.profile) seen = kept.map ProfileOrGroup.profile ∧
        kept.Sublist vis ∧
        ∀ g : GUID, kept.filter (fun p => decide (p.guid = g))
          = if g ∈ seen then [] else (vis.find? fun p => decide (p.guid = g)).toList := by
  intro vis
  induction vis with
  | nil =>
    intro seen
    exact ⟨[], by simp [dedupTopLevel], List.Sublist.slnil, fun g => by simp⟩
  | cons p rest ih =>
    intro seen
    by_cases hmem : p.guid ∈ seen
    · obtain ⟨kept, h1, h2, h3⟩ := ih seen
      refine ⟨kept, ?_, h2.cons _, ?_⟩
      · simp only [List.map_cons, dedupTopLevel, hmem, if_true, h1]
      · intro g
        rw [h3 g]
        by_cases hg : g ∈ seen
        · simp [hg]
        · have hne : p.guid ≠ g := fun h => hg (h ▸ hmem)
          simp [hg, List.find?_cons, hne]
    · obtain ⟨kept, h1, h2, h3⟩ := ih (insert p.guid seen)
      refine ⟨p :: kept, ?_, h2.cons₂ _, ?_⟩
      · simp only [List.map_cons, dedupTopLevel, hmem, if_false, h1]
      · intro g
        rw [List.filter_cons, h3 g]
        by_cases hpg : p.guid = g
        · subst hpg
          simp [hmem, List.find?_cons]
        · have hins : g ∈ insert p.guid seen ↔ g ∈ seen := by
            rw [Finset.mem_insert]
            constructor
            · rintro (h | h)
              · exact absurd h.symm hpg
              · exact h
            · exact Or.inr
          by_cases hg : g ∈ seen
          · simp [hpg, hins, hg]
          · simp [hpg, hins, hg, List.find?_cons]

/-- C33: on a list that holds only Profiles, `RemoveHiddenProfiles` followed by
`RemoveDuplicateProfiles` with an empty accumulator leaves a list of profiles, in their
original order, none of them hidden, that holds for every guid exactly the first
non-hidden profile with that guid, and no profile with a guid that only hidden
profiles have; so a hidden profile never makes a visible profile with its guid
disappear. The two operations do not commute: on some list, removing duplicates first
and hidden profiles second gives another result. -/
theorem hidden_then_duplicates (ps : List Profile) :
    (∃ kept : List Profile,
      (RemoveDuplicateProfiles (RemoveHiddenProfiles (ps.map ProfileOrGroup.profile)) ∅).1
        = kept.map ProfileOrGroup.profile ∧
      kept.Sublist ps ∧
      (∀ p ∈ kept, p.hidden = false) ∧
      (∀ g : GUID, kept.filter (fun p => decide (p.guid = g))
        = (ps.find? fun p => !p.hidden && decide (p.guid = g)).toList) ∧
      (∀ p ∈ ps, p.hidden = false → ∃ q ∈ kept, q.guid = p.guid ∧ q.hidden = false)) ∧
    ∃ l : List Profile,
      RemoveHiddenProfiles (RemoveDuplicateProfiles (l.map ProfileOrGroup.profile) ∅).1
        ≠ (RemoveDuplicateProfiles (RemoveHiddenProfiles (l.map ProfileOrGroup.profile)) ∅).1 := by
  constructor
  · obtain ⟨kept, h1, h2, h3⟩ := dedupTopLevel_first_per_guid (ps.filter fun p => !p.hidden) ∅
    have hvis : ∀ p ∈ kept, p.hidden = false := by
      intro p hp
      have := (List.mem_filter.1 (h2.subset hp)).2
      simpa using this
    have hfirst : ∀ g : GUID, kept.filter (fun p => decide (p.guid = g))
        = (ps.find? fun p => !p.hidden && decide (p.guid = g)).toList := by
      intro g
      rw [h3 g, List.find?_filter]
      simp
    refine ⟨kept, ?_, h2.trans (List.filter_sublist _), hvis, hfirst, ?_⟩
    · rw [RemoveHiddenProfiles_profiles, RemoveDuplicateProfiles_fst, h1]
    · intro p hp hh
      have hsome : (ps.find? fun q => !q.hidden && decide (q.guid = p.guid)).isSome = true := by
        rw [List.find?_isSome]
        exact ⟨p, hp, by simp [hh]⟩
      obtain ⟨q, hq⟩ := Option.isSome_iff_exists.1 hsome
      have hqk : q ∈ kept.filter (fun x => decide (x.guid = p.guid)) := by
        rw [hfirst p.guid, hq]
        simp
      have hq2 := List.mem_filter.1 hqk
      exact ⟨q, hq2.1, by simpa using hq2.2, hvis q hq2.1⟩
  · refine ⟨shadowList, ?_⟩
    intro h
    have h1 : RemoveHiddenProfiles
        (RemoveDuplicateProfiles (shadowList.map ProfileOrGroup.profile) ∅).1
        = [.profile { guid := 6, name := "Other", hidden := false }] := rfl
    have h2 : (RemoveDuplicateProfiles
        (RemoveHiddenProfiles (shadowList.map ProfileOrGroup.profile)) ∅).1
        = [.profile { guid := 4, name := "New", hidden := false },
           .profile { guid := 6, name := "Other", hidden := false }] := rfl
    rw [h1, h2] at h
    have := congrArg List.length h
    simp at this

/-- Instance: a hidden "Old" and the visible "New" and "Newer" share guid 4. Removing
hidden profiles first keeps "New", the first visible profile with the guid; removing
duplicates first drops "New" and "Newer" as duplicates of "Old", which is then removed
for being hidden. -/
theorem hidden_then_duplicates_witness :
    (∃ kept : List Profile,
      (RemoveDuplicateProfiles (RemoveHiddenProfiles (shadowList.map ProfileOrGroup.profile))
          ∅).1 = kept.map ProfileOrGroup.profile ∧
      kept.Sublist shadowList) ∧
    (RemoveDuplicateProfiles (RemoveHiddenProfiles (shadowList.map ProfileOrGroup.profile)) ∅).1
      = [.profile { guid := 4, name := "New", hidden := false },
         .profile { guid := 6, name := "Other", hidden := false }] ∧
    RemoveHiddenProfiles (RemoveDuplicateProfiles (shadowList.map ProfileOrGroup.profile) ∅).1
      = [.profile { guid := 6, name := "Other", hidden := false }] :=
  ⟨(hidden_then_duplicates shadowList).1.imp fun _ h => ⟨h.1, h.2.1⟩, rfl, rfl⟩


/-! ## The guid order with Group placeholders -/

/-- The claim C35 fails as stated: the icon "%ICO%" is five code units long and neither it
nor its expansion "ab" is a resource reference; the test `iconPath.size() > 2` is made
on the expansion, which is two code units long, so the loop leaves the icon as it is
and the stage appends no warning. -/
theorem ValidateMediaResources_measures_expanded_icon :
    wcharSize envIconProfile.icon = 5 ∧
    icoEnv.isValidUri envIconProfile.icon = false ∧
    hasIllFormedIcon icoEnv envIconProfile = true ∧
    icoEnv.ExpandEnvironmentStrings envIconProfile.icon = "ab" ∧
    (mediaLoop icoEnv.isValidUri icoEnv.ExpandedBackgroundImagePath
        icoEnv.ExpandEnvironmentStrings
        (ExtractProfiles envIconSettings._profilesAndGroups []) false false).profiles
      = [envIconProfile] ∧
    (_ValidateMediaResources icoEnv envIconSettings)._warnings = [] := by
  refine ⟨by decide, by decide, by decide, by decide, by decide, by decide⟩

/-- C35, as amended: in `_ValidateMediaResources` an icon whose expanded value is at most
two code units long is left as it is, by the loop and in the tree, and raises no flag,
even when that value is no well-formed resource reference: `InvalidIcon` is among the
appended warnings exactly when some profile of the flattened tree has an icon that is
set and whose expanded value is ill-formed and longer than two code units, so not when
every icon is that short; and when the flattened tree holds such an icon, `InvalidIcon`
is appended once, as the last warning. -/
theorem ValidateMediaResources_short_icons (env : Collaborators) (s : CascadiaSettings)
    (p : Profile) :
    (wcharSize (env.ExpandEnvironmentStrings p.icon) ≤ 2 →
      checkIcon env.isValidUri env.ExpandEnvironmentStrings p = (p, false) ∧
      (p ∈ ExtractProfiles s._profilesAndGroups [] →
        p ∈ ExtractProfiles (_ValidateMediaResources env s)._profilesAndGroups [])) ∧
    (SettingsLoadWarnings.InvalidIcon ∈
        ((_ValidateMediaResources env s)._warnings.drop s._warnings.length) ↔
      ∃ q ∈ ExtractProfiles s._profilesAndGroups [],
        q.icon ≠ "" ∧ env.isValidUri (env.ExpandEnvironmentStrings q.icon) = false ∧
        2 < wcharSize (env.ExpandEnvironmentStrings q.icon)) ∧
    ((∀ q ∈ ExtractProfiles s._profilesAndGroups [],
        wcharSize (env.ExpandEnvironmentStrings q.icon) ≤ 2) →
      SettingsLoadWarnings.InvalidIcon ∉
        ((_ValidateMediaResources env s)._warnings.drop s._warnings.length)) ∧
    (p.icon ≠ "" → env.isValidUri (env.ExpandEnvironmentStrings p.icon) = false →
      2 < wcharSize (env.ExpandEnvironmentStrings p.icon) →
      p ∈ ExtractProfiles s._profilesAndGroups [] →
        ∃ added, (_ValidateMediaResources env s)._warnings
            = s._warnings ++ added ++ [SettingsLoadWarnings.InvalidIcon] ∧
          SettingsLoadWarnings.InvalidIcon ∉ added) := by
  have hshort : ∀ q : Profile, wcharSize (env.ExpandEnvironmentStrings q.icon) ≤ 2 →
      hasInvalidIcon env q = false := by
    intro q hq
    unfold hasInvalidIcon
    have : ¬ 2 < wcharSize (env.ExpandEnvironmentStrings q.icon) := by omega
    simp [this]
  have hlong : p.icon ≠ "" → env.isValidUri (env.ExpandEnvironmentStrings p.icon) = false →
      2 < wcharSize (env.ExpandEnvironmentStrings p.icon) → hasInvalidIcon env p = true := by
    intro h1 h2 h3
    unfold hasInvalidIcon hasIllFormedIcon
    simp [h1, h2, h3]
  have hiff : SettingsLoadWarnings.InvalidIcon ∈
        ((_ValidateMediaResources env s)._warnings.drop s._warnings.length) ↔
      (ExtractProfiles s._profilesAndGroups []).any (hasInvalidIcon env) = true := by
    rw [ValidateMediaResources_warnings]
    simp only [List.append_assoc, List.drop_left']
    cases (ExtractProfiles s._profilesAndGroups []).any (hasInvalidIcon env) <;>
      cases (ExtractProfiles s._profilesAndGroups []).any (hasInvalidBackground env) <;> simp
  refine ⟨?_, ?_, ?_, ?_⟩
  · intro h
    refine ⟨?_, fun hp => hp⟩
    rw [checkIcon_eq, hshort p h]
    simp
  · rw [hiff, any_hasInvalidIcon_iff]
  · intro hall
    rw [hiff]
    have hany : (ExtractProfiles s._profilesAndGroups []).any (hasInvalidIcon env) = false := by
      rw [List.any_eq_false]
      intro q hq
      simp [hshort q (hall q hq)]
    rw [hany]
    simp
  · intro h1 h2 h3 hp
    have hinv := hlong h1 h2 h3
    have hany : (ExtractProfiles s._profilesAndGroups []).any (hasInvalidIcon env) = true := by
      rw [List.any_eq_true]
      exact ⟨p, hp, hinv⟩
    rw [ValidateMediaResources_warnings, hany]
    refine ⟨_, rfl, ?_⟩
    split <;> simp

/-- Instance: the icon "ab", two code units long and no resource reference, is kept and
raises no warning; with the icon "not an icon" in the tree, `InvalidIcon` is the last
warning. -/
theorem ValidateMediaResources_short_icons_witness :
    checkIcon colonEnv.isValidUri colonEnv.ExpandEnvironmentStrings shortIconProfile
      = (shortIconProfile, false) ∧
    (∃ added, (_ValidateMediaResources colonEnv badMediaSettings)._warnings
        = badMediaSettings._warnings ++ added ++ [SettingsLoadWarnings.InvalidIcon] ∧
      SettingsLoadWarnings.InvalidIcon ∉ added) ∧
    (_ValidateMediaResources colonEnv shortIconSettings)._warnings = [] :=
  ⟨((ValidateMediaResources_short_icons colonEnv shortIconSettings shortIconProfile).1
      (by decide)).1,
   (ValidateMediaResources_short_icons colonEnv badMediaSettings badMediaProfile).2.2.2
      (by decide) (by decide) (by decide) (by decide),
   by decide⟩

/-- C36: `CreateNewProfile` on settings whose only profile is named "Profile 2" appends one
profile, so the list holds two, and names it "Profile 2": the new name is the name of
the profile that was already there. -/
theorem CreateNewProfile_repeats_taken_name :
    (allProfileObjects takenNameSettings).map (fun o => o.settings.name) = ["Profile 2"] ∧
    (CreateNewProfile exCreateChild takenNameSettings).map (fun r => r.2._allProfiles)
      = some [1, 2] ∧
    (CreateNewProfile exCreateChild takenNameSettings).map
        (fun r => (allProfileObjects r.2).map fun o => o.settings.name)
      = some ["Profile 2", "Profile 2"] ∧
    (CreateNewProfile exCreateChild takenNameSettings).map
        (fun r => (r.2.objects[r.1]?).map fun o => o.settings.name)
      = some (some "Profile 2") := by
  refine ⟨by decide, by decide, by decide, by decide⟩

end TerminalApp
